import Mathlib

/-!
Shallow embedding of the deterministic extraction subsystem of the
`txtransformer` repository (directory `python-extractor/src/deterministic_extraction`),
together with proofs of the specification claims about it.

Modelling conventions:
* Python `float` and `Decimal` arithmetic are modelled over `ℚ` (exact rationals).
  Every numeric constant of the source is mapped to the same literal in `ℚ`.
* Python `Decimal` objects additionally carry their scale (number of digits after
  the point), modelled by `PyDecimal` below, because `str(amount)` in the source
  depends on it; `==` on `Decimal` compares numerically, modelled by `PyDecimal.toRat`.
* `datetime.datetime` values are modelled by `PyDateTime`; `datetime.now()` is
  threaded through as an explicit `now` parameter.
* Optional third-party libraries (libpostal, dateparser, price-parser, Babel) are
  modelled as explicit function parameters together with the corresponding
  `*_available` flag, exactly at the call sites where the source consults them.
* Exceptions are modelled with `Except String` / `Option` at the places the source
  can raise, and caught where the source catches them.
* Python's stable `list.sort(key=lambda x: x.confidence, reverse=True)` is modelled
  by a stable descending insertion sort (`sortByConfDesc`), which computes the same
  list as CPython's stable sort with `reverse=True`.
-/

namespace Extraction

/-! ## Generic Python-shaped helpers -/

/-- Python substring membership `needle in hay` on character lists. -/
def containsSub (needle : List Char) : List Char → Bool
  | [] => needle.isEmpty
  | c :: t => needle.isPrefixOf (c :: t) || containsSub needle t

/-- Python `needle in hay` for strings. -/
def strIn (needle hay : String) : Bool :=
  containsSub needle.toList hay.toList

/-- Python `str.lower()` (ASCII, as used by the source on ASCII keyword data). -/
def pyLower (s : String) : String := String.mk (s.toList.map Char.toLower)

/-- Python `str.upper()` (ASCII). -/
def pyUpper (s : String) : String := String.mk (s.toList.map Char.toUpper)

/-- Python `str.strip()`: drop leading and trailing whitespace. -/
def pyStrip (s : String) : String :=
  String.mk (((s.toList.dropWhile Char.isWhitespace).reverse.dropWhile
    Char.isWhitespace).reverse)

/-- Python `text.split(c)` for a single-character separator (empty input gives
one empty field, like Python). -/
def splitOnChar (c : Char) : List Char → List (List Char)
  | [] => [[]]
  | x :: t =>
    if x = c then [] :: splitOnChar c t
    else
      match splitOnChar c t with
      | h :: r => (x :: h) :: r
      | [] => [[x]]

/-- Python `text.split('\n')` on strings. -/
def pySplitLines (s : String) : List String :=
  (splitOnChar '\n' s.toList).map String.mk

/-- Python `re.sub(r'\D', '', s)`: keep only decimal digits. -/
def digitsOnly (s : String) : String :=
  String.mk (s.toList.filter Char.isDigit)

/-! ### Kernel-reducible rational arithmetic

`Rat.add`, `Rat.mul`, `Rat.inv` and the scientific literals of `ℚ` are
`@[irreducible]` in this toolchain, which blocks `decide`-style evaluation of
the embedding on concrete inputs. The definitions below compute the same
rationals through `mkRat` (which does reduce); the theorem section proves each
equal to the standard operator, and every decimal literal of the source is
written `mkRat n d` (e.g. Python `0.15` is `mkRat 15 100`). -/

/-- Rational addition (equals `a + b`, see `qAdd_eq`). -/
def qAdd (a b : ℚ) : ℚ := mkRat (a.num * b.den + b.num * a.den) (a.den * b.den)

/-- Rational multiplication (equals `a * b`, see `qMul_eq`). -/
def qMul (a b : ℚ) : ℚ := mkRat (a.num * b.num) (a.den * b.den)

/-- Rational negation (equals `-a`, see `qNeg_eq`). -/
def qNeg (a : ℚ) : ℚ := mkRat (-a.num) a.den

/-- Rational subtraction (equals `a - b`, see `qSub_eq`). -/
def qSub (a b : ℚ) : ℚ := qAdd a (qNeg b)

/-- Rational inverse (equals `a⁻¹`, see `qInv_eq`). -/
def qInv (a : ℚ) : ℚ := mkRat (a.num.sign * a.den) a.num.natAbs

/-- Rational division (equals `a / b`, see `qDiv_eq`). -/
def qDiv (a b : ℚ) : ℚ := qMul a (qInv b)

/-- Python `min(a, b)` on numbers (equals `min a b`, see `qMin_eq`). -/
def qMin (a b : ℚ) : ℚ := if b < a then b else a

/-- Python `max(a, b)` on numbers (equals `max a b`, see `qMax_eq`). -/
def qMax (a b : ℚ) : ℚ := if a < b then b else a

/-- The rational of a natural number (equals the cast, see `qOfNat_eq`). -/
def qOfNat (n : Nat) : ℚ := mkRat n 1

/-- Python `max(l, key=f)` on a non-empty list: first maximal element wins.
CPython replaces the current best only on a strictly greater key. -/
def pyMaxBy (f : α → ℚ) (x : α) (l : List α) : α :=
  l.foldl (fun best a => if f a > f best then a else best) x

/-- Python `max` of a non-empty rational list (0 as the unreachable default). -/
def pyMaxQ : List ℚ → ℚ
  | [] => 0
  | x :: xs => xs.foldl qMax x

/-- Python `min` of a non-empty rational list (0 as the unreachable default). -/
def pyMinQ : List ℚ → ℚ
  | [] => 0
  | x :: xs => xs.foldl qMin x

/-- Python `sum(l)` over rationals. -/
def pySum (l : List ℚ) : ℚ := l.foldl qAdd 0

/-- Python `sum(l) / len(l)`. -/
def pyAvg (l : List ℚ) : ℚ := qDiv (pySum l) (qOfNat l.length)

/-- Python `list(set(l))`, modelled as first-occurrence deduplication (the source
never depends on the hash ordering of the resulting list). -/
def firstDedupAux [DecidableEq α] (seen : List α) : List α → List α
  | [] => []
  | x :: xs =>
    if x ∈ seen then firstDedupAux seen xs else x :: firstDedupAux (x :: seen) xs

/-- Python `list(set(l))`, modelled as first-occurrence deduplication (the source
never depends on the hash ordering of the resulting list). -/
def firstDedup [DecidableEq α] (l : List α) : List α := firstDedupAux [] l

/-! ## Python dict grouping (insertion-ordered), used by the three dedup routines -/

/-- Append `a` to the group of key `k` in an insertion-ordered association list,
creating the group at the end if absent: the update step of the Python pattern
`groups.setdefault(key, []).append(a)` used by the `_deduplicate_*` routines. -/
def addToGroup [DecidableEq κ] (k : κ) (a : α) : List (κ × List α) → List (κ × List α)
  | [] => [(k, [a])]
  | (k', g) :: rest =>
    if k' = k then (k', g ++ [a]) :: rest else (k', g) :: addToGroup k a rest

/-- Group a list by a key, preserving Python dict insertion order. -/
def groupByKey [DecidableEq κ] (key : α → κ) (l : List α) : List (κ × List α) :=
  l.foldl (fun acc a => addToGroup (key a) a acc) []

/-- Python `max(group, key=lambda x: x.confidence)` per group, `none` on an empty
group (never hit: dict groups are created non-empty). -/
def bestOfGroup (f : α → ℚ) : List α → Option α
  | [] => none
  | x :: xs => some (pyMaxBy f x xs)

/-- Shared shape of `_deduplicate_patterns` / `_deduplicate_prices` /
`_deduplicate_dates`: group by the type's key, keep the highest-confidence
member of each group. -/
def dedupByKey [DecidableEq κ] (key : α → κ) (f : α → ℚ) (l : List α) : List α :=
  (groupByKey key l).filterMap (fun kg => bestOfGroup f kg.2)

/-- Insert into a descending-sorted list, before the first element whose key
is not greater: the insertion step of a stable descending sort. -/
def insertDesc (f : α → ℚ) (a : α) : List α → List α
  | [] => [a]
  | b :: t => if f b ≤ f a then a :: b :: t else b :: insertDesc f a t

/-- Python `l.sort(key=lambda x: x.confidence, reverse=True)`: stable
descending sort on the confidence projection (insertion sort from the right,
which has exactly the stable descending-sort semantics of `list.sort`). -/
def sortByConfDesc (f : α → ℚ) (l : List α) : List α :=
  l.foldr (insertDesc f) []

/-! ## Decimal and datetime models -/

/-- Python `decimal.Decimal` with non-negative scale: value `mantissa / 10 ^ scale`.
`scale` is the number of digits after the decimal point in `str(d)`. -/
structure PyDecimal where
  mantissa : Int
  scale : Nat
deriving DecidableEq, Repr

/-- Numeric value of a decimal; Python `==` on `Decimal` compares these. -/
def PyDecimal.toRat (d : PyDecimal) : ℚ := mkRat d.mantissa (10 ^ d.scale)

/-- Exact `Decimal` addition (common-scale, as Python does). -/
def PyDecimal.add (a b : PyDecimal) : PyDecimal :=
  let s := max a.scale b.scale
  ⟨a.mantissa * (10 : Int) ^ (s - a.scale) + b.mantissa * (10 : Int) ^ (s - b.scale), s⟩

/-- Whether `str(d)` contains a decimal point. -/
def PyDecimal.hasPoint (d : PyDecimal) : Bool := d.scale ≠ 0

/-- Number of digits after the point in `str(d)` (`0` when there is no point). -/
def PyDecimal.decimalPlaces (d : PyDecimal) : Nat := d.scale

/-- Python `datetime.datetime` (naive). -/
structure PyDateTime where
  year : Int
  month : Nat
  day : Nat
  hour : Nat := 0
  minute : Nat := 0
  second : Nat := 0
deriving DecidableEq, Repr

/-- Days from the civil epoch 1970-01-01 (Howard Hinnant's `days_from_civil`),
used to compare datetimes and take `timedelta` day differences. -/
def daysFromCivil (y : Int) (m : Nat) (d : Nat) : Int :=
  let y' : Int := if m ≤ 2 then y - 1 else y
  let era : Int := (if 0 ≤ y' then y' else y' - 399) / 400
  let yoe : Int := y' - era * 400
  let mp : Int := ((m : Int) + 9) % 12
  let doy : Int := (153 * mp + 2) / 5 + (d : Int) - 1
  let doe : Int := yoe * 365 + yoe / 4 - yoe / 100 + doy
  era * 146097 + doe - 719468

/-- Seconds from the epoch; gives the datetime ordering and `timedelta` values. -/
def PyDateTime.toSeconds (t : PyDateTime) : Int :=
  daysFromCivil t.year t.month t.day * 86400
    + (t.hour : Int) * 3600 + (t.minute : Int) * 60 + (t.second : Int)

/-- Python `a > b` on datetimes. -/
def PyDateTime.gt (a b : PyDateTime) : Bool := b.toSeconds < a.toSeconds

/-- Python `a < b` on datetimes. -/
def PyDateTime.lt (a b : PyDateTime) : Bool := a.toSeconds < b.toSeconds

/-- Python `(a - b).days` (timedelta floor division by a day). -/
def PyDateTime.subDays (a b : PyDateTime) : Int :=
  Int.fdiv (a.toSeconds - b.toSeconds) 86400

/-- Python `d.date()`: the calendar-day triple, the date-dedup key. -/
def PyDateTime.dateKey (t : PyDateTime) : Int × Nat × Nat := (t.year, t.month, t.day)

/-- Left-pad a natural number with zeros to two digits. -/
def pad2 (n : Nat) : String :=
  if n < 10 then "0" ++ toString n else toString n

/-- Left-pad a year to four digits (as `datetime.date.__str__` does). -/
def pad4 (n : Int) : String :=
  let s := toString n.natAbs
  let s := if s.length < 4 then String.mk (List.replicate (4 - s.length) '0') ++ s else s
  if n < 0 then "-" ++ s else s

/-- Python `str(d.date())`: ISO `YYYY-MM-DD`. -/
def PyDateTime.dateStr (t : PyDateTime) : String :=
  pad4 t.year ++ "-" ++ pad2 t.month ++ "-" ++ pad2 t.day

/-! ## Candidate data model (`@dataclass` definitions of the four extractors) -/

/-- `address_extractor.ExtractedAddress` (the never-populated `coordinates`
field is omitted). -/
structure ExtractedAddress where
  raw_text : String
  confidence : ℚ
  components : List (String × String)
  normalized : String
  context : Option String := none
deriving DecidableEq, Repr

/-- `date_extractor.ExtractedDate`. -/
structure ExtractedDate where
  raw_text : String
  parsed_date : PyDateTime
  confidence : ℚ
  format_detected : String
  context : Option String := none
  date_type : Option String := none
deriving DecidableEq, Repr

/-- `price_extractor.ExtractedPrice`. -/
structure ExtractedPrice where
  raw_text : String
  amount : PyDecimal
  currency : String
  confidence : ℚ
  context : Option String := none
  price_type : Option String := none
deriving DecidableEq, Repr

/-- `pattern_extractor.ExtractedPattern` (the heterogeneous `metadata` dict,
which no claim concerns, is modelled as optional-string pairs, numbers
stringified, `None` as `none`). -/
structure ExtractedPattern where
  raw_text : String
  pattern_type : String
  confidence : ℚ
  value : String
  context : Option String := none
  metadata : List (String × Option String) := []
deriving DecidableEq, Repr

/-- JSON-like values for the `metadata` map of `DeterministicResults`. -/
inductive MetaVal where
  | s (v : String)
  | q (v : ℚ)
  | n (v : Nat)
  | b (v : Bool)
  | list (v : List MetaVal)
  | obj (v : List (String × MetaVal))
deriving Repr

/-- `deterministic_processor.DeterministicResults`. -/
structure DeterministicResults where
  addresses : List ExtractedAddress
  dates : List ExtractedDate
  prices : List ExtractedPrice
  patterns : List ExtractedPattern
  metadata : List (String × MetaVal)
  confidence : ℚ

/-- Association-list lookup (Python `dict[key]` / `dict.get(key)`). -/
def alGet (l : List (String × MetaVal)) (k : String) : Option MetaVal :=
  (l.find? (fun p => p.1 = k)).map Prod.snd

/-- Generic association-list lookup, Python `dict.get(k)`. -/
def assocGet [DecidableEq κ] (l : List (κ × β)) (k : κ) : Option β :=
  (l.find? (fun p => decide (p.1 = k))).map Prod.snd

/-- Python `str(d)` for `Decimal`: the exact digit string with `scale` digits
after the point. -/
def PyDecimal.toStr (d : PyDecimal) : String :=
  if d.scale = 0 then toString d.mantissa
  else
    let digits := toString d.mantissa.natAbs
    let digits :=
      if digits.length < d.scale + 1 then
        String.mk (List.replicate (d.scale + 1 - digits.length) '0') ++ digits
      else digits
    let intPart := String.mk (digits.toList.take (digits.length - d.scale))
    let fracPart := String.mk (digits.toList.drop (digits.length - d.scale))
    (if d.mantissa < 0 then "-" else "") ++ intPart ++ "." ++ fracPart

/-! ## DeterministicProcessor: document-type inference
(`deterministic_processor.DeterministicProcessor._infer_document_type`) -/

/-- Result shape of `_infer_document_type`. -/
structure DocTypeInference where
  most_likely : String
  confidence : ℚ
  scores : List (String × ℚ)
deriving Repr

/-- Python `scores[k] += delta` on the insertion-ordered score dict. -/
def scoresAdd (scores : List (String × ℚ)) (k : String) (δ : ℚ) : List (String × ℚ) :=
  scores.map (fun p => if p.1 = k then (p.1, qAdd p.2 δ) else p)

/-- Python `max(scores, key=scores.get)`: the first key attaining the maximal
value, in dict insertion order. -/
def pyMaxKey (l : List (String × ℚ)) : String :=
  match l with
  | [] => ""
  | x :: xs => (pyMaxBy Prod.snd x xs).1

/-- `DeterministicProcessor._infer_document_type`, translated statement by
statement: six categories initialised to `0.0`, conditional additive evidence
weights, then the max-score category if the max is at least `0.3`,
else `unknown` with confidence `0.0`. -/
def infer_document_type
    (addresses : List ExtractedAddress) (dates : List ExtractedDate)
    (prices : List ExtractedPrice) (patterns : List ExtractedPattern) :
    DocTypeInference :=
  let scores : List (String × ℚ) :=
    [("order", 0), ("invoice", 0), ("shipping", 0),
     ("receipt", 0), ("booking", 0), ("unknown", 0)]
  -- Order indicators
  let order_ids := patterns.filter (fun p => p.pattern_type = "order_id")
  let order_dates := dates.filter (fun d => d.date_type = some "order")
  let scores := if ¬order_ids.isEmpty then scoresAdd scores "order" (mkRat 4 10) else scores
  let scores := if ¬order_dates.isEmpty then scoresAdd scores "order" (mkRat 3 10) else scores
  let scores := if ¬prices.isEmpty then scoresAdd scores "order" (mkRat 2 10) else scores
  -- Invoice indicators
  let invoice_patterns := patterns.filter (fun p => p.pattern_type = "invoice")
  let invoice_dates := dates.filter (fun d => d.date_type = some "invoice")
  let scores := if ¬invoice_patterns.isEmpty then scoresAdd scores "invoice" (mkRat 4 10) else scores
  let scores := if ¬invoice_dates.isEmpty then scoresAdd scores "invoice" (mkRat 3 10) else scores
  let scores :=
    if ¬prices.isEmpty ∧ prices.any (fun p => p.price_type = some "total") then
      scoresAdd scores "invoice" (mkRat 3 10)
    else scores
  -- Shipping indicators
  let tracking := patterns.filter (fun p => p.pattern_type = "tracking")
  let ship_dates := dates.filter (fun d => d.date_type = some "ship")
  let shipping_addresses :=
    addresses.filter (fun a => strIn "ship" (pyLower (a.context.getD "")))
  let scores := if ¬tracking.isEmpty then scoresAdd scores "shipping" (mkRat 4 10) else scores
  let scores := if ¬ship_dates.isEmpty then scoresAdd scores "shipping" (mkRat 3 10) else scores
  let scores := if ¬shipping_addresses.isEmpty then scoresAdd scores "shipping" (mkRat 3 10) else scores
  -- Receipt indicators
  let scores :=
    if ¬prices.isEmpty ∧ prices.length > 2 then scoresAdd scores "receipt" (mkRat 3 10) else scores
  let scores :=
    if prices.any (fun p => p.price_type = some "tax") then scoresAdd scores "receipt" (mkRat 2 10)
    else scores
  -- Determine most likely type
  let max_score := pyMaxQ (scores.map Prod.snd)
  if max_score < mkRat 3 10 then
    { most_likely := "unknown", confidence := 0, scores := scores }
  else
    { most_likely := pyMaxKey scores, confidence := max_score, scores := scores }

/-! ## DeterministicProcessor: overall confidence
(`DeterministicProcessor._calculate_overall_confidence`) -/

/-- `DeterministicProcessor._calculate_overall_confidence`: mean of all
candidate confidences, plus `0.05` per non-empty type capped at `0.15`,
capped above at `1.0`; `0.0` when there is no candidate at all. -/
def calculate_overall_confidence
    (addresses : List ExtractedAddress) (dates : List ExtractedDate)
    (prices : List ExtractedPrice) (patterns : List ExtractedPattern) : ℚ :=
  let all_confidences : List ℚ :=
    addresses.map (·.confidence) ++ dates.map (·.confidence)
      ++ prices.map (·.confidence) ++ patterns.map (·.confidence)
  if all_confidences.isEmpty then 0
  else
    let weighted_confidence := qDiv (pySum all_confidences) (qOfNat all_confidences.length)
    let extraction_types : ℚ :=
      qAdd (qAdd (qAdd (if ¬addresses.isEmpty then 1 else 0) (if ¬dates.isEmpty then 1 else 0))
        (if ¬prices.isEmpty then 1 else 0)) (if ¬patterns.isEmpty then 1 else 0)
    let diversity_bonus := qMin (qMul extraction_types (mkRat 5 100)) (mkRat 15 100)
    qMin (qAdd weighted_confidence diversity_bonus) 1

/-! ## DeterministicProcessor: cross analysis and metadata
(`DeterministicProcessor._perform_cross_analysis`, `_compile_metadata`) -/

/-- Serialise `_infer_document_type`'s result into the metadata map. -/
def docTypeToMeta (d : DocTypeInference) : MetaVal :=
  .obj [("most_likely", .s d.most_likely), ("confidence", .q d.confidence),
        ("scores", .obj (d.scores.map (fun p => (p.1, .q p.2))))]

/-- `DeterministicProcessor._perform_cross_analysis`. -/
def perform_cross_analysis
    (addresses : List ExtractedAddress) (dates : List ExtractedDate)
    (prices : List ExtractedPrice) (patterns : List ExtractedPattern) :
    List (String × MetaVal) :=
  let analysis : List (String × MetaVal) := []
  -- Check for order-related patterns
  let order_patterns := patterns.filter (fun p => p.pattern_type = "order_id")
  let order_dates := dates.filter (fun d => d.date_type = some "order")
  let analysis :=
    if ¬order_patterns.isEmpty ∧ ¬order_dates.isEmpty then
      analysis ++ [("potential_orders", .obj
        [("order_ids", .list (order_patterns.map (fun p => .s p.value))),
         -- `ExtractedDate` has no `normalized_date` attribute, so the
         -- `hasattr` branch always falls back to `str(d.parsed_date.date())`.
         ("order_dates", .list (order_dates.map (fun d => .s d.parsed_date.dateStr))),
         ("confidence", .q (qMin
            (qDiv (pySum (order_patterns.map (·.confidence))) (qOfNat order_patterns.length))
            (qDiv (pySum (order_dates.map (·.confidence))) (qOfNat order_dates.length))))])]
    else analysis
  -- Check for shipping information
  let shipping_addresses :=
    addresses.filter (fun a => strIn "ship" (pyLower (a.context.getD "")))
  let ship_dates := dates.filter (fun d => d.date_type = some "ship")
  let tracking_patterns := patterns.filter (fun p => p.pattern_type = "tracking")
  let analysis :=
    if ¬shipping_addresses.isEmpty ∨ ¬ship_dates.isEmpty ∨ ¬tracking_patterns.isEmpty then
      analysis ++ [("shipping_info", .obj
        [("has_shipping_address", .b (¬shipping_addresses.isEmpty)),
         ("has_ship_date", .b (¬ship_dates.isEmpty)),
         ("has_tracking", .b (¬tracking_patterns.isEmpty)),
         ("tracking_numbers", .list (tracking_patterns.map (fun p => .s p.value)))])]
    else analysis
  -- Check for financial summary
  let analysis :=
    if ¬prices.isEmpty then
      let total_prices := prices.filter (fun p => p.price_type = some "total")
      let tax_prices := prices.filter (fun p => p.price_type = some "tax")
      analysis ++ [("financial_summary", .obj
        [("total_amounts", .list (total_prices.map (fun p =>
            .obj [("amount", .s p.amount.toStr), ("currency", .s p.currency)]))),
         ("tax_amounts", .list (tax_prices.map (fun p =>
            .obj [("amount", .s p.amount.toStr), ("currency", .s p.currency)]))),
         ("price_count", .n prices.length),
         ("currencies", .list ((firstDedup (prices.map (·.currency))).map .s))])]
    else analysis
  -- Document type inference
  analysis ++ [("document_type", docTypeToMeta (infer_document_type addresses dates prices patterns))]

/-- `AddressExtractor.get_extraction_stats`. -/
def address_get_extraction_stats (postal_available : Bool)
    (addresses : List ExtractedAddress) : MetaVal :=
  if addresses.isEmpty then .obj [("total_addresses", .n 0)]
  else
    let confidences := addresses.map (·.confidence)
    .obj [("total_addresses", .n addresses.length),
          ("avg_confidence", .q (qDiv (pySum confidences) (qOfNat confidences.length))),
          ("max_confidence", .q (pyMaxQ confidences)),
          ("min_confidence", .q (pyMinQ confidences)),
          ("high_confidence_addresses", .n ((confidences.filter (fun c => c > mkRat 8 10)).length)),
          ("extraction_method", .s (if postal_available then "libpostal" else "regex_fallback"))]

/-- `DateExtractor.get_extraction_stats`. -/
def date_get_extraction_stats (dateparser_available : Bool)
    (dates : List ExtractedDate) : MetaVal :=
  if dates.isEmpty then .obj [("total_dates", .n 0)]
  else
    let confidences := dates.map (·.confidence)
    let date_types := (dates.map (·.date_type)).reduceOption
    .obj [("total_dates", .n dates.length),
          ("avg_confidence", .q (qDiv (pySum confidences) (qOfNat confidences.length))),
          ("max_confidence", .q (pyMaxQ confidences)),
          ("min_confidence", .q (pyMinQ confidences)),
          ("high_confidence_dates", .n ((confidences.filter (fun c => c > mkRat 8 10)).length)),
          ("date_types_found", .list ((firstDedup date_types).map .s)),
          ("extraction_method", .s (if dateparser_available then "dateparser" else "regex_fallback"))]

/-- `PriceExtractor.get_extraction_stats` (the source converts amounts through
`float`; the conversion is modelled exactly over `ℚ`). -/
def price_get_extraction_stats (price_parser_available : Bool)
    (prices : List ExtractedPrice) : MetaVal :=
  if prices.isEmpty then .obj [("total_prices", .n 0)]
  else
    let confidences := prices.map (·.confidence)
    let currencies := prices.map (·.currency)
    let price_types := (prices.map (·.price_type)).reduceOption
    let amounts := prices.map (fun p => p.amount.toRat)
    .obj [("total_prices", .n prices.length),
          ("avg_confidence", .q (qDiv (pySum confidences) (qOfNat confidences.length))),
          ("max_confidence", .q (pyMaxQ confidences)),
          ("min_confidence", .q (pyMinQ confidences)),
          ("currencies_found", .list ((firstDedup currencies).map .s)),
          ("price_types_found", .list ((firstDedup price_types).map .s)),
          ("total_value_by_currency", .obj ((firstDedup currencies).map (fun c =>
             (c, .q (pySum ((prices.filter (fun p => p.currency = c)).map (fun p => p.amount.toRat))))))),
          ("avg_amount", .q (qDiv (pySum amounts) (qOfNat amounts.length))),
          ("extraction_method", .s (if price_parser_available then "price_parser" else "regex_fallback"))]

/-- `PatternExtractor.get_extraction_stats`. -/
def pattern_get_extraction_stats (patterns : List ExtractedPattern) : MetaVal :=
  if patterns.isEmpty then .obj [("total_patterns", .n 0)]
  else
    let confidences := patterns.map (·.confidence)
    let pattern_types := patterns.map (·.pattern_type)
    .obj [("total_patterns", .n patterns.length),
          ("avg_confidence", .q (qDiv (pySum confidences) (qOfNat confidences.length))),
          ("max_confidence", .q (pyMaxQ confidences)),
          ("min_confidence", .q (pyMinQ confidences)),
          ("high_confidence_patterns", .n ((confidences.filter (fun c => c > mkRat 8 10)).length)),
          ("pattern_types_found", .list ((firstDedup pattern_types).map .s)),
          ("counts_by_type", .obj ((firstDedup pattern_types).map (fun t =>
             (t, .n ((pattern_types.filter (· = t)).length)))))]

/-- `DeterministicProcessor._compile_metadata`. -/
def compile_metadata (postal_available dateparser_available price_parser_available : Bool)
    (addresses : List ExtractedAddress) (dates : List ExtractedDate)
    (prices : List ExtractedPrice) (patterns : List ExtractedPattern)
    (original_text : String) : List (String × MetaVal) :=
  let metadata : List (String × MetaVal) :=
    [("extraction_stats", .obj
       [("text_length", .n original_text.length),
        ("total_extractions", .n (addresses.length + dates.length + prices.length + patterns.length))])]
  let metadata :=
    if ¬addresses.isEmpty then
      metadata ++ [("address_stats", address_get_extraction_stats postal_available addresses)]
    else metadata
  let metadata :=
    if ¬dates.isEmpty then
      metadata ++ [("date_stats", date_get_extraction_stats dateparser_available dates)]
    else metadata
  let metadata :=
    if ¬prices.isEmpty then
      metadata ++ [("price_stats", price_get_extraction_stats price_parser_available prices)]
    else metadata
  let metadata :=
    if ¬patterns.isEmpty then
      metadata ++ [("pattern_stats", pattern_get_extraction_stats patterns)]
    else metadata
  metadata ++ [("cross_analysis", .obj (perform_cross_analysis addresses dates prices patterns))]

/-! ## Small Python string/int helpers used by the validators -/

/-- Python `s.rsplit(c, 1)` when `c` occurs in `s`: the parts before and after
the last occurrence; `(s, "")` when `c` is absent (callers guard occurrence). -/
def rsplitOnce (c : Char) (s : String) : String × String :=
  let rev := s.toList.reverse
  let after := rev.takeWhile (· ≠ c)
  if after.length = rev.length then (s, "")
  else (String.mk ((rev.drop (after.length + 1)).reverse), String.mk after.reverse)

/-- Python `s.split(c)[-1]`: the segment after the last occurrence of `c`
(`s` itself when `c` is absent). -/
def lastSegAfter (c : Char) (s : String) : String :=
  if s.toList.contains c then (rsplitOnce c s).2 else s

/-- Python `s.isdigit()` for ASCII data. -/
def pyIsDigit (s : String) : Bool :=
  ¬s.isEmpty && s.toList.all Char.isDigit

/-- Python `s.isalpha()` for ASCII data. -/
def pyIsAlpha (s : String) : Bool :=
  ¬s.isEmpty && s.toList.all Char.isAlpha

/-- Interpret a non-empty digit list as a natural number. -/
def digitsToNat (l : List Char) : Nat :=
  l.foldl (fun acc c => acc * 10 + (c.toNat - '0'.toNat)) 0

/-- Python `int(s)`: optional surrounding whitespace and sign, then digits;
`none` models the `ValueError`. -/
def pyIntParse (s : String) : Option Int :=
  let t := (pyStrip s).toList
  let core : List Char → Option Nat := fun l =>
    if l.isEmpty ∨ ¬l.all Char.isDigit then none else some (digitsToNat l)
  match t with
  | '+' :: rest => (core rest).map Int.ofNat
  | '-' :: rest => (core rest).map (fun n => -(n : Int))
  | l => (core l).map Int.ofNat

/-! ## Per-type validators (`validate_address` / `validate_date` /
`validate_price` / `validate_pattern`) -/

/-- Shared result shape of the four `validate_*` functions
(the always-empty `suggestions` list is omitted). -/
structure ValidationResult where
  valid : Bool
  score : ℚ
  issues : List String
deriving Repr

/-- `AddressExtractor.validate_address`: presence of street, city and postal
code, with a deduction for a malformed postal code. -/
def validate_address (address : ExtractedAddress) : ValidationResult :=
  let components := address.components
  let has_street := (assocGet components "road").isSome ∨ (assocGet components "street_name").isSome
  let has_city := (assocGet components "city").isSome
  let has_postal := (assocGet components "postcode").isSome ∨ (assocGet components "postal_code").isSome
  let score : ℚ := 0
  let (score, issues) :=
    if has_street then (qAdd score (mkRat 4 10), ([] : List String))
    else (score, ["Missing street information"])
  let (score, issues) :=
    if has_city then (qAdd score (mkRat 3 10), issues) else (score, issues ++ ["Missing city"])
  let (score, issues) :=
    if has_postal then
      let postal := ((assocGet components "postcode").getD
        ((assocGet components "postal_code").getD ""))
      -- `re.match(r'^\d{5}(-\d{4})?$', postal)` is `None` exactly when `postal`
      -- is not five digits optionally followed by a dash and four digits.
      let postalOk :=
        match postal.toList with
        | [a, b, c, d, e] => [a, b, c, d, e].all Char.isDigit
        | [a, b, c, d, e, h, f, g, i, j] =>
          [a, b, c, d, e].all Char.isDigit && h = '-' && [f, g, i, j].all Char.isDigit
        | _ => false
      if postalOk = false then (qSub (qAdd score (mkRat 3 10)) (mkRat 1 10), issues ++ ["Invalid postal code format"])
      else (qAdd score (mkRat 3 10), issues)
    else (score, issues ++ ["Missing postal code"])
  { valid := score ≥ mkRat 6 10, score := score, issues := issues }

/-- `DateExtractor._is_reasonable_date`: year within `[1900, now.year + 10]`. -/
def is_reasonable_date (now : PyDateTime) (d : PyDateTime) : Bool :=
  1900 ≤ d.year && d.year ≤ now.year + 10

/-- `DateExtractor.validate_date` (with `datetime.now()` as the explicit
`now` parameter). -/
def validate_date (now : PyDateTime) (extracted_date : ExtractedDate) : ValidationResult :=
  let date_obj := extracted_date.parsed_date
  let score := extracted_date.confidence
  let (score, issues) :=
    if ¬is_reasonable_date now date_obj then
      (qSub score (mkRat 3 10), ["Date outside reasonable range"])
    else (score, ([] : List String))
  let (score, issues) :=
    if (extracted_date.date_type = some "order" ∨ extracted_date.date_type = some "invoice"
          ∨ extracted_date.date_type = some "created") ∧ date_obj.gt now then
      (qSub score (mkRat 2 10), issues ++ ["Future date for historical event"])
    else (score, issues)
  let (score, issues) :=
    if (extracted_date.date_type = some "ship" ∨ extracted_date.date_type = some "due"
          ∨ extracted_date.date_type = some "event") ∧ date_obj.lt now then
      if now.subDays date_obj > 365 then
        (qSub score (mkRat 1 10), issues ++ ["Very old date for future event"])
      else (score, issues)
    else (score, issues)
  { valid := score ≥ mkRat 5 10, score := qMax score 0, issues := issues }

/-- `PriceExtractor.validate_price`; the currency tables of the extractor
instance are passed explicitly. -/
def validate_price (currency_symbols : List (String × String))
    (currency_codes : List String) (extracted_price : ExtractedPrice) : ValidationResult :=
  let amount := extracted_price.amount
  let currency := extracted_price.currency
  let score := extracted_price.confidence
  let (score, issues) :=
    if amount.toRat ≤ 0 then (qSub score (mkRat 5 10), ["Invalid amount (zero or negative)"])
    else if amount.toRat > 1000000 then (qSub score (mkRat 1 10), ["Unusually large amount"])
    else if amount.toRat < mkRat 1 100 then (qSub score (mkRat 1 10), ["Unusually small amount"])
    else (score, ([] : List String))
  let (score, issues) :=
    if ¬currency_codes.contains currency
        ∧ ¬(currency_symbols.map Prod.snd).contains currency then
      (qSub score (mkRat 2 10), issues ++ ["Unrecognized currency code"])
    else (score, issues)
  let (score, issues) :=
    if ["USD", "EUR", "GBP", "CAD", "AUD"].contains currency then
      let decimal_places := if amount.hasPoint then amount.decimalPlaces else 0
      if decimal_places > 2 then
        (qSub score (mkRat 1 10), issues ++ ["Too many decimal places for currency"])
      else (score, issues)
    else (score, issues)
  { valid := score ≥ mkRat 5 10, score := qMax score 0, issues := issues }

/-- `PatternExtractor._validate_email_format`. -/
def validate_email_format (email : String) : Bool :=
  if email.isEmpty || ¬strIn "@" email then false
  else
    let parts := rsplitOnce '@' email
    let localPart := parts.1
    let domain := parts.2
    if localPart.isEmpty || localPart.length > 64 then false
    else if domain.isEmpty || ¬strIn "." domain || domain.length < 4 then false
    else
      let tld := lastSegAfter '.' domain
      if tld.length < 2 || ¬pyIsAlpha tld then false
      else true

/-- `PatternExtractor.validate_pattern`. -/
def validate_pattern (extracted_pattern : ExtractedPattern) : ValidationResult :=
  let pattern_type := extracted_pattern.pattern_type
  let value := extracted_pattern.value
  let score := extracted_pattern.confidence
  let (score, issues) :=
    if pattern_type = "email" then
      if ¬validate_email_format value then (qSub score (mkRat 3 10), ["Invalid email format"])
      else (score, ([] : List String))
    else if pattern_type = "phone" then
      let digits := digitsOnly value
      if digits.length < 10 then (qSub score (mkRat 2 10), ["Phone number too short"])
      else if digits.length > 15 then (qSub score (mkRat 2 10), ["Phone number too long"])
      else (score, [])
    else if pattern_type = "url" then
      if ¬(strIn "." value ∧ value.length > 5) then (qSub score (mkRat 3 10), ["Invalid URL format"])
      else (score, [])
    else if pattern_type = "quantity" then
      match pyIntParse value with
      | some qty =>
        if qty ≤ 0 then (qSub score (mkRat 5 10), ["Invalid quantity (zero or negative)"])
        else if qty > 10000 then (qSub score (mkRat 1 10), ["Unusually large quantity"])
        else (score, [])
      | none => (qSub score (mkRat 5 10), ["Non-numeric quantity"])
    else (score, [])
  { valid := score ≥ mkRat 5 10, score := qMax score 0, issues := issues }

/-! ## `DeterministicProcessor.validate_results` -/

/-- One entry of `component_validations`. -/
structure ComponentValidation where
  average_score : ℚ
  valid_count : Nat
  total_count : Nat
deriving Repr, DecidableEq

/-- Result shape of `validate_results` (the always-empty top-level `issues`
and `suggestions` lists are omitted). -/
structure ValidationSummary where
  overall_valid : Bool
  overall_score : ℚ
  component_validations : List (String × ComponentValidation)
deriving Repr

/-- Build one per-type component summary from a list of validation results. -/
def componentOf (vs : List ValidationResult) : ComponentValidation :=
  { average_score := qDiv (pySum (vs.map (·.score))) (qOfNat vs.length),
    valid_count := (vs.filter (·.valid)).length,
    total_count := vs.length }

/-- `DeterministicProcessor.validate_results`: run each type's validator over
every candidate of that type, average per type, and report
`overall_valid = (mean of the contributing per-type averages ≥ 0.6)`,
a type contributing only when it has at least one candidate
(`overall_valid` keeps its initial `True` when nothing contributes). -/
def validate_results (currency_symbols : List (String × String))
    (currency_codes : List String) (now : PyDateTime)
    (results : DeterministicResults) : ValidationSummary :=
  let summary : ValidationSummary :=
    { overall_valid := true, overall_score := 0, component_validations := [] }
  let total_score : ℚ := 0
  let component_count : Nat := 0
  -- Validate addresses
  let (summary, total_score, component_count) :=
    if ¬results.addresses.isEmpty then
      let addr_validations := results.addresses.map validate_address
      let comp := componentOf addr_validations
      ({ summary with component_validations :=
           summary.component_validations ++ [("addresses", comp)] },
       qAdd total_score comp.average_score, component_count + 1)
    else (summary, total_score, component_count)
  -- Validate dates
  let (summary, total_score, component_count) :=
    if ¬results.dates.isEmpty then
      let date_validations := results.dates.map (validate_date now)
      let comp := componentOf date_validations
      ({ summary with component_validations :=
           summary.component_validations ++ [("dates", comp)] },
       qAdd total_score comp.average_score, component_count + 1)
    else (summary, total_score, component_count)
  -- Validate prices
  let (summary, total_score, component_count) :=
    if ¬results.prices.isEmpty then
      let price_validations :=
        results.prices.map (validate_price currency_symbols currency_codes)
      let comp := componentOf price_validations
      ({ summary with component_validations :=
           summary.component_validations ++ [("prices", comp)] },
       qAdd total_score comp.average_score, component_count + 1)
    else (summary, total_score, component_count)
  -- Validate patterns
  let (summary, total_score, component_count) :=
    if ¬results.patterns.isEmpty then
      let pattern_validations := results.patterns.map validate_pattern
      let comp := componentOf pattern_validations
      ({ summary with component_validations :=
           summary.component_validations ++ [("patterns", comp)] },
       qAdd total_score comp.average_score, component_count + 1)
    else (summary, total_score, component_count)
  -- Calculate overall score
  if component_count > 0 then
    let overall_score := qDiv total_score (qOfNat component_count)
    { summary with overall_score := overall_score, overall_valid := overall_score ≥ mkRat 6 10 }
  else summary

/-! ## `PriceExtractor.calculate_totals` -/

/-- One per-type bucket of the `by_type=True` result. -/
structure TypeTotals where
  total_amount : PyDecimal
  currency : String
  count : Nat
  prices : List ExtractedPrice
deriving Repr, DecidableEq

/-- Result shape of `calculate_totals`: the empty-input dict, the simple
single-currency dict, or the by-type dict. -/
inductive TotalsResult where
  | empty (total_amount : PyDecimal) (currency : String) (count : Nat)
  | simple (total_amount : PyDecimal) (currency : String) (count : Nat)
      (prices : List ExtractedPrice)
  | byType (groups : List (String × TypeTotals))
deriving Repr, DecidableEq

/-- One iteration of the `by_type=True` loop of `calculate_totals`: create the
bucket for the price's type if absent, then add the price only when it matches
the bucket's (first-seen) currency. -/
def byTypeStep (acc : List (String × TypeTotals)) (p : ExtractedPrice) :
    List (String × TypeTotals) :=
  let t := p.price_type.getD "unknown"
  let acc :=
    if (assocGet acc t).isSome then acc
    else acc ++ [(t, { total_amount := ⟨0, 0⟩, currency := p.currency, count := 0, prices := [] })]
  acc.map (fun kg =>
    if kg.1 = t ∧ kg.2.currency = p.currency then
      (kg.1, { total_amount := kg.2.total_amount.add p.amount,
               currency := kg.2.currency,
               count := kg.2.count + 1,
               prices := kg.2.prices ++ [p] })
    else kg)

/-- `PriceExtractor.calculate_totals`: simple path sums only the prices whose
currency equals the first price's currency; by-type path sums per price type,
only prices matching each bucket's first-seen currency. -/
def calculate_totals (prices : List ExtractedPrice) (by_type : Bool) : TotalsResult :=
  match prices with
  | [] => .empty ⟨0, 0⟩ "USD" 0
  | p0 :: _ =>
    if by_type then
      .byType (prices.foldl byTypeStep [])
    else
      let primary_currency := p0.currency
      let same := prices.filter (fun p => p.currency = primary_currency)
      .simple (same.foldl (fun acc p => acc.add p.amount) ⟨0, 0⟩)
        primary_currency same.length prices

/-! ## A small backtracking regex engine

The extractors' rule tables are `re` patterns; they are embedded as abstract
syntax trees over `RE` below and executed by a backtracking matcher that
reproduces Python `re` semantics for these patterns: leftmost search,
left-alternative priority, greedy quantifiers, capturing groups where the
last capture wins. Every quantified subpattern in the embedded tables consumes
at least one character per iteration, so the matcher's progress requirement in
`star` (and its fuel, chosen large enough to never be exhausted) does not
change the matched languages. -/

/-- Regex abstract syntax: empty string, single-character class, sequencing,
prioritised alternation, greedy star, greedy option, capturing group, and the
`\b` word-boundary and `$` end-of-string assertions. -/
inductive RE where
  | eps
  | cls (f : Char → Bool)
  | seq (a b : RE)
  | alt (a b : RE)
  | star (a : RE)
  | opt (a : RE)
  | group (n : Nat) (a : RE)
  | wordB
  | endA

/-- Structural size, used to budget the matcher's fuel. -/
def RE.size : RE → Nat
  | .eps => 1
  | .cls _ => 1
  | .seq a b => a.size + b.size + 1
  | .alt a b => a.size + b.size + 1
  | .star a => a.size + 1
  | .opt a => a.size + 1
  | .group _ a => a.size + 1
  | .wordB => 1
  | .endA => 1

/-- Does the pattern contain a capturing group (Python `match.groups()` truthiness)? -/
def RE.hasGroup : RE → Bool
  | .eps => false
  | .cls _ => false
  | .seq a b => a.hasGroup || b.hasGroup
  | .alt a b => a.hasGroup || b.hasGroup
  | .star a => a.hasGroup
  | .opt a => a.hasGroup
  | .group _ _ => true
  | .wordB => false
  | .endA => false

/-- Python `\w` for the `\b` assertion (ASCII data). -/
def isWordChar (c : Char) : Bool := c.isAlphanum || c = '_'

/-- Capture environment: group number to half-open span, most recent first. -/
abbrev Caps := List (Nat × Nat × Nat)

/-- Greedy iteration of a star body whose single-step matcher is `mA`:
iterations must consume at least one character, longest unrolling first,
then the empty unrolling. `fuel` is instantiated with more than the number of
remaining characters, so it never cuts a real unrolling short. -/
def starIter (mA : Nat → Caps → List (Nat × Caps)) : Nat → Nat → Caps → List (Nat × Caps)
  | 0, i, caps => [(i, caps)]
  | fuel + 1, i, caps =>
    ((mA i caps).filter (fun r => i < r.1)).flatMap
      (fun r => starIter mA fuel r.1 r.2) ++ [(i, caps)]

/-- All ways the pattern can match starting at position `i`, as
`(end position, captures)` pairs in backtracking priority order (first element
is what Python `re` commits to). -/
def reMatch (s : List Char) : RE → Nat → Caps → List (Nat × Caps)
  | .eps, i, caps => [(i, caps)]
  | .cls f, i, caps =>
    match s.get? i with
    | some c => if f c then [(i + 1, caps)] else []
    | none => []
  | .seq a b, i, caps =>
    (reMatch s a i caps).flatMap (fun r => reMatch s b r.1 r.2)
  | .alt a b, i, caps => reMatch s a i caps ++ reMatch s b i caps
  | .opt a, i, caps => reMatch s a i caps ++ [(i, caps)]
  | .star a, i, caps => starIter (reMatch s a) (s.length + 1) i caps
  | .group n a, i, caps =>
    (reMatch s a i caps).map (fun r => (r.1, (n, i, r.1) :: r.2))
  | .wordB, i, caps =>
    let prevW := if i = 0 then false else
      match s.get? (i - 1) with | some c => isWordChar c | none => false
    let curW := match s.get? i with | some c => isWordChar c | none => false
    if prevW ≠ curW then [(i, caps)] else []
  | .endA, i, caps => if i = s.length then [(i, caps)] else []

/-- A Python `re.Match`: span of the whole match plus captures. -/
structure PyMatch where
  start : Nat
  stop : Nat
  caps : Caps
deriving Repr, DecidableEq

/-- Substring `s[a:b]`. -/
def sliceStr (s : List Char) (a b : Nat) : String :=
  String.mk ((s.drop a).take (b - a))

/-- `match.group(0)`. -/
def PyMatch.group0 (m : PyMatch) (s : List Char) : String :=
  sliceStr s m.start m.stop

/-- `match.group(n)` for a capturing group: `none` when the group did not
participate in the match. -/
def PyMatch.groupStr (m : PyMatch) (s : List Char) (n : Nat) : Option String :=
  ((m.caps.find? (fun c => c.1 = n)).map (fun c => sliceStr s c.2.1 c.2.2))

/-- Leftmost match at or after a position, by fuel-bounded advance
(Python `pattern.search`). -/
def searchFromAux (re : RE) (s : List Char) : Nat → Nat → Option PyMatch
  | 0, _ => none
  | fuel + 1, i =>
    if i ≤ s.length then
      match reMatch s re i [] with
      | r :: _ => some ⟨i, r.1, r.2⟩
      | [] => searchFromAux re s fuel (i + 1)
    else none

/-- Leftmost match at or after position `i` (Python `pattern.search(s, i)`). -/
def searchFrom (re : RE) (s : List Char) (i : Nat) : Option PyMatch :=
  searchFromAux re s (s.length + 1 - i) i

/-- Python `pattern.search(s)`. -/
def reSearch (re : RE) (s : List Char) : Option PyMatch := searchFrom re s 0

/-- Successive non-overlapping matches from position `i`
(Python `pattern.finditer`; zero-width matches advance by one, though the
embedded patterns never produce them). -/
def finditerFrom (re : RE) (s : List Char) (i fuel : Nat) : List PyMatch :=
  match fuel with
  | 0 => []
  | fuel + 1 =>
    match searchFrom re s i with
    | none => []
    | some m =>
      m :: finditerFrom re s (if m.start < m.stop then m.stop else m.stop + 1) fuel

/-- Python `pattern.finditer(s)`. -/
def finditer (re : RE) (s : List Char) : List PyMatch :=
  finditerFrom re s 0 (s.length + 1)

/-! ### Combinators mirroring the concrete regex syntax -/

/-- A literal character. -/
def rchr (c : Char) : RE := .cls (fun x => x = c)

/-- A literal character under `re.IGNORECASE`. -/
def rchrCI (c : Char) : RE := .cls (fun x => x.toLower = c.toLower)

/-- A literal string. -/
def rlit (s : String) : RE := (s.toList.map rchr).foldr .seq .eps

/-- A literal string under `re.IGNORECASE`. -/
def rlitCI (s : String) : RE := (s.toList.map rchrCI).foldr .seq .eps

/-- `\d`. -/
def rdigit : RE := .cls Char.isDigit

/-- `\D` would be the complement; `\s` whitespace. -/
def rspace : RE := .cls Char.isWhitespace

/-- `[A-Z]`. -/
def rAZ : RE := .cls (fun c => 'A' ≤ c && c ≤ 'Z')

/-- `[a-z]`. -/
def raz : RE := .cls (fun c => 'a' ≤ c && c ≤ 'z')

/-- `[A-Z]` under `re.IGNORECASE`: any ASCII letter. -/
def rAZci : RE := .cls (fun c => ('A' ≤ c && c ≤ 'Z') || ('a' ≤ c && c ≤ 'z'))

/-- `[A-Za-z]`. -/
def rAlpha : RE := rAZci

/-- Sequence a list of regexes. -/
def rseq (l : List RE) : RE := l.foldr .seq .eps

/-- Prioritised alternation of a non-empty list (left first). -/
def ralt : List RE → RE
  | [] => .cls (fun _ => false)
  | [x] => x
  | x :: xs => .alt x (ralt xs)

/-- Greedy chain of at most `k` copies of `a` (all consuming), longest first. -/
def roptChain (a : RE) : Nat → RE
  | 0 => .eps
  | k + 1 => .opt (.seq a (roptChain a k))

/-- `a{m,n}` (greedy). -/
def rrep (a : RE) (m n : Nat) : RE :=
  .seq (rseq (List.replicate m a)) (roptChain a (n - m))

/-- `a{m,}` (greedy). -/
def ratLeast (a : RE) (m : Nat) : RE :=
  .seq (rseq (List.replicate m a)) (.star a)

/-- `a+` (greedy). -/
def rplus (a : RE) : RE := .seq a (.star a)

/-- `a?` (greedy). -/
def ropt (a : RE) : RE := .opt a

/-- `a*` (greedy). -/
def rstar (a : RE) : RE := .star a

/-- `\b`. -/
def rwb : RE := .wordB

/-- Capturing group `(a)` with index `n`. -/
def rgrp (n : Nat) (a : RE) : RE := .group n a

/-! ## AddressExtractor (`address_extractor.py`) -/

/-- Python dict built from a pair list: first-occurrence key order, later
value wins (used for `{comp[1]: comp[0] for comp in parsed}`). -/
def pyDictOf [DecidableEq κ] (l : List (κ × β)) : List (κ × β) :=
  (firstDedup (l.map Prod.fst)).filterMap (fun k =>
    (((l.filter (fun p => p.1 = k)).map Prod.snd).getLast?).map (fun v => (k, v)))

/-- `self.address_patterns['street_number']`: `\b\d+\b`. -/
def street_number_re : RE := rseq [rwb, rplus rdigit, rwb]

/-- `self.address_patterns['street_name']` (IGNORECASE):
`\b\d+\s+([A-Za-z\s]+(?:Street|St|Avenue|Ave|Road|Rd|Drive|Dr|Lane|Ln|Boulevard|Blvd|Circle|Cir|Court|Ct|Place|Pl))\b`. -/
def street_name_re : RE :=
  rseq [rwb, rplus rdigit, rplus rspace,
    rgrp 1 (rseq [rplus (.alt rAlpha rspace),
      ralt [rlitCI "Street", rlitCI "St", rlitCI "Avenue", rlitCI "Ave",
            rlitCI "Road", rlitCI "Rd", rlitCI "Drive", rlitCI "Dr",
            rlitCI "Lane", rlitCI "Ln", rlitCI "Boulevard", rlitCI "Blvd",
            rlitCI "Circle", rlitCI "Cir", rlitCI "Court", rlitCI "Ct",
            rlitCI "Place", rlitCI "Pl"]]),
    rwb]

/-- `self.address_patterns['city']` (IGNORECASE):
`\b([A-Za-z\s]{2,}),\s*[A-Z]{2}\s+\d{5}` (the `[A-Z]{2}` is case-insensitive
because the pattern carries the flag). -/
def city_re : RE :=
  rseq [rwb, rgrp 1 (ratLeast (.alt rAlpha rspace) 2), rchr ',', rstar rspace,
    rAZci, rAZci, rplus rspace, rdigit, rdigit, rdigit, rdigit, rdigit]

/-- `self.address_patterns['state']`: `\b([A-Z]{2})\s+\d{5}` (case-sensitive). -/
def state_re : RE :=
  rseq [rwb, rgrp 1 (rseq [rAZ, rAZ]), rplus rspace,
    rdigit, rdigit, rdigit, rdigit, rdigit]

/-- `self.address_patterns['postal_code']`: `\b(\d{5}(?:-\d{4})?)\b`. -/
def postal_code_re : RE :=
  rseq [rwb,
    rgrp 1 (rseq [rdigit, rdigit, rdigit, rdigit, rdigit,
      ropt (rseq [rchr '-', rdigit, rdigit, rdigit, rdigit])]),
    rwb]

/-- `self.address_patterns['country']` (IGNORECASE):
`\b(USA|United States|US|Canada|CA)\b`. -/
def country_re : RE :=
  rseq [rwb,
    rgrp 1 (ralt [rlitCI "USA", rlitCI "United States", rlitCI "US",
                  rlitCI "Canada", rlitCI "CA"]),
    rwb]

/-- `self.address_patterns` in dict insertion order. -/
def address_patterns : List (String × RE) :=
  [("street_number", street_number_re), ("street_name", street_name_re),
   ("city", city_re), ("state", state_re), ("postal_code", postal_code_re),
   ("country", country_re)]

/-- `self.address_indicators`. -/
def address_indicators : List String :=
  ["address", "street", "avenue", "road", "drive", "lane", "boulevard",
   "ship to", "shipping", "billing", "delivery", "location", "apt", "suite"]

/-- `AddressExtractor._looks_like_address`. -/
def looks_like_address (line : String) : Bool :=
  let line_lower := pyLower line
  if ¬line.toList.any Char.isDigit then false
  else
    let has_indicator := address_indicators.any (fun ind => strIn ind line_lower)
    let street_suffixes : List String :=
      ["street", "st", "avenue", "ave", "road", "rd", "drive", "dr", "lane", "ln"]
    let has_street_suffix := street_suffixes.any (fun suf => strIn suf line_lower)
    let has_postal := (reSearch postal_code_re line.toList).isSome
    let has_state := (reSearch state_re line.toList).isSome
    has_indicator || has_street_suffix || has_postal || has_state

/-- `AddressExtractor._normalize_address_components`. -/
def normalize_address_components (components : List (String × String)) : String :=
  let ordered_parts : List String := []
  let ordered_parts :=
    if (assocGet components "house_number").isSome ∨ (assocGet components "street_number").isSome then
      ordered_parts ++ [(assocGet components "house_number").getD
        ((assocGet components "street_number").getD "")]
    else ordered_parts
  let ordered_parts :=
    if (assocGet components "road").isSome ∨ (assocGet components "street_name").isSome then
      ordered_parts ++ [(assocGet components "road").getD
        ((assocGet components "street_name").getD "")]
    else ordered_parts
  let city_state_zip : List String :=
    (match assocGet components "city" with | some c => [c] | none => [])
      ++ (match assocGet components "state" with | some st => [st] | none => [])
      ++ (if (assocGet components "postcode").isSome ∨ (assocGet components "postal_code").isSome then
            [(assocGet components "postcode").getD ((assocGet components "postal_code").getD "")]
          else [])
  let ordered_parts :=
    if ¬city_state_zip.isEmpty then ordered_parts ++ [String.intercalate ", " city_state_zip]
    else ordered_parts
  let ordered_parts :=
    match assocGet components "country" with
    | some c => ordered_parts ++ [c]
    | none => ordered_parts
  String.intercalate ", " (ordered_parts.filter (fun part => ¬(pyStrip part).isEmpty))

/-- `AddressExtractor._calculate_postal_confidence`. -/
def calculate_postal_confidence (components : List (String × String))
    (raw_text : String) : ℚ :=
  let confidence : ℚ := qAdd 0 (mkRat 4 10)
  let component_bonuses : List (String × ℚ) :=
    [("house_number", mkRat 1 10), ("road", mkRat 15 100), ("city", mkRat 1 10),
     ("state", mkRat 1 10), ("postcode", mkRat 15 100), ("country", mkRat 5 100)]
  let confidence := (components.map Prod.fst).foldl
    (fun acc comp_type => qAdd acc ((assocGet component_bonuses comp_type).getD 0)) confidence
  let confidence := if raw_text.length > 30 then qAdd confidence (mkRat 5 100) else confidence
  qMin confidence 1

/-- One line of `AddressExtractor._extract_with_postal`'s loop body after the
guards: the candidate construction evaluates the name `context`, which is not
defined in that method, so Python raises `NameError` and the per-line
`except` swallows it — the `.ok` case is unreachable. The component map,
normalisation and confidence are evaluated (exception-free) before the
constructor call, mirrored by the discarded bindings. -/
def postal_line_result (postal_parse : String → List (String × String))
    (line : String) : Except String ExtractedAddress :=
  let parsed := postal_parse line
  if ¬parsed.isEmpty ∧ parsed.length > 2 then
    let _components := pyDictOf (parsed.map (fun comp => (comp.2, comp.1)))
    let _normalized := normalize_address_components _components
    let _confidence := calculate_postal_confidence _components line
    Except.error "NameError: name context is not defined"
  else
    Except.error "no components"

/-- `AddressExtractor._extract_with_postal` (with libpostal's parser as an
explicit parameter): every per-line candidate construction raises `NameError`
on the undefined name `context` and is swallowed, so no line contributes. -/
def extract_with_postal (postal_parse : String → List (String × String))
    (text : String) : List ExtractedAddress :=
  (pySplitLines text).filterMap (fun line =>
    let line := pyStrip line
    if line.length < 10 then none
    else if ¬looks_like_address line then none
    else
      match postal_line_result postal_parse line with
      | .ok a => some a
      | .error _ => none)

/-- One line of `AddressExtractor._extract_with_regex`: run all six component
patterns, collect matched components (`match.group(1)` when the pattern has a
participating group, else `match.group(0)`, stripped) with `0.15` confidence
each, and keep the line when it has street and location evidence and
confidence above `0.3`, capping at `0.85`. -/
def extract_regex_line (context : Option String) (line : String) :
    Option ExtractedAddress :=
  let line := pyStrip line
  if ¬looks_like_address line then none
  else
    let s := line.toList
    let step := fun (acc : List (String × String) × ℚ) (np : String × RE) =>
      match reSearch np.2 s with
      | some m =>
        let value :=
          if np.1 = "street_name" then (m.groupStr s 1).getD ""
          else if np.2.hasGroup then (m.groupStr s 1).getD "" else m.group0 s
        (acc.1 ++ [(np.1, pyStrip value)], qAdd acc.2 (mkRat 15 100))
      | none => acc
    let folded := address_patterns.foldl step ([], 0)
    let components := folded.1
    let confidence := folded.2
    let has_street := (assocGet components "street_name").isSome
      ∨ (assocGet components "street_number").isSome
    let has_location := (assocGet components "postal_code").isSome
      ∨ (assocGet components "city").isSome ∨ (assocGet components "state").isSome
    if has_street ∧ has_location ∧ confidence > mkRat 3 10 then
      some { raw_text := line, confidence := qMin confidence (mkRat 85 100),
             components := components,
             normalized := normalize_address_components components,
             context := context }
    else none

/-- `AddressExtractor._extract_with_regex`. -/
def extract_with_regex (text : String) (context : Option String) :
    List ExtractedAddress :=
  (pySplitLines text).filterMap (extract_regex_line context)

/-- `AddressExtractor._adjust_confidence_with_context`. -/
def adjust_confidence_with_context (addresses : List ExtractedAddress)
    (context : String) : List ExtractedAddress :=
  let context_lower := pyLower context
  let address_contexts : List String :=
    ["shipping", "billing", "delivery", "send to", "ship to", "address"]
  let context_boost : ℚ :=
    if address_contexts.any (fun ind => strIn ind context_lower) then mkRat 1 10 else 0
  addresses.map (fun a => { a with confidence := qMin (qAdd a.confidence context_boost) 1 })

/-- `AddressExtractor.extract_addresses` (the enclosing `try/except` can only
catch exceptions the pure model already excludes). `context` truthiness:
Python applies the context adjustment only for a non-`None`, non-empty string. -/
def extract_addresses (postal_available : Bool)
    (postal_parse : String → List (String × String))
    (text : String) (context : Option String) : List ExtractedAddress :=
  let addresses :=
    if postal_available then extract_with_postal postal_parse text
    else extract_with_regex text context
  let addresses :=
    match context with
    | some c => if c ≠ "" then adjust_confidence_with_context addresses c else addresses
    | none => addresses
  sortByConfDesc (·.confidence) addresses

/-! ## DateExtractor (`date_extractor.py`) -/

/-- The amount piece `\d{1,2}` and friends. -/
def rd12 : RE := rrep rdigit 1 2

/-- `\d{2,4}`. -/
def rd24 : RE := rrep rdigit 2 4

/-- Four digits. -/
def rd4 : RE := rseq [rdigit, rdigit, rdigit, rdigit]

/-- Two digits. -/
def rd2 : RE := rseq [rdigit, rdigit]

/-- `self.date_patterns['iso_date']`: `\b(\d{4}-\d{1,2}-\d{1,2})\b`. -/
def iso_date_re : RE :=
  rseq [rwb, rgrp 1 (rseq [rd4, rchr '-', rd12, rchr '-', rd12]), rwb]

/-- `self.date_patterns['us_date']`: `\b(\d{1,2}/\d{1,2}/\d{2,4})\b`. -/
def us_date_re : RE :=
  rseq [rwb, rgrp 1 (rseq [rd12, rchr '/', rd12, rchr '/', rd24]), rwb]

/-- `self.date_patterns['us_date_dash']`: `\b(\d{1,2}-\d{1,2}-\d{2,4})\b`. -/
def us_date_dash_re : RE :=
  rseq [rwb, rgrp 1 (rseq [rd12, rchr '-', rd12, rchr '-', rd24]), rwb]

/-- Month names for `%B` / the `written_date` pattern. -/
def monthNames : List String :=
  ["January", "February", "March", "April", "May", "June", "July",
   "August", "September", "October", "November", "December"]

/-- Month abbreviations for `%b` / the `short_written` pattern. -/
def monthAbbrevs : List String :=
  ["Jan", "Feb", "Mar", "Apr", "May", "Jun", "Jul", "Aug", "Sep", "Oct", "Nov", "Dec"]

/-- `self.date_patterns['written_date']` (IGNORECASE):
`\b(January|…|December)\s+\d{1,2},?\s+\d{4}\b`; note that group 1 captures the
month name only. -/
def written_date_re : RE :=
  rseq [rwb, rgrp 1 (ralt (monthNames.map rlitCI)), rplus rspace, rd12,
    ropt (rchr ','), rplus rspace, rd4, rwb]

/-- `self.date_patterns['short_written']` (IGNORECASE):
`\b(Jan|…|Dec)\s+\d{1,2},?\s+\d{4}\b`. -/
def short_written_re : RE :=
  rseq [rwb, rgrp 1 (ralt (monthAbbrevs.map rlitCI)), rplus rspace, rd12,
    ropt (rchr ','), rplus rspace, rd4, rwb]

/-- `self.date_patterns['european']`: `\b(\d{1,2}\.\d{1,2}\.\d{4})\b`. -/
def european_re : RE :=
  rseq [rwb, rgrp 1 (rseq [rd12, rchr '.', rd12, rchr '.', rd4]), rwb]

/-- `self.date_patterns['timestamp']`:
`\b(\d{4}-\d{2}-\d{2}T\d{2}:\d{2}:\d{2})\b`. -/
def timestamp_re : RE :=
  rseq [rwb,
    rgrp 1 (rseq [rd4, rchr '-', rd2, rchr '-', rd2, rchr 'T',
      rd2, rchr ':', rd2, rchr ':', rd2]),
    rwb]

/-- `self.date_patterns` in dict insertion order. -/
def date_patterns : List (String × RE) :=
  [("iso_date", iso_date_re), ("us_date", us_date_re),
   ("us_date_dash", us_date_dash_re), ("written_date", written_date_re),
   ("short_written", short_written_re), ("european", european_re),
   ("timestamp", timestamp_re)]

/-- `self.date_contexts` in dict insertion order. -/
def date_contexts : List (String × List String) :=
  [("order", ["order date", "ordered", "purchased", "bought"]),
   ("ship", ["ship date", "shipped", "delivery", "sent"]),
   ("due", ["due date", "payment due", "expires", "expiry"]),
   ("invoice", ["invoice date", "billed", "billing date"]),
   ("event", ["event date", "scheduled", "appointment"]),
   ("created", ["created", "generated", "issued"])]

/-! ### A mini `datetime.strptime` for the formats the source uses -/

/-- Leap year (Gregorian). -/
def isLeapYear (y : Int) : Bool :=
  (y % 4 = 0 && y % 100 ≠ 0) || y % 400 = 0

/-- Days in a month. -/
def daysInMonth (y : Int) (m : Nat) : Nat :=
  if m = 2 then (if isLeapYear y then 29 else 28)
  else if m ∈ [4, 6, 9, 11] then 30 else 31

/-- Digit value of a character. -/
def digitVal (c : Char) : Nat := c.toNat - '0'.toNat

/-- Parse CPython's `%m` / `%d` / `%H` / `%M` / `%S`-style one-or-two-digit
field, two-digit form preferred (mirroring the strptime alternations such as
`1[0-2]|0[1-9]|[1-9]` — the numeric range is checked afterwards, below). -/
def parse2or1 : List Char → Option (Nat × List Char)
  | a :: b :: rest =>
    if a.isDigit && b.isDigit then some (digitVal a * 10 + digitVal b, rest)
    else if a.isDigit then some (digitVal a, b :: rest)
    else none
  | [a] => if a.isDigit then some (digitVal a, []) else none
  | [] => none

/-- Parse exactly `n` digits. -/
def parseNDigits (n : Nat) (l : List Char) : Option (Nat × List Char) :=
  let pre := l.take n
  if pre.length = n && pre.all Char.isDigit then
    some (digitsToNat pre, l.drop n)
  else none

/-- strptime directives appearing in the source's format strings. -/
inductive FmtTok where
  | Y | y | m | d | H | Mi | S | B | b | lit (c : Char)

/-- Translate a strptime format string into directives. -/
def fmtToks : List Char → List FmtTok
  | [] => []
  | '%' :: 'Y' :: rest => .Y :: fmtToks rest
  | '%' :: 'y' :: rest => .y :: fmtToks rest
  | '%' :: 'm' :: rest => .m :: fmtToks rest
  | '%' :: 'd' :: rest => .d :: fmtToks rest
  | '%' :: 'H' :: rest => .H :: fmtToks rest
  | '%' :: 'M' :: rest => .Mi :: fmtToks rest
  | '%' :: 'S' :: rest => .S :: fmtToks rest
  | '%' :: 'B' :: rest => .B :: fmtToks rest
  | '%' :: 'b' :: rest => .b :: fmtToks rest
  | c :: rest => .lit c :: fmtToks rest

/-- Case-insensitive prefix match of a month name, returning the remainder. -/
def matchNameCI (name : String) (l : List Char) : Option (List Char) :=
  let n := name.toList
  if (l.take n.length).map Char.toLower = n.map Char.toLower then
    some (l.drop n.length)
  else none

/-- Try month names in order, returning 1-based month and remainder. -/
def matchMonthName (names : List String) (l : List Char) : Option (Nat × List Char) :=
  names.enum.findSome? (fun ni => (matchNameCI ni.2 l).map (fun rest => (ni.1 + 1, rest)))

/-- Accumulator for strptime fields (year defaults to 1900 as in CPython). -/
structure FmtAcc where
  year : Int := 1900
  month : Nat := 1
  day : Nat := 1
  hour : Nat := 0
  minute : Nat := 0
  second : Nat := 0

/-- Run the format directives over the input. -/
def runFmt : List FmtTok → List Char → FmtAcc → Option FmtAcc
  | [], [], acc => some acc
  | [], _ :: _, _ => none
  | .Y :: toks, l, acc =>
    (parseNDigits 4 l).bind (fun r => runFmt toks r.2 { acc with year := r.1 })
  | .y :: toks, l, acc =>
    (parseNDigits 2 l).bind (fun r =>
      let y := if r.1 ≤ 68 then 2000 + r.1 else 1900 + r.1
      runFmt toks r.2 { acc with year := y })
  | .m :: toks, l, acc =>
    (parse2or1 l).bind (fun r =>
      if 1 ≤ r.1 ∧ r.1 ≤ 12 then runFmt toks r.2 { acc with month := r.1 } else none)
  | .d :: toks, l, acc =>
    (parse2or1 l).bind (fun r =>
      if 1 ≤ r.1 ∧ r.1 ≤ 31 then runFmt toks r.2 { acc with day := r.1 } else none)
  | .H :: toks, l, acc =>
    (parse2or1 l).bind (fun r =>
      if r.1 ≤ 23 then runFmt toks r.2 { acc with hour := r.1 } else none)
  | .Mi :: toks, l, acc =>
    (parse2or1 l).bind (fun r =>
      if r.1 ≤ 59 then runFmt toks r.2 { acc with minute := r.1 } else none)
  | .S :: toks, l, acc =>
    (parse2or1 l).bind (fun r =>
      if r.1 ≤ 61 then runFmt toks r.2 { acc with second := r.1 } else none)
  | .B :: toks, l, acc =>
    (matchMonthName monthNames l).bind (fun r => runFmt toks r.2 { acc with month := r.1 })
  | .b :: toks, l, acc =>
    (matchMonthName monthAbbrevs l).bind (fun r => runFmt toks r.2 { acc with month := r.1 })
  | .lit c :: toks, l, acc =>
    match l with
    | x :: rest => if x = c then runFmt toks rest acc else none
    | [] => none

/-- `datetime.strptime(s, fmt)` for the formats used by
`DateExtractor._parse_with_datetime`; `none` models `ValueError`
(including an out-of-range day of month, which the `datetime`
constructor rejects). -/
def strptime (s fmt : String) : Option PyDateTime :=
  (runFmt (fmtToks fmt.toList) s.toList {}).bind (fun acc =>
    if acc.day ≤ daysInMonth acc.year acc.month then
      some ⟨acc.year, acc.month, acc.day, acc.hour, acc.minute, acc.second⟩
    else none)

/-- `DateExtractor._parse_with_datetime`: the per-pattern format lists, first
format that parses wins. -/
def parse_with_datetime (date_text : String) (pattern_name : String) :
    Option PyDateTime :=
  let formats_by_pattern : List (String × List String) :=
    [("iso_date", ["%Y-%m-%d"]),
     ("us_date", ["%m/%d/%Y", "%m/%d/%y"]),
     ("us_date_dash", ["%m-%d-%Y", "%m-%d-%y"]),
     ("european", ["%d.%m.%Y"]),
     ("timestamp", ["%Y-%m-%dT%H:%M:%S"]),
     ("written_date", ["%B %d, %Y", "%B %d %Y"]),
     ("short_written", ["%b %d, %Y", "%b %d %Y"])]
  let formats := (assocGet formats_by_pattern pattern_name).getD []
  formats.findSome? (fun fmt => strptime date_text fmt)

/-- `DateExtractor._has_date_context`. -/
def has_date_context (context : String) : Bool :=
  if context.isEmpty then false
  else
    let context_lower := pyLower context
    let all_indicators := date_contexts.flatMap Prod.snd
    all_indicators.any (fun ind => strIn ind context_lower)

/-- Generic `±window` proximity-keyword classifier shared (by shape) by
`_determine_date_type` and `_determine_price_type`: look at
`text[pos-w : pos+w]`, concatenate the caller context, and return the first
category with an indicator hit. -/
def determineTypeFromContexts (contexts : List (String × List String))
    (w : Nat) (position : Nat) (text : String) (context : Option String) :
    Option String :=
  let s := text.toList
  let start := position - w
  let stop := min (s.length) (position + w)
  let surrounding_text := pyLower (sliceStr s start stop)
  let full_context := pyLower ((context.getD "") ++ " " ++ surrounding_text)
  (contexts.find? (fun ci => ci.2.any (fun ind => strIn ind full_context))).map Prod.fst

/-- `DateExtractor._determine_date_type` (window ±50). -/
def determine_date_type (position : Nat) (text : String)
    (context : Option String) : Option String :=
  determineTypeFromContexts date_contexts 50 position text context

/-- `DateExtractor._calculate_dateparser_confidence`. -/
def calculate_dateparser_confidence (now : PyDateTime) (_date_text : String)
    (parsed_date : PyDateTime) (pattern_name : String)
    (context : Option String) : ℚ :=
  let confidence : ℚ := qAdd 0 (mkRat 5 10)
  let pattern_bonuses : List (String × ℚ) :=
    [("iso_date", mkRat 3 10), ("timestamp", mkRat 3 10), ("us_date", mkRat 2 10),
     ("written_date", mkRat 25 100), ("short_written", mkRat 2 10),
     ("european", mkRat 15 100), ("full_line", mkRat 1 10)]
  let confidence := qAdd confidence ((assocGet pattern_bonuses pattern_name).getD (mkRat 1 10))
  let confidence :=
    if is_reasonable_date now parsed_date then qAdd confidence (mkRat 1 10)
    else qSub confidence (mkRat 2 10)
  let confidence :=
    match context with
    | some c => if c ≠ "" ∧ has_date_context c then qAdd confidence (mkRat 1 10) else confidence
    | none => confidence
  qMin confidence 1

/-- `DateExtractor._calculate_regex_confidence`. -/
def date_calculate_regex_confidence (now : PyDateTime) (_date_text : String)
    (parsed_date : PyDateTime) (pattern_name : String)
    (context : Option String) : ℚ :=
  let confidence : ℚ := mkRat 3 10
  let pattern_bonuses : List (String × ℚ) :=
    [("iso_date", mkRat 25 100), ("timestamp", mkRat 25 100), ("us_date", mkRat 15 100),
     ("written_date", mkRat 2 10), ("short_written", mkRat 15 100),
     ("european", mkRat 1 10)]
  let confidence := qAdd confidence ((assocGet pattern_bonuses pattern_name).getD (mkRat 5 100))
  let confidence :=
    if is_reasonable_date now parsed_date then qAdd confidence (mkRat 1 10)
    else qSub confidence (mkRat 3 10)
  let confidence :=
    match context with
    | some c => if c ≠ "" ∧ has_date_context c then qAdd confidence (mkRat 1 10) else confidence
    | none => confidence
  qMin confidence (mkRat 85 100)

/-- `DateExtractor._calculate_line_confidence`. -/
def calculate_line_confidence (now : PyDateTime) (line : String)
    (parsed_date : PyDateTime) (_context : Option String) : ℚ :=
  let confidence : ℚ := mkRat 2 10
  let confidence := if line.length > 50 then qSub confidence (mkRat 1 10) else confidence
  let date_words : List String := ["date", "on", "due", "expires", "scheduled"]
  let confidence :=
    if date_words.any (fun word => strIn word (pyLower line)) then qAdd confidence (mkRat 2 10)
    else confidence
  let confidence :=
    if is_reasonable_date now parsed_date then qAdd confidence (mkRat 1 10) else confidence
  qMax confidence 0

/-- `DateExtractor._extract_with_regex`. -/
def date_extract_with_regex (now : PyDateTime) (text : String)
    (context : Option String) : List ExtractedDate :=
  date_patterns.flatMap (fun np =>
    (finditer np.2 text.toList).filterMap (fun m =>
      let s := text.toList
      let date_text := (m.groupStr s 1).getD ""
      match parse_with_datetime date_text np.1 with
      | some parsed_date =>
        some { raw_text := date_text, parsed_date := parsed_date,
               confidence := date_calculate_regex_confidence now date_text parsed_date np.1 context,
               format_detected := np.1, context := context,
               date_type := determine_date_type m.start text context }
      | none => none))

/-- The pattern phase of `DateExtractor._extract_with_dateparser`
(`dparse` is `dateparser.parse` with the extractor's fixed settings; a raised
exception is modelled as `none`, as the per-match handler swallows it). -/
def dateparser_pattern_phase (dparse : String → Option PyDateTime)
    (now : PyDateTime) (text : String) (context : Option String) :
    List ExtractedDate :=
  date_patterns.flatMap (fun np =>
    (finditer np.2 text.toList).filterMap (fun m =>
      let s := text.toList
      let date_text := (m.groupStr s 1).getD ""
      match dparse date_text with
      | some parsed_date =>
        some { raw_text := date_text, parsed_date := parsed_date,
               confidence := calculate_dateparser_confidence now date_text parsed_date np.1 context,
               format_detected := np.1, context := context,
               date_type := determine_date_type m.start text context }
      | none => none))

/-- The full-line phase of `DateExtractor._extract_with_dateparser`: lines of
6–100 characters not already covered by an earlier accepted `raw_text`,
accepted on a reasonable parse with confidence above `0.3`. The accumulator
is the date list built so far (pattern-phase results plus earlier lines). -/
def dateparser_line_phase (dparse : String → Option PyDateTime)
    (now : PyDateTime) (text : String) (context : Option String)
    (dates0 : List ExtractedDate) : List ExtractedDate :=
  (pySplitLines text).foldl (fun dates line =>
    let line := pyStrip line
    if line.length < 6 ∨ line.length > 100 then dates
    else if dates.any (fun d => strIn d.raw_text line) then dates
    else
      match dparse line with
      | some parsed_date =>
        if is_reasonable_date now parsed_date then
          let confidence := calculate_line_confidence now line parsed_date context
          if confidence > mkRat 3 10 then
            dates ++ [{ raw_text := line, parsed_date := parsed_date,
                        confidence := confidence, format_detected := "full_line",
                        context := context,
                        date_type := determine_date_type 0 line context }]
          else dates
        else dates
      | none => dates) dates0

/-- `DateExtractor._extract_with_dateparser`. -/
def extract_with_dateparser (dparse : String → Option PyDateTime)
    (now : PyDateTime) (text : String) (context : Option String) :
    List ExtractedDate :=
  dateparser_line_phase dparse now text context
    (dateparser_pattern_phase dparse now text context)

/-- `DateExtractor._deduplicate_dates`: group by calendar day, keep the
highest-confidence candidate per day. -/
def deduplicate_dates (dates : List ExtractedDate) : List ExtractedDate :=
  dedupByKey (fun d => d.parsed_date.dateKey) (·.confidence) dates

/-- The raw (pre-dedup) date list of `DateExtractor.extract_dates`: the
dateparser path when available, else the regex path. -/
def dates_pre_dedup (dateparser_available : Bool)
    (dparse : String → Option PyDateTime) (now : PyDateTime)
    (text : String) (context : Option String) : List ExtractedDate :=
  if dateparser_available then extract_with_dateparser dparse now text context
  else date_extract_with_regex now text context

/-- `DateExtractor.extract_dates`. -/
def extract_dates (dateparser_available : Bool)
    (dparse : String → Option PyDateTime) (now : PyDateTime)
    (text : String) (context : Option String) : List ExtractedDate :=
  let dates := dates_pre_dedup dateparser_available dparse now text context
  let dates := deduplicate_dates dates
  sortByConfDesc (·.confidence) dates

/-! ## PriceExtractor (`price_extractor.py`) -/

/-- The fallback `currency_symbols` dict literal (Babel unavailable), as
written — the duplicate keys `₹` and `₽` of the Python literal collapse via
`pyDictOf` exactly as a dict literal does. -/
def fallback_currency_symbols_literal : List (String × String) :=
  [("$", "USD"), ("€", "EUR"), ("£", "GBP"), ("¥", "JPY"), ("₹", "INR"),
   ("₽", "RUB"), ("₩", "KRW"), ("¢", "USD"), ("₪", "ILS"), ("₫", "VND"),
   ("₦", "NGN"), ("₨", "PKR"), ("₱", "PHP"), ("₡", "CRC"), ("₲", "PYG"),
   ("₴", "UAH"), ("₵", "GHS"), ("₶", "LVL"), ("₷", "LTL"), ("₸", "KZT"),
   ("₹", "INR"), ("₺", "TRY"), ("₻", "MNT"), ("₼", "AZN"), ("₽", "RUB"),
   ("₾", "GEL"), ("₿", "BTC"), ("﷼", "SAR"), ("¤", "GENERIC"),
   ("CA$", "CAD"), ("A$", "AUD"), ("NZ$", "NZD"), ("CN¥", "CNY"),
   ("HK$", "HKD"), ("NT$", "TWD"), ("R$", "BRL"), ("MX$", "MXN")]

/-- `self.currency_symbols` in the Babel-unavailable fallback. -/
def fallback_currency_symbols : List (String × String) :=
  pyDictOf fallback_currency_symbols_literal

/-- `self.currency_codes` in the Babel-unavailable fallback. -/
def fallback_currency_codes : List String :=
  ["USD", "EUR", "GBP", "JPY", "CHF", "CAD", "AUD", "NZD",
   "CNY", "INR", "KRW", "SGD", "HKD", "TWD", "THB", "MYR",
   "BRL", "MXN", "RUB", "ZAR", "SEK", "NOK", "DKK", "PLN",
   "TRY", "ILS", "AED", "SAR", "EGP", "NGN", "PKR", "VND"]

/-- `self.price_contexts` in dict insertion order. -/
def price_contexts : List (String × List String) :=
  [("unit_price", ["price", "cost", "rate", "each", "per unit", "unit cost"]),
   ("total", ["total", "amount", "sum", "grand total", "subtotal"]),
   ("tax", ["tax", "vat", "gst", "sales tax", "duty"]),
   ("discount", ["discount", "off", "reduction", "savings", "rebate"]),
   ("shipping", ["shipping", "delivery", "freight", "postage"]),
   ("fee", ["fee", "charge", "service charge", "handling"])]

/-- The amount piece `\d{1,3}(?:,\d{3})*(?:\.\d{1,4})?` of the price patterns. -/
def amount_piece : RE :=
  rseq [rrep rdigit 1 3,
    rstar (rseq [rchr ',', rdigit, rdigit, rdigit]),
    ropt (rseq [rchr '.', rrep rdigit 1 4])]

/-- The single-character-symbol class `[...]` of the compiled symbol pattern
(case-insensitive, though the one-character symbols have no case). -/
def singleSymbolCls (singles : List String) : RE :=
  .cls (fun c => singles.any (fun sym =>
    match sym.toList with
    | [x] => x.toLower = c.toLower
    | _ => false))

/-- The combined currency-symbol pattern `(multi1|multi2|…|[singles])` built by
`_initialize_price_patterns`, as a capturing group with index `n`. -/
def currencySymbolPattern (currency_symbols : List (String × String)) (n : Nat) : RE :=
  let singles := (currency_symbols.map Prod.fst).filter (fun sy => sy.length = 1)
  let multis := (currency_symbols.map Prod.fst).filter (fun sy => sy.length > 1)
  if multis.isEmpty then rgrp n (singleSymbolCls singles)
  else rgrp n (ralt (multis.map rlitCI ++ [singleSymbolCls singles]))

/-- `[A-Z]{3}` under the patterns' IGNORECASE flag. -/
def rcode3 : RE := rseq [rAZci, rAZci, rAZci]

/-- `PriceExtractor._initialize_price_patterns`, in dict insertion order. -/
def price_patterns (currency_symbols : List (String × String)) : List (String × RE) :=
  [("currency_symbol_amount",
     rseq [currencySymbolPattern currency_symbols 1, rstar rspace, rgrp 2 amount_piece]),
   ("amount_currency_symbol",
     rseq [rgrp 1 amount_piece, rstar rspace, currencySymbolPattern currency_symbols 2]),
   ("amount_currency_code",
     rseq [rgrp 1 amount_piece, rstar rspace, rgrp 2 rcode3, rwb]),
   ("currency_code_amount",
     rseq [rwb, rgrp 1 rcode3, rstar rspace, rgrp 2 amount_piece]),
   ("written_currency",
     rseq [rgrp 1 amount_piece, rstar rspace,
       rgrp 2 (ralt [rseq [rlitCI "dollar", ropt (rchrCI 's')],
                     rseq [rlitCI "euro", ropt (rchrCI 's')],
                     rseq [rlitCI "pound", ropt (rchrCI 's')],
                     rlitCI "yen", rlitCI "yuan",
                     rseq [rlitCI "rupee", ropt (rchrCI 's')],
                     rseq [rlitCI "ruble", ropt (rchrCI 's')],
                     rlitCI "won",
                     rseq [rlitCI "peso", ropt (rchrCI 's')]]),
       rwb]),
   ("contextual_decimal",
     rseq [rwb,
       rgrp 1 (rseq [rrep rdigit 1 3, rstar (rseq [rchr ',', rdigit, rdigit, rdigit]),
         rchr '.', rdigit, rdigit]),
       rwb]),
   ("percentage",
     rseq [rgrp 1 (rseq [rplus rdigit, ropt (rseq [rchr '.', rplus rdigit])]),
       rstar rspace, rchr '%']),
   ("scientific_notation",
     rseq [rgrp 1 (rseq [rplus rdigit, ropt (rseq [rchr '.', rplus rdigit])]),
       .alt (rchr 'e') (rchr 'E'),
       rgrp 2 (rseq [ropt (.alt (rchr '+') (rchr '-')), rplus rdigit])])]

/-- `Decimal(s)` for the plain decimal strings this embedding produces:
optional sign, digits, optional point and fraction digits; `none` models
`InvalidOperation`. -/
def pyDecimalParse (s : String) : Option PyDecimal :=
  let core : List Char → Option PyDecimal := fun l =>
    match splitOnChar '.' l with
    | [ip] => if ¬ip.isEmpty && ip.all Char.isDigit then some ⟨digitsToNat ip, 0⟩ else none
    | [ip, fp] =>
      if (ip.all Char.isDigit && fp.all Char.isDigit) && ¬(ip.isEmpty && fp.isEmpty) then
        some ⟨digitsToNat (ip ++ fp), fp.length⟩
      else none
    | _ => none
  match s.toList with
  | '+' :: rest => core rest
  | '-' :: rest => (core rest).map (fun d => ⟨-d.mantissa, d.scale⟩)
  | l => core l

/-- `PriceExtractor._has_price_context`. -/
def has_price_context (context : Option String) : Bool :=
  match context with
  | none => false
  | some c =>
    if c.isEmpty then false
    else
      let context_lower := pyLower c
      (price_contexts.flatMap Prod.snd).any (fun ind => strIn ind context_lower)

/-- `PriceExtractor._determine_price_type` (window ±30). -/
def determine_price_type (position : Nat) (text : String)
    (context : Option String) : Option String :=
  determineTypeFromContexts price_contexts 30 position text context

/-- `PriceExtractor._infer_currency_from_context` (window ±100): currency
codes, then symbols, then region names in the upper-cased window; USD default. -/
def infer_currency_from_context (currency_symbols : List (String × String))
    (currency_codes : List String) (text : String) (position : Nat) : String :=
  let s := text.toList
  let start := position - 100
  let stop := min s.length (position + 100)
  let surrounding := pyUpper (sliceStr s start stop)
  match currency_codes.find? (fun code => strIn code surrounding) with
  | some code => code
  | none =>
    match currency_symbols.find? (fun sc => strIn sc.1 surrounding) with
    | some sc => sc.2
    | none =>
      let region_indicators : List (String × String) :=
        [("US", "USD"), ("USA", "USD"), ("UNITED STATES", "USD"),
         ("EU", "EUR"), ("EUROPE", "EUR"), ("EUROPEAN", "EUR"),
         ("UK", "GBP"), ("BRITAIN", "GBP"), ("BRITISH", "GBP"),
         ("JAPAN", "JPY"), ("JAPANESE", "JPY"),
         ("CHINA", "CNY"), ("CHINESE", "CNY"),
         ("INDIA", "INR"), ("INDIAN", "INR"),
         ("CANADA", "CAD"), ("CANADIAN", "CAD"),
         ("AUSTRALIA", "AUD"), ("AUSTRALIAN", "AUD")]
      match region_indicators.find? (fun ic => strIn ic.1 surrounding) with
      | some ic => ic.2
      | none => "USD"

/-- The `written_currency` word map of `_parse_match_groups`. -/
def written_currency_map : List (String × String) :=
  [("dollars", "USD"), ("dollar", "USD"), ("euros", "EUR"), ("euro", "EUR"),
   ("pounds", "GBP"), ("pound", "GBP"), ("yen", "JPY"), ("yuan", "CNY"),
   ("rupees", "INR"), ("rupee", "INR"), ("rubles", "RUB"), ("ruble", "RUB"),
   ("won", "KRW"), ("pesos", "MXN"), ("peso", "MXN")]

/-- The scientific-notation amount string `str(base * (10 ** exp))`: the exact
value as a decimal string, with the trailing `.0` a float string carries on an
integral value (CPython's float rounding on astronomically precise inputs is
not modelled; no claim depends on it). -/
def scientificAmountStr (base : PyDecimal) (e : Int) : String :=
  let d : PyDecimal :=
    if e ≥ base.scale then ⟨base.mantissa * 10 ^ (e - base.scale).toNat * 10, 1⟩
    else ⟨base.mantissa, ((base.scale : Int) - e).toNat⟩
  d.toStr

/-- `PriceExtractor._parse_match_groups`: per-pattern extraction of the
`(amount string, currency)` pair. -/
def parse_match_groups (currency_symbols : List (String × String))
    (currency_codes : List String) (pattern_name : String) (m : PyMatch)
    (text : String) : String × String :=
  let s := text.toList
  let g := fun n => (m.groupStr s n).getD ""
  if pattern_name = "currency_symbol_amount" then
    (g 2, (assocGet currency_symbols (g 1)).getD "USD")
  else if pattern_name = "amount_currency_symbol" then
    (g 1, (assocGet currency_symbols (g 2)).getD "USD")
  else if pattern_name = "amount_currency_code" then
    (g 1, pyUpper (g 2))
  else if pattern_name = "currency_code_amount" then
    (g 2, pyUpper (g 1))
  else if pattern_name = "written_currency" then
    (g 1, (assocGet written_currency_map (pyLower (g 2))).getD "USD")
  else if pattern_name = "contextual_decimal" then
    (g 1, infer_currency_from_context currency_symbols currency_codes text m.start)
  else if pattern_name = "percentage" then
    (g 1, "PCT")
  else if pattern_name = "scientific_notation" then
    match pyDecimalParse (g 1), pyIntParse (g 2) with
    | some base, some e =>
      (scientificAmountStr base e,
       infer_currency_from_context currency_symbols currency_codes text m.start)
    | _, _ => ("", "USD")
  else ("", "USD")

/-- `PriceExtractor._calculate_regex_confidence`. -/
def price_calculate_regex_confidence (price_text : String) (amount : PyDecimal)
    (currency : String) (pattern_name : String) (context : Option String) : ℚ :=
  let confidence : ℚ := mkRat 4 10
  let pattern_bonuses : List (String × ℚ) :=
    [("dollar_amount", mkRat 3 10), ("euro_amount", mkRat 3 10),
     ("pound_amount", mkRat 3 10), ("decimal_with_currency", mkRat 25 100),
     ("amount_dollar", mkRat 2 10), ("generic_decimal", mkRat 1 10)]
  let confidence := qAdd confidence ((assocGet pattern_bonuses pattern_name).getD (mkRat 5 100))
  let confidence :=
    if price_text.length > 3 ∧ ¬pyIsDigit price_text then qAdd confidence (mkRat 5 100)
    else confidence
  let major_currencies : List String := ["USD", "EUR", "GBP", "JPY", "CAD", "AUD"]
  let confidence :=
    if major_currencies.contains currency then qAdd confidence (mkRat 5 100) else confidence
  let confidence :=
    if mkRat 1 100 ≤ amount.toRat ∧ amount.toRat ≤ 1000000 then qAdd confidence (mkRat 1 10)
    else if amount.toRat > 1000000 then qSub confidence (mkRat 2 10)
    else confidence
  let confidence :=
    if amount.hasPoint ∧ amount.decimalPlaces = 2 then qAdd confidence (mkRat 1 10)
    else confidence
  let confidence :=
    if has_price_context context then qAdd confidence (mkRat 1 10) else confidence
  qMin confidence (mkRat 85 100)

/-- `PriceExtractor._extract_with_regex`. (Python's `float` overflow escape on
`10 ** exp` for absurd exponents aborts the loop with partial results in the
source; the model parses the value exactly instead — the claims' properties
hold for any raw candidate list, so this difference is inert.) -/
def price_extract_with_regex (currency_symbols : List (String × String))
    (currency_codes : List String) (text : String) (context : Option String) :
    List ExtractedPrice :=
  (price_patterns currency_symbols).flatMap (fun np =>
    (finditer np.2 text.toList).filterMap (fun m =>
      let parsed := parse_match_groups currency_symbols currency_codes np.1 m text
      let amount_str := parsed.1
      let currency := parsed.2
      if amount_str.isEmpty then none
      else
        let cleaned_amount :=
          String.mk (amount_str.toList.filter (fun c => c ≠ ',' ∧ c ≠ ' '))
        match pyDecimalParse cleaned_amount with
        | none => none
        | some amount =>
          if amount.toRat ≤ 0 then none
          else if amount.toRat < mkRat 1 100 ∧ ¬has_price_context context then none
          else
            some { raw_text := m.group0 text.toList, amount := amount,
                   currency := currency,
                   confidence := price_calculate_regex_confidence
                     (m.group0 text.toList) amount currency np.1 context,
                   context := context,
                   price_type := determine_price_type m.start text context }))

/-- What `price_parser.Price.fromstring` returns: an optional decimal amount
and an optional currency string. -/
structure PParsed where
  amount : Option PyDecimal
  currency : Option String

/-- The `\d+[,\d]*\.?\d*` number piece of `_find_potential_price_strings`. -/
def loose_amount_piece : RE :=
  rseq [rplus rdigit, rstar (.cls (fun c => c = ',' || c.isDigit)),
    ropt (rchr '.'), rstar rdigit]

/-- `PriceExtractor._find_potential_price_strings`: candidate substrings and
their positions for the price-parser path. -/
def find_potential_price_strings (currency_symbols : List (String × String))
    (text : String) : List (String × Nat) :=
  let s := text.toList
  let singles := (currency_symbols.map Prod.fst).filter (fun sy => sy.length = 1)
  let multis := (currency_symbols.map Prod.fst).filter (fun sy => sy.length > 1)
  let potential0 : List (String × Nat) :=
    if ¬multis.isEmpty then
      (finditer (rseq [rgrp 1 (ralt (multis.map rlitCI)), rstar rspace,
        loose_amount_piece]) s).map (fun m => (m.group0 s, m.start))
    else []
  let singleMatches :=
    (finditer (rseq [singleSymbolCls singles, rstar rspace, loose_amount_piece]) s)
  let potential1 := singleMatches.foldl (fun acc m =>
    if acc.any (fun pp => ((m.start : Int) - (pp.2 : Int)).natAbs < 5) then acc
    else acc ++ [(m.group0 s, m.start)]) potential0
  let code_alt : RE :=
    ralt [rlitCI "USD", rlitCI "EUR", rlitCI "GBP", rlitCI "JPY", rlitCI "CAD",
          rlitCI "AUD", rlitCI "CHF", rlitCI "INR", rlitCI "CNY"]
  let potential2 := potential1 ++
    (finditer (rseq [loose_amount_piece, rstar rspace, code_alt]) s).map
      (fun m => (m.group0 s, m.start))
  let potential3 := potential2 ++
    (finditer (rseq [code_alt, rplus rspace, loose_amount_piece]) s).map
      (fun m => (m.group0 s, m.start))
  let context_words : List String := ["price", "cost", "total", "amount", "$", "pay", "charge"]
  context_words.foldl (fun acc word =>
    if strIn word (pyLower text) then
      acc ++ (finditer (rseq [rlitCI word, rstar rspace, ropt (rchr ':'), rstar rspace,
        rgrp 1 (rseq [rplus rdigit, rstar (.cls (fun c => c = ',' || c.isDigit)),
          rchr '.', rdigit, rdigit])]) s).map
        (fun m => ((m.groupStr s 1).getD "", m.start))
    else acc) potential3

/-- `PriceExtractor._calculate_parser_confidence`. -/
def calculate_parser_confidence (price_text : String) (parsed : PParsed)
    (context : Option String) : ℚ :=
  let confidence : ℚ := mkRat 6 10
  let confidence :=
    match parsed.currency with
    | some c => if c ≠ "" then qAdd confidence (mkRat 2 10) else confidence
    | none => confidence
  let amount := (parsed.amount.getD ⟨0, 0⟩).toRat
  let confidence :=
    if mkRat 1 100 ≤ amount ∧ amount ≤ 1000000 then qAdd confidence (mkRat 1 10)
    else if amount > 1000000 then qSub confidence (mkRat 1 10)
    else confidence
  let confidence :=
    if (reSearch (rseq [rplus rdigit, rchr '.', rdigit, rdigit, .endA])
        price_text.toList).isSome then
      qAdd confidence (mkRat 1 10)
    else confidence
  let confidence :=
    match context with
    | some c => if c ≠ "" ∧ has_price_context (some c) then qAdd confidence (mkRat 1 10)
                else confidence
    | none => confidence
  qMin confidence 1

/-- `PriceExtractor._extract_with_priceparser` (`fromstring` is
`price_parser.Price.fromstring`; a raised exception is modelled as `none`). -/
def extract_with_priceparser (fromstring : String → Option PParsed)
    (currency_symbols : List (String × String)) (text : String)
    (context : Option String) : List ExtractedPrice :=
  let lines := (pySplitLines text).filterMap (fun line =>
    let line := pyStrip line
    if line.isEmpty then none else some line)
  let processed_text := lines ++ [text]
  processed_text.flatMap (fun text_chunk =>
    (find_potential_price_strings currency_symbols text_chunk).filterMap (fun pp =>
      let price_text := pp.1
      let position := pp.2
      match fromstring price_text with
      | none => none
      | some parsed_price =>
        match parsed_price.amount with
        | none => none
        | some amount =>
          if amount.toRat ≠ 0 ∧ amount.toRat > 0 then
            let raw_currency :=
              match parsed_price.currency with
              | some c => if c ≠ "" then c else "USD"
              | none => "USD"
            some { raw_text := price_text,
                   amount := amount,
                   currency := (assocGet currency_symbols raw_currency).getD raw_currency,
                   confidence := calculate_parser_confidence price_text parsed_price context,
                   context := context,
                   price_type := determine_price_type position text_chunk context }
          else none))

/-- `PriceExtractor._deduplicate_prices`: group by the `(amount, currency)`
pair (`Decimal` equality is numeric), keep the highest-confidence member. -/
def deduplicate_prices (prices : List ExtractedPrice) : List ExtractedPrice :=
  dedupByKey (fun p => (p.amount.toRat, p.currency)) (·.confidence) prices

/-- The raw (pre-dedup) price list of `PriceExtractor.extract_prices`: the
price-parser path when available, else the regex path. -/
def prices_pre_dedup (price_parser_available : Bool)
    (fromstring : String → Option PParsed)
    (currency_symbols : List (String × String)) (currency_codes : List String)
    (text : String) (context : Option String) : List ExtractedPrice :=
  if price_parser_available then
    extract_with_priceparser fromstring currency_symbols text context
  else
    price_extract_with_regex currency_symbols currency_codes text context

/-- `PriceExtractor.extract_prices`. -/
def extract_prices (price_parser_available : Bool)
    (fromstring : String → Option PParsed)
    (currency_symbols : List (String × String)) (currency_codes : List String)
    (text : String) (context : Option String) : List ExtractedPrice :=
  let prices := prices_pre_dedup price_parser_available fromstring
    currency_symbols currency_codes text context
  let prices := deduplicate_prices prices
  sortByConfDesc (·.confidence) prices

/-! ## PatternExtractor (`pattern_extractor.py`) -/

/-- One entry of the static pattern registry: ordered regexes, base
confidence, context boost, and format validators (predicates over the matched
value; none of the source's lambdas can raise on a string input, so the
`try/except` of `_validate_pattern_match` never fires). -/
structure PatternConfig where
  patterns : List RE
  confidence_base : ℚ
  context_boost : ℚ
  format_validators : List (String → Bool)

/-- `[A-Z0-9]`. -/
def rAZ09 : RE := .cls (fun c => ('A' ≤ c && c ≤ 'Z') || c.isDigit)

/-- `[-_]`. -/
def rDashUnd : RE := .cls (fun c => c = '-' || c = '_')

/-- `[-.\s]`. -/
def rSepCls : RE := .cls (fun c => c = '-' || c = '.' || c.isWhitespace)

/-- The `[^\s<>"{}|\\^`\[\]]` class of the URL patterns (the brace and
backtick characters written by code point). -/
def rUrlChar : RE := .cls (fun c => ¬(c.isWhitespace
  || c = '<' || c = '>' || c = '"' || c = Char.ofNat 123 || c = Char.ofNat 125
  || c = '|' || c = '\\' || c = '^' || c = Char.ofNat 96 || c = '[' || c = ']'))

/-- Python `any(c.isdigit() for c in x)`. -/
def anyDigit (x : String) : Bool := x.toList.any Char.isDigit

/-- Python `any(c.isalpha() for c in x)`. -/
def anyAlpha (x : String) : Bool := x.toList.any Char.isAlpha

/-- Python `x.split('@')[1]` (the segment after the first `@`). -/
def splitAtFirst (c : Char) (s : String) (i : Nat) : String :=
  ((splitOnChar c s.toList).map String.mk).getD i ""

/-- `PatternExtractor._initialize_patterns`, in dict insertion order, each
pattern list in source order. -/
def pattern_registry : List (String × PatternConfig) :=
  [("order_id",
    { patterns :=
        [ -- \b([A-Z]{2,4}-?\d{6,12})\b
         rseq [rwb, rgrp 1 (rseq [rrep rAZ 2 4, ropt (rchr '-'), rrep rdigit 6 12]), rwb],
         -- \b(ORD-?\d{6,10})\b  (IGNORECASE)
         rseq [rwb, rgrp 1 (rseq [rlitCI "ORD", ropt (rchr '-'), rrep rdigit 6 10]), rwb],
         -- \b([0-9]{8,15})\b
         rseq [rwb, rgrp 1 (rrep rdigit 8 15), rwb],
         -- \b([A-Z]+\d{6,})\b
         rseq [rwb, rgrp 1 (rseq [rplus rAZ, ratLeast rdigit 6]), rwb],
         -- \b(\d{3}-\d{3}-\d{4,6})\b
         rseq [rwb, rgrp 1 (rseq [rdigit, rdigit, rdigit, rchr '-', rdigit, rdigit, rdigit,
           rchr '-', rrep rdigit 4 6]), rwb]],
      confidence_base := mkRat 6 10, context_boost := mkRat 3 10,
      format_validators := [fun x => x.length ≥ 6, anyDigit] }),
   ("sku",
    { patterns :=
        [ -- \b([A-Z]{2,5}\d{2,8}[A-Z]?)\b
         rseq [rwb, rgrp 1 (rseq [rrep rAZ 2 5, rrep rdigit 2 8, ropt rAZ]), rwb],
         -- \b(\d{4,}-[A-Z0-9]{2,8})\b
         rseq [rwb, rgrp 1 (rseq [ratLeast rdigit 4, rchr '-', rrep rAZ09 2 8]), rwb],
         -- \b([A-Z]+[-_]\d+[-_]?[A-Z]*)\b
         rseq [rwb, rgrp 1 (rseq [rplus rAZ, rDashUnd, rplus rdigit, ropt rDashUnd,
           rstar rAZ]), rwb],
         -- \b(\d{6,12})\b
         rseq [rwb, rgrp 1 (rrep rdigit 6 12), rwb],
         -- \b([A-Z]{1,3}\d{2,6}[A-Z]{0,3})\b
         rseq [rwb, rgrp 1 (rseq [rrep rAZ 1 3, rrep rdigit 2 6, rrep rAZ 0 3]), rwb]],
      confidence_base := mkRat 5 10, context_boost := mkRat 3 10,
      format_validators := [fun x => x.length ≥ 4, anyDigit, anyAlpha] }),
   ("email",
    { patterns :=
        [ -- \b([a-zA-Z0-9._%+-]+@[a-zA-Z0-9.-]+\.[a-zA-Z]{2,})\b
         rseq [rwb,
           rgrp 1 (rseq [rplus (.cls (fun c => c.isAlphanum || c = '.' || c = '_'
               || c = '%' || c = '+' || c = '-')),
             rchr '@',
             rplus (.cls (fun c => c.isAlphanum || c = '.' || c = '-')),
             rchr '.', ratLeast rAZci 2]),
           rwb]],
      confidence_base := mkRat 9 10, context_boost := mkRat 1 10,
      format_validators :=
        [fun x => strIn "@" x,
         fun x => if strIn "@" x then strIn "." (splitAtFirst '@' x 1) else false,
         fun x => if strIn "@" x then (splitAtFirst '@' x 1).length > 2 else false] }),
   ("phone",
    { patterns :=
        [ -- \b(\+?1[-.\s]?(\d{3})[-.\s]?(\d{3})[-.\s]?(\d{4}))\b
         rseq [rwb, rgrp 1 (rseq [ropt (rchr '+'), rchr '1', ropt rSepCls,
           rgrp 2 (rseq [rdigit, rdigit, rdigit]), ropt rSepCls,
           rgrp 3 (rseq [rdigit, rdigit, rdigit]), ropt rSepCls,
           rgrp 4 rd4]), rwb],
         -- \b(\(\d{3}\)\s?-?\s?\d{3}[-.\s]?\d{4})\b
         rseq [rwb, rgrp 1 (rseq [rchr '(', rdigit, rdigit, rdigit, rchr ')',
           ropt rspace, ropt (rchr '-'), ropt rspace,
           rdigit, rdigit, rdigit, ropt rSepCls, rd4]), rwb],
         -- \b(\d{3}[-.\s]?\d{3}[-.\s]?\d{4})\b
         rseq [rwb, rgrp 1 (rseq [rdigit, rdigit, rdigit, ropt rSepCls,
           rdigit, rdigit, rdigit, ropt rSepCls, rd4]), rwb],
         -- \b(\+\d{1,3}[-.\s]?\d{1,14})\b
         rseq [rwb, rgrp 1 (rseq [rchr '+', rrep rdigit 1 3, ropt rSepCls,
           rrep rdigit 1 14]), rwb],
         -- \b(\d{10})\b
         rseq [rwb, rgrp 1 (rseq (List.replicate 10 rdigit)), rwb]],
      confidence_base := mkRat 7 10, context_boost := mkRat 2 10,
      format_validators :=
        [fun x => (digitsOnly x).length ≥ 10, fun x => (digitsOnly x).length ≤ 15] }),
   ("tracking",
    { patterns :=
        [ -- \b(1Z[A-Z0-9]{16})\b
         rseq [rwb, rgrp 1 (rseq ([rchr '1', rchr 'Z'] ++ List.replicate 16 rAZ09)), rwb],
         -- \b(\d{22})\b
         rseq [rwb, rgrp 1 (rseq (List.replicate 22 rdigit)), rwb],
         -- \b(\d{12})\b
         rseq [rwb, rgrp 1 (rseq (List.replicate 12 rdigit)), rwb],
         -- \b([A-Z]{2}\d{9}[A-Z]{2})\b
         rseq [rwb, rgrp 1 (rseq ([rAZ, rAZ] ++ List.replicate 9 rdigit ++ [rAZ, rAZ])), rwb],
         -- \b(TRK\d{10,15})\b  (IGNORECASE)
         rseq [rwb, rgrp 1 (rseq [rlitCI "TRK", rrep rdigit 10 15]), rwb]],
      confidence_base := mkRat 6 10, context_boost := mkRat 3 10,
      format_validators := [fun x => x.length ≥ 8, anyDigit] }),
   ("invoice",
    { patterns :=
        [ -- \b(INV-?\d{4,12})\b  (IGNORECASE)
         rseq [rwb, rgrp 1 (rseq [rlitCI "INV", ropt (rchr '-'), rrep rdigit 4 12]), rwb],
         -- \b(\d{6,12})\b
         rseq [rwb, rgrp 1 (rrep rdigit 6 12), rwb],
         -- \b([A-Z]{2,4}\d{4,10})\b
         rseq [rwb, rgrp 1 (rseq [rrep rAZ 2 4, rrep rdigit 4 10]), rwb]],
      confidence_base := mkRat 5 10, context_boost := mkRat 4 10,
      format_validators := [fun x => x.length ≥ 4, anyDigit] }),
   ("customer_id",
    { patterns :=
        [ -- \b(CUST-?\d{4,12})\b  (IGNORECASE)
         rseq [rwb, rgrp 1 (rseq [rlitCI "CUST", ropt (rchr '-'), rrep rdigit 4 12]), rwb],
         -- \b(C\d{6,12})\b
         rseq [rwb, rgrp 1 (rseq [rchr 'C', rrep rdigit 6 12]), rwb],
         -- \b(\d{6,15})\b
         rseq [rwb, rgrp 1 (rrep rdigit 6 15), rwb]],
      confidence_base := mkRat 4 10, context_boost := mkRat 4 10,
      format_validators := [fun x => x.length ≥ 4, anyDigit] }),
   ("quantity",
    { patterns :=
        [ -- \b(\d+)\s*(?:pcs?|pieces?|units?|each|qty|x)\b  (IGNORECASE)
         rseq [rwb, rgrp 1 (rplus rdigit), rstar rspace,
           ralt [rseq [rlitCI "pc", ropt (rchrCI 's')],
                 rseq [rlitCI "piece", ropt (rchrCI 's')],
                 rseq [rlitCI "unit", ropt (rchrCI 's')],
                 rlitCI "each", rlitCI "qty", rlitCI "x"],
           rwb],
         -- \bqty:?\s*(\d+)\b  (IGNORECASE)
         rseq [rwb, rlitCI "qty", ropt (rchr ':'), rstar rspace,
           rgrp 1 (rplus rdigit), rwb],
         -- \bquantity:?\s*(\d+)\b  (IGNORECASE)
         rseq [rwb, rlitCI "quantity", ropt (rchr ':'), rstar rspace,
           rgrp 1 (rplus rdigit), rwb]],
      confidence_base := mkRat 7 10, context_boost := mkRat 2 10,
      format_validators :=
        [pyIsDigit,
         fun x => if pyIsDigit x then digitsToNat x.toList > 0 else false] }),
   ("url",
    { patterns :=
        [ -- \b(https?://[^\s<>"{}|\\^`\[\]]+)\b
         rseq [rwb, rgrp 1 (rseq [rlit "http", ropt (rchr 's'), rlit "://",
           rplus rUrlChar]), rwb],
         -- \b(www\.[^\s<>"{}|\\^`\[\]]+\.[a-zA-Z]{2,})\b
         rseq [rwb, rgrp 1 (rseq [rlit "www", rchr '.', rplus rUrlChar,
           rchr '.', ratLeast rAZci 2]), rwb]],
      confidence_base := mkRat 8 10, context_boost := mkRat 1 10,
      format_validators := [fun x => strIn "." x, fun x => x.length > 5] })]

/-- `self.context_indicators`, in dict insertion order. -/
def context_indicators : List (String × List String) :=
  [("order_id", ["order", "order number", "order #", "order id", "purchase order",
    "po number", "po #", "transaction", "reference", "confirmation"]),
   ("sku", ["sku", "item number", "product code", "part number", "catalog",
    "model", "item code", "product id", "part #"]),
   ("email", ["email", "e-mail", "contact", "from", "to", "reply", "@"]),
   ("phone", ["phone", "tel", "telephone", "mobile", "cell", "call", "contact"]),
   ("tracking", ["tracking", "tracking number", "shipment", "carrier", "ups",
    "fedex", "usps"]),
   ("invoice", ["invoice", "invoice number", "invoice #", "bill", "billing"]),
   ("customer_id", ["customer", "customer id", "customer number", "account",
    "client id"])]

/-- `PatternExtractor._validate_pattern_match`: every validator must accept. -/
def validate_pattern_match (value : String) (cfg : PatternConfig) : Bool :=
  cfg.format_validators.all (fun v => v value)

/-- `PatternExtractor._has_pattern_context` (window ±50). -/
def has_pattern_context (pattern_type : String) (position : Nat) (text : String)
    (context : Option String) : Bool :=
  let indicators := (assocGet context_indicators pattern_type).getD []
  let s := text.toList
  let start := position - 50
  let stop := min s.length (position + 50)
  let surrounding_text := pyLower (sliceStr s start stop)
  let full_context := pyLower ((context.getD "") ++ " " ++ surrounding_text)
  indicators.any (fun ind => strIn ind full_context)

/-- `PatternExtractor._calculate_pattern_confidence`. -/
def calculate_pattern_confidence (value : String) (pattern_type : String)
    (cfg : PatternConfig) (position : Nat) (text : String)
    (context : Option String) : ℚ :=
  let confidence := cfg.confidence_base
  let confidence :=
    if has_pattern_context pattern_type position text context then
      qAdd confidence cfg.context_boost
    else confidence
  let confidence :=
    if pattern_type = "email" then
      if validate_email_format value then qMin (qAdd confidence (mkRat 1 10)) 1
      else confidence
    else if pattern_type = "phone" then
      let digit_count := (digitsOnly value).length
      if digit_count = 10 then qAdd confidence (mkRat 1 10)
      else if digit_count = 11 ∧ "+1".isPrefixOf value then qAdd confidence (mkRat 1 10)
      else confidence
    else if pattern_type = "order_id" ∨ pattern_type = "sku" ∨ pattern_type = "tracking" then
      let confidence := if value.length ≥ 8 then qAdd confidence (mkRat 5 100) else confidence
      if strIn "-" value ∨ strIn "_" value then qAdd confidence (mkRat 5 100) else confidence
    else if pattern_type = "quantity" then
      match pyIntParse value with
      | some qty =>
        if 1 ≤ qty ∧ qty ≤ 10000 then qAdd confidence (mkRat 1 10)
        else if qty > 10000 then qSub confidence (mkRat 2 10)
        else confidence
      | none => qSub confidence (mkRat 3 10)
    else confidence
  qMin (qMax confidence 0) 1

/-- `PatternExtractor._format_phone_number`. -/
def format_phone_number (digits : String) : String :=
  let l := digits.toList
  if l.length = 10 then
    "(" ++ String.mk (l.take 3) ++ ") " ++ String.mk ((l.drop 3).take 3)
      ++ "-" ++ String.mk (l.drop 6)
  else if l.length = 11 ∧ "1".isPrefixOf digits then
    "+1 (" ++ String.mk ((l.drop 1).take 3) ++ ") " ++ String.mk ((l.drop 4).take 3)
      ++ "-" ++ String.mk (l.drop 7)
  else digits

/-- `PatternExtractor._extract_pattern_metadata` (values stringified). -/
def extract_pattern_metadata (value : String) (pattern_type : String) :
    List (String × Option String) :=
  if pattern_type = "phone" then
    let digits := digitsOnly value
    let l := digits.toList
    [("digits_only", some digits), ("formatted", some (format_phone_number digits))]
      ++ (if l.length = 10 then
            [("area_code", some (String.mk (l.take 3))),
             ("exchange", some (String.mk ((l.drop 3).take 3))),
             ("number", some (String.mk (l.drop 6)))]
          else [])
  else if pattern_type = "email" then
    if strIn "@" value then
      let parts := rsplitOnce '@' value
      [("local", some parts.1), ("domain", some parts.2),
       ("tld", if strIn "." parts.2 then some (lastSegAfter '.' parts.2) else none)]
    else []
  else if pattern_type = "url" then
    if strIn "://" value then
      let protoRest :=
        match (splitOnChar ':' value.toList) with
        | p :: rest => (String.mk p, (String.intercalate ":" (rest.map String.mk)).drop 2)
        | [] => ("", "")
      let protocol := protoRest.1
      let rest := protoRest.2
      let domainPath :=
        if strIn "/" rest then
          match splitOnChar '/' rest.toList with
          | d :: ps => (String.mk d, "/" ++ String.intercalate "/" (ps.map String.mk))
          | [] => ("", "/")
        else (rest, "/")
      [("protocol", some protocol), ("domain", some domainPath.1),
       ("path", some domainPath.2)]
    else []
  else if pattern_type = "quantity" then
    match pyIntParse value with
    | some n => [("numeric_value", some (toString n))]
    | none => []
  else []

/-- One pattern type's pass of `PatternExtractor._extract_single_pattern_type`:
all matches of all its regexes, validated, scored, filtered below `0.3`. -/
def extract_single_pattern_type (text : String) (pattern_type : String)
    (cfg : PatternConfig) (context : Option String) : List ExtractedPattern :=
  let s := text.toList
  cfg.patterns.flatMap (fun re =>
    (finditer re s).filterMap (fun m =>
      let raw_text := m.group0 s
      let value := if re.hasGroup then (m.groupStr s 1).getD "" else m.group0 s
      if ¬validate_pattern_match value cfg then none
      else
        let confidence := calculate_pattern_confidence value pattern_type cfg m.start text context
        if confidence < mkRat 3 10 then none
        else
          some { raw_text := raw_text, pattern_type := pattern_type,
                 confidence := confidence, value := value, context := context,
                 metadata := extract_pattern_metadata value pattern_type }))

/-- `PatternExtractor._normalize_value`. -/
def normalize_value (value : String) (pattern_type : String) : String :=
  if pattern_type = "phone" then digitsOnly value
  else if pattern_type = "email" then pyStrip (pyLower value)
  else if pattern_type = "order_id" ∨ pattern_type = "sku" ∨ pattern_type = "tracking"
      ∨ pattern_type = "invoice" ∨ pattern_type = "customer_id" then
    pyStrip (pyUpper value)
  else pyStrip value

/-- `PatternExtractor._deduplicate_patterns`: group by
`(pattern_type, normalised value)`, keep the highest-confidence member. -/
def deduplicate_patterns (patterns : List ExtractedPattern) : List ExtractedPattern :=
  dedupByKey (fun p => (p.pattern_type, normalize_value p.value p.pattern_type))
    (·.confidence) patterns

/-- The raw (pre-dedup) pattern list of `PatternExtractor.extract_patterns`:
the requested types (all, when `none`), unknown type names skipped. -/
def patterns_pre_dedup (text : String) (pattern_types : Option (List String))
    (context : Option String) : List ExtractedPattern :=
  let pattern_types := pattern_types.getD (pattern_registry.map Prod.fst)
  pattern_types.flatMap (fun pt =>
    match assocGet pattern_registry pt with
    | none => []
    | some cfg => extract_single_pattern_type text pt cfg context)

/-- `PatternExtractor.extract_patterns`. -/
def extract_patterns (text : String) (pattern_types : Option (List String))
    (context : Option String) : List ExtractedPattern :=
  let extracted_patterns := patterns_pre_dedup text pattern_types context
  let extracted_patterns := deduplicate_patterns extracted_patterns
  sortByConfDesc (·.confidence) extracted_patterns

/-! ## DeterministicProcessor.process_text (`deterministic_processor.py`) -/

/-- The slice of `extraction_config` the processor actually reads:
`config.get('patterns', {}).get('types')` (`none` means all pattern types). -/
structure ExtractionConfig where
  patterns_types : Option (List String) := none

/-- The optional-library environment of a processor instance, threaded to the
extractors it owns. -/
structure Libs where
  postal_available : Bool
  postal_parse : String → List (String × String)
  dateparser_available : Bool
  dparse : String → Option PyDateTime
  price_parser_available : Bool
  fromstring : String → Option PParsed
  currency_symbols : List (String × String)
  currency_codes : List String
  now : PyDateTime

/-- `DeterministicProcessor.process_text`. The pure embedding cannot raise,
so the two places the source converts exceptions into data are explicit
parameters: `fault` is an exception outside the four per-extractor calls
(caught by the outermost handler, producing the all-empty error result), and
the four `*Fault` flags are per-extractor task exceptions (folded to an empty
sequence for that type by the `gather` handling). -/
def process_text (libs : Libs) (fault : Option String)
    (addrFault dateFault priceFault pattFault : Bool)
    (text : String) (context : Option String)
    (extraction_config : Option ExtractionConfig) : DeterministicResults :=
  match fault with
  | some e =>
    { addresses := [], dates := [], prices := [], patterns := [],
      metadata := [("error", .s e)], confidence := 0 }
  | none =>
    let config := extraction_config.getD {}
    let addresses :=
      if addrFault then []
      else extract_addresses libs.postal_available libs.postal_parse text context
    let dates :=
      if dateFault then []
      else extract_dates libs.dateparser_available libs.dparse libs.now text context
    let prices :=
      if priceFault then []
      else extract_prices libs.price_parser_available libs.fromstring
        libs.currency_symbols libs.currency_codes text context
    let patterns :=
      if pattFault then []
      else extract_patterns text config.patterns_types context
    let metadata := compile_metadata libs.postal_available libs.dateparser_available
      libs.price_parser_available addresses dates prices patterns text
    let overall_confidence := calculate_overall_confidence addresses dates prices patterns
    { addresses := addresses, dates := dates, prices := prices, patterns := patterns,
      metadata := metadata, confidence := overall_confidence }

/-- Total number of prices actually counted into a `calculate_totals` result. -/
def countedPrices : TotalsResult → Nat
  | .empty _ _ n => n
  | .simple _ _ n _ => n
  | .byType groups => (groups.map (fun tg => tg.2.count)).sum

/-- The specification's description of the overall confidence: the arithmetic
mean of all candidates' confidences across the four types, plus a diversity
bonus of `0.05` for each of the four types with a non-empty sequence capped at
`0.15` total, the final value clamped into `[0, 1]` (and `0` with no
candidates at all). Stated with the standard `ℚ` operations, to be compared
with `calculate_overall_confidence`. -/
def specOverallConfidence
    (addresses : List ExtractedAddress) (dates : List ExtractedDate)
    (prices : List ExtractedPrice) (patterns : List ExtractedPattern) : ℚ :=
  let all_confidences : List ℚ :=
    addresses.map (·.confidence) ++ dates.map (·.confidence)
      ++ prices.map (·.confidence) ++ patterns.map (·.confidence)
  if all_confidences.isEmpty then 0
  else
    let mean := all_confidences.sum / (all_confidences.length : ℚ)
    let types : ℚ :=
      (if ¬addresses.isEmpty then 1 else 0) + (if ¬dates.isEmpty then 1 else 0)
        + (if ¬prices.isEmpty then 1 else 0) + (if ¬patterns.isEmpty then 1 else 0)
    let diversity_bonus := min (types * (5 / 100)) (15 / 100)
    min (max (mean + diversity_bonus) 0) 1

/-- The specification's per-category additive evidence weights for document
type inference, stated as closed per-category sums (order: `0.4` for an
order-id pattern, `0.3` for an order date, `0.2` for any price; invoice:
`0.4` / `0.3` / `0.3`; shipping: `0.4` / `0.3` / `0.3`; receipt: `0.3` for
more than two prices, `0.2` for a tax price; booking and unknown: no rules),
to be compared with `infer_document_type`'s accumulated scores. -/
def specDocTypeScores
    (addresses : List ExtractedAddress) (dates : List ExtractedDate)
    (prices : List ExtractedPrice) (patterns : List ExtractedPattern) :
    List (String × ℚ) :=
  [("order",
      (if ¬(patterns.filter (fun p => p.pattern_type = "order_id")).isEmpty
        then mkRat 4 10 else 0)
    + (if ¬(dates.filter (fun d => d.date_type = some "order")).isEmpty
        then mkRat 3 10 else 0)
    + (if ¬prices.isEmpty then mkRat 2 10 else 0)),
   ("invoice",
      (if ¬(patterns.filter (fun p => p.pattern_type = "invoice")).isEmpty
        then mkRat 4 10 else 0)
    + (if ¬(dates.filter (fun d => d.date_type = some "invoice")).isEmpty
        then mkRat 3 10 else 0)
    + (if ¬prices.isEmpty ∧ prices.any (fun p => p.price_type = some "total")
        then mkRat 3 10 else 0)),
   ("shipping",
      (if ¬(patterns.filter (fun p => p.pattern_type = "tracking")).isEmpty
        then mkRat 4 10 else 0)
    + (if ¬(dates.filter (fun d => d.date_type = some "ship")).isEmpty
        then mkRat 3 10 else 0)
    + (if ¬(addresses.filter
          (fun a => strIn "ship" (pyLower (a.context.getD "")))).isEmpty
        then mkRat 3 10 else 0)),
   ("receipt",
      (if ¬prices.isEmpty ∧ prices.length > 2 then mkRat 3 10 else 0)
    + (if prices.any (fun p => p.price_type = some "tax") then mkRat 2 10 else 0)),
   ("booking", 0), ("unknown", 0)]

/-- The tail of `_infer_document_type` (threshold test and argmax over the
six-category score dict), parametrised by the four accumulated category
scores; `infer_document_type` is shown equal to this applied to the
per-category sums. -/
def docTypeResult (O I Sh Re : ℚ) : DocTypeInference :=
  let scores : List (String × ℚ) :=
    [("order", O), ("invoice", I), ("shipping", Sh), ("receipt", Re),
     ("booking", 0), ("unknown", 0)]
  let max_score := pyMaxQ (scores.map Prod.snd)
  if max_score < mkRat 3 10 then
    { most_likely := "unknown", confidence := 0, scores := scores }
  else
    { most_likely := pyMaxKey scores, confidence := max_score, scores := scores }

/-! # Theorems

First the bridge lemmas relating the kernel-reducible arithmetic to the
standard `ℚ` operators, then generic list lemmas for the sort/dedup pipeline,
then the claim theorems. -/

theorem qAdd_eq (a b : ℚ) : qAdd a b = a + b := by
  unfold qAdd
  rw [Rat.mkRat_eq_div]
  have ha : ((a.den : ℚ)) ≠ 0 := by exact_mod_cast a.den_nz
  have hb : ((b.den : ℚ)) ≠ 0 := by exact_mod_cast b.den_nz
  push_cast
  conv_rhs => rw [← Rat.num_div_den a, ← Rat.num_div_den b, div_add_div _ _ ha hb]
  ring_nf

theorem qMul_eq (a b : ℚ) : qMul a b = a * b := by
  unfold qMul
  rw [Rat.mkRat_eq_div]
  push_cast
  conv_rhs => rw [← Rat.num_div_den a, ← Rat.num_div_den b]
  rw [div_mul_div_comm]

theorem qNeg_eq (a : ℚ) : qNeg a = -a := by
  unfold qNeg
  rw [Rat.mkRat_eq_div]
  push_cast
  rw [neg_div, Rat.num_div_den]

theorem qSub_eq (a b : ℚ) : qSub a b = a - b := by
  unfold qSub; rw [qAdd_eq, qNeg_eq, sub_eq_add_neg]

theorem qInv_eq (a : ℚ) : qInv a = a⁻¹ := by
  unfold qInv
  rw [Rat.mkRat_eq_div]
  rw [show a⁻¹ = a.inv from rfl, Rat.inv_def, Rat.divInt_eq_div]
  rcases lt_trichotomy a.num 0 with h | h | h
  · rw [Int.sign_eq_neg_one_of_neg h]
    push_cast [Int.cast_natAbs]
    rw [abs_of_neg (show ((a.num : ℚ)) < 0 by exact_mod_cast h)]
    ring
  · simp [h]
  · rw [Int.sign_eq_one_of_pos h]
    push_cast [Int.cast_natAbs]
    rw [abs_of_pos (show (0:ℚ) < (a.num : ℚ) by exact_mod_cast h), one_mul]

theorem qDiv_eq (a b : ℚ) : qDiv a b = a / b := by
  unfold qDiv
  rw [qMul_eq, qInv_eq, div_eq_mul_inv]

theorem qMin_eq (a b : ℚ) : qMin a b = min a b := by
  unfold qMin
  rcases le_or_lt a b with h | h
  · rw [if_neg (not_lt.mpr h), min_eq_left h]
  · rw [if_pos h, min_eq_right h.le]

theorem qMax_eq (a b : ℚ) : qMax a b = max a b := by
  unfold qMax
  rcases le_or_lt b a with h | h
  · rw [if_neg (not_lt.mpr h), max_eq_left h]
  · rw [if_pos h, max_eq_right h.le]

theorem qOfNat_eq (n : Nat) : qOfNat n = (n : ℚ) := by
  unfold qOfNat
  rw [Rat.mkRat_eq_div]
  norm_num

theorem mkRat_div (n : Int) (d : Nat) : mkRat n d = (n : ℚ) / (d : ℚ) := by
  rw [Rat.mkRat_eq_div]

theorem pySum_eq (l : List ℚ) : pySum l = l.sum := by
  have h : ∀ (init : ℚ), l.foldl qAdd init = init + l.sum := by
    induction l with
    | nil => intro init; simp [List.sum]
    | cons x xs ih =>
      intro init
      simp only [List.foldl, List.sum_cons, qAdd_eq, ih]
      ring
  simpa using h 0

theorem PyDecimal.add_toRat (a b : PyDecimal) :
    (a.add b).toRat = a.toRat + b.toRat := by
  unfold PyDecimal.add PyDecimal.toRat
  rcases Nat.le_total a.scale b.scale with h | h
  · rw [max_eq_right h]
    rw [mkRat_div, mkRat_div, mkRat_div]
    have hb : ((10 : ℚ) ^ b.scale) ≠ 0 := by positivity
    have ha : ((10 : ℚ) ^ a.scale) ≠ 0 := by positivity
    have key : ((10 : ℚ)) ^ (b.scale - a.scale) * 10 ^ a.scale = 10 ^ b.scale := by
      rw [← pow_add, Nat.sub_add_cancel h]
    field_simp
    linear_combination ((a.mantissa : ℚ) * 10 ^ b.scale) * key
  · rw [max_eq_left h]
    rw [mkRat_div, mkRat_div, mkRat_div]
    have hb : ((10 : ℚ) ^ b.scale) ≠ 0 := by positivity
    have ha : ((10 : ℚ) ^ a.scale) ≠ 0 := by positivity
    have key : ((10 : ℚ)) ^ (a.scale - b.scale) * 10 ^ b.scale = 10 ^ a.scale := by
      rw [← pow_add, Nat.sub_add_cancel h]
    field_simp
    linear_combination ((b.mantissa : ℚ) * 10 ^ a.scale) * key

/-! ## Sorting lemmas: `sortByConfDesc` is a permutation, sorted
non-increasingly in the key -/

theorem insertDesc_perm (f : α → ℚ) (a : α) (l : List α) :
    (insertDesc f a l).Perm (a :: l) := by
  induction l with
  | nil => simp [insertDesc]
  | cons b t ih =>
    unfold insertDesc
    split
    · exact List.Perm.refl _
    · exact ((ih.cons b).trans (List.Perm.swap a b t)).symm.symm

theorem sortByConfDesc_perm (f : α → ℚ) (l : List α) :
    (sortByConfDesc f l).Perm l := by
  induction l with
  | nil => simp [sortByConfDesc]
  | cons x t ih =>
    unfold sortByConfDesc at *
    simp only [List.foldr]
    exact (insertDesc_perm f x _).trans (ih.cons x)

theorem mem_sortByConfDesc (f : α → ℚ) (l : List α) (x : α) :
    x ∈ sortByConfDesc f l ↔ x ∈ l :=
  (sortByConfDesc_perm f l).mem_iff

theorem mem_insertDesc (f : α → ℚ) (a : α) (l : List α) (x : α) :
    x ∈ insertDesc f a l ↔ x ∈ a :: l :=
  (insertDesc_perm f a l).mem_iff

theorem insertDesc_pairwise (f : α → ℚ) (a : α) (l : List α)
    (h : l.Pairwise (fun x y => f y ≤ f x)) :
    (insertDesc f a l).Pairwise (fun x y => f y ≤ f x) := by
  induction l with
  | nil => simp [insertDesc]
  | cons b t ih =>
    rw [show insertDesc f a (b :: t)
      = if f b ≤ f a then a :: b :: t else b :: insertDesc f a t from rfl]
    by_cases hba : f b ≤ f a
    · rw [if_pos hba]
      refine List.pairwise_cons.mpr ⟨?_, h⟩
      intro y hy
      rcases List.mem_cons.mp hy with rfl | hy'
      · exact hba
      · exact le_trans ((List.pairwise_cons.mp h).1 _ hy') hba
    · rw [if_neg hba]
      have h' := List.pairwise_cons.mp h
      refine List.pairwise_cons.mpr ⟨?_, ih h'.2⟩
      intro y hy
      have hya : y ∈ a :: t := (mem_insertDesc f a t y).mp hy
      rcases List.mem_cons.mp hya with rfl | hy'
      · exact (not_le.mp hba).le
      · exact h'.1 _ hy'

theorem sortByConfDesc_pairwise (f : α → ℚ) (l : List α) :
    (sortByConfDesc f l).Pairwise (fun x y => f y ≤ f x) := by
  induction l with
  | nil => simp [sortByConfDesc]
  | cons x t ih =>
    unfold sortByConfDesc at *
    exact insertDesc_pairwise f x _ ih

/-! ## Dedup lemmas: `dedupByKey` yields pairwise-distinct keys, members of the
input, each maximal in confidence among the input members sharing its key -/

theorem addToGroup_key_sub [DecidableEq κ] (k : κ) (a : α)
    (acc : List (κ × List α)) :
    ∀ q ∈ addToGroup k a acc, q.1 ∈ acc.map Prod.fst ∨ q.1 = k := by
  induction acc with
  | nil =>
    intro q hq
    simp only [addToGroup, List.mem_singleton] at hq
    subst hq
    exact Or.inr rfl
  | cons p rest ih =>
    intro q hq
    rw [show addToGroup k a (p :: rest)
      = if p.1 = k then (p.1, p.2 ++ [a]) :: rest else p :: addToGroup k a rest by
        rcases p with ⟨k', g⟩; rfl] at hq
    by_cases hk : p.1 = k
    · rw [if_pos hk] at hq
      rcases List.mem_cons.mp hq with rfl | hq'
      · exact Or.inr hk
      · exact Or.inl (List.mem_map.mpr ⟨q, List.mem_cons_of_mem _ hq', rfl⟩)
    · rw [if_neg hk] at hq
      rcases List.mem_cons.mp hq with rfl | hq'
      · exact Or.inl (List.mem_map.mpr ⟨q, List.mem_cons_self _ _, rfl⟩)
      · rcases ih q hq' with h | h
        · rcases List.mem_map.mp h with ⟨q', hq'', hfst⟩
          exact Or.inl (List.mem_map.mpr ⟨q', List.mem_cons_of_mem _ hq'', hfst⟩)
        · exact Or.inr h

theorem addToGroup_pairwise [DecidableEq κ] (k : κ) (a : α)
    (acc : List (κ × List α))
    (h : acc.Pairwise (fun p q => p.1 ≠ q.1)) :
    (addToGroup k a acc).Pairwise (fun p q => p.1 ≠ q.1) := by
  induction acc with
  | nil => simp [addToGroup]
  | cons p rest ih =>
    rw [show addToGroup k a (p :: rest)
      = if p.1 = k then (p.1, p.2 ++ [a]) :: rest else p :: addToGroup k a rest by
        rcases p with ⟨k', g⟩; rfl]
    have h' := List.pairwise_cons.mp h
    by_cases hk : p.1 = k
    · rw [if_pos hk]
      exact List.pairwise_cons.mpr ⟨fun q hq => h'.1 q hq, h'.2⟩
    · rw [if_neg hk]
      refine List.pairwise_cons.mpr ⟨?_, ih h'.2⟩
      intro q hq
      rcases addToGroup_key_sub k a rest q hq with hmem | hqk
      · rcases List.mem_map.mp hmem with ⟨q', hq', hfst⟩
        rw [← hfst]
        exact h'.1 q' hq'
      · rw [hqk]; exact hk

theorem addToGroup_keyed [DecidableEq κ] (key : α → κ) (k : κ) (a : α)
    (acc : List (κ × List α)) (hka : key a = k)
    (h : ∀ p ∈ acc, ∀ x ∈ p.2, key x = p.1) :
    ∀ p ∈ addToGroup k a acc, ∀ x ∈ p.2, key x = p.1 := by
  induction acc with
  | nil =>
    intro p hp x hx
    simp [addToGroup] at hp
    subst hp
    simp at hx
    subst hx
    exact hka
  | cons p0 rest ih =>
    intro p hp x hx
    rw [show addToGroup k a (p0 :: rest)
      = if p0.1 = k then (p0.1, p0.2 ++ [a]) :: rest else p0 :: addToGroup k a rest by
        rcases p0 with ⟨k', g⟩; rfl] at hp
    by_cases hk : p0.1 = k
    · rw [if_pos hk] at hp
      rcases List.mem_cons.mp hp with rfl | hp'
      · rcases List.mem_append.mp hx with hx' | hx'
        · exact h p0 (List.mem_cons_self _ _) x hx'
        · rw [List.mem_singleton] at hx'
          subst hx'
          rw [hka, ← hk]
      · exact h p (List.mem_cons_of_mem _ hp') x hx
    · rw [if_neg hk] at hp
      rcases List.mem_cons.mp hp with rfl | hp'
      · exact h p (List.mem_cons_self _ _) x hx
      · exact ih (fun p hp => h p (List.mem_cons_of_mem _ hp)) p hp' x hx

/-- Membership in some group of the accumulator. -/
def gmem [DecidableEq κ] (acc : List (κ × List α)) (x : α) : Prop :=
  ∃ p ∈ acc, x ∈ p.2

theorem gmem_addToGroup [DecidableEq κ] (k : κ) (a : α)
    (acc : List (κ × List α)) (x : α) :
    gmem (addToGroup k a acc) x ↔ gmem acc x ∨ x = a := by
  induction acc with
  | nil =>
    constructor
    · rintro ⟨p, hp, hx⟩
      simp only [addToGroup, List.mem_singleton] at hp
      subst hp
      rw [List.mem_singleton] at hx
      exact Or.inr hx
    · rintro (⟨p, hp, _⟩ | hxa)
      · exact absurd hp (List.not_mem_nil p)
      · exact ⟨(k, [a]), List.mem_singleton.mpr rfl, List.mem_singleton.mpr hxa⟩
  | cons p0 rest ih =>
    rw [show addToGroup k a (p0 :: rest)
      = if p0.1 = k then (p0.1, p0.2 ++ [a]) :: rest else p0 :: addToGroup k a rest by
        rcases p0 with ⟨k', g⟩; rfl]
    by_cases hk : p0.1 = k
    · rw [if_pos hk]
      constructor
      · rintro ⟨p, hp, hx⟩
        rcases List.mem_cons.mp hp with rfl | hp'
        · rcases List.mem_append.mp hx with hx' | hx'
          · exact Or.inl ⟨p0, List.mem_cons_self _ _, hx'⟩
          · simp at hx'; exact Or.inr hx'
        · exact Or.inl ⟨p, List.mem_cons_of_mem _ hp', hx⟩
      · rintro (⟨p, hp, hx⟩ | hxa)
        · rcases List.mem_cons.mp hp with rfl | hp'
          · exact ⟨(p.1, p.2 ++ [a]), List.mem_cons_self _ _, List.mem_append_left _ hx⟩
          · exact ⟨p, List.mem_cons_of_mem _ hp', hx⟩
        · exact ⟨(p0.1, p0.2 ++ [a]), List.mem_cons_self _ _,
            List.mem_append_right _ (List.mem_singleton.mpr hxa)⟩
    · rw [if_neg hk]
      constructor
      · rintro ⟨p, hp, hx⟩
        rcases List.mem_cons.mp hp with rfl | hp'
        · exact Or.inl ⟨p, List.mem_cons_self _ _, hx⟩
        · rcases ih.mp ⟨p, hp', hx⟩ with ⟨q, hq, hxq⟩ | rfl
          · exact Or.inl ⟨q, List.mem_cons_of_mem _ hq, hxq⟩
          · exact Or.inr rfl
      · rintro (⟨p, hp, hx⟩ | hxa)
        · rcases List.mem_cons.mp hp with rfl | hp'
          · exact ⟨p, List.mem_cons_self _ _, hx⟩
          · rcases ih.mpr (Or.inl ⟨p, hp', hx⟩) with ⟨q, hq, hxq⟩
            exact ⟨q, List.mem_cons_of_mem _ hq, hxq⟩
        · rcases ih.mpr (Or.inr hxa) with ⟨q, hq, hxq⟩
          exact ⟨q, List.mem_cons_of_mem _ hq, hxq⟩

theorem groupByKey_foldl_props [DecidableEq κ] (key : α → κ) (l : List α) :
    ∀ (acc : List (κ × List α)),
      acc.Pairwise (fun p q => p.1 ≠ q.1) →
      (∀ p ∈ acc, ∀ x ∈ p.2, key x = p.1) →
      (l.foldl (fun acc a => addToGroup (key a) a acc) acc).Pairwise (fun p q => p.1 ≠ q.1)
      ∧ (∀ p ∈ l.foldl (fun acc a => addToGroup (key a) a acc) acc, ∀ x ∈ p.2, key x = p.1)
      ∧ (∀ x, gmem (l.foldl (fun acc a => addToGroup (key a) a acc) acc) x ↔ gmem acc x ∨ x ∈ l) := by
  induction l with
  | nil =>
    intro acc h1 h2
    refine ⟨h1, h2, ?_⟩
    intro x; simp
  | cons a t ih =>
    intro acc h1 h2
    have h1' := addToGroup_pairwise (key a) a acc h1
    have h2' := addToGroup_keyed key (key a) a acc rfl h2
    obtain ⟨g1, g2, g3⟩ := ih (addToGroup (key a) a acc) h1' h2'
    refine ⟨g1, g2, ?_⟩
    intro x
    rw [List.foldl_cons] at *
    rw [g3 x, gmem_addToGroup]
    constructor
    · rintro ((hx | rfl) | hx)
      · exact Or.inl hx
      · exact Or.inr (List.mem_cons_self _ _)
      · exact Or.inr (List.mem_cons_of_mem _ hx)
    · rintro (hx | hx)
      · exact Or.inl (Or.inl hx)
      · rcases List.mem_cons.mp hx with rfl | hx'
        · exact Or.inl (Or.inr rfl)
        · exact Or.inr hx'

theorem groupByKey_pairwise [DecidableEq κ] (key : α → κ) (l : List α) :
    (groupByKey key l).Pairwise (fun p q => p.1 ≠ q.1) := by
  unfold groupByKey
  exact (groupByKey_foldl_props key l [] (by simp) (by simp)).1

theorem groupByKey_keyed [DecidableEq κ] (key : α → κ) (l : List α) :
    ∀ p ∈ groupByKey key l, ∀ x ∈ p.2, key x = p.1 := by
  unfold groupByKey
  exact (groupByKey_foldl_props key l [] (by simp) (by simp)).2.1

theorem groupByKey_complete [DecidableEq κ] (key : α → κ) (l : List α) :
    ∀ x, gmem (groupByKey key l) x ↔ x ∈ l := by
  intro x
  unfold groupByKey
  rw [(groupByKey_foldl_props key l [] (by simp) (by simp)).2.2 x]
  constructor
  · rintro (⟨p, hp, _⟩ | hx)
    · exact absurd hp (List.not_mem_nil p)
    · exact hx
  · exact Or.inr

theorem pyMaxBy_mem (f : α → ℚ) (x : α) (l : List α) :
    pyMaxBy f x l ∈ x :: l := by
  induction l generalizing x with
  | nil => simp [pyMaxBy]
  | cons a t ih =>
    rw [show pyMaxBy f x (a :: t) = pyMaxBy f (if f a > f x then a else x) t from rfl]
    have hmem := ih (if f a > f x then a else x)
    rcases List.mem_cons.mp hmem with h | h
    · rw [h]
      by_cases hc : f a > f x
      · rw [if_pos hc]
        exact List.mem_cons_of_mem _ (List.mem_cons_self _ _)
      · rw [if_neg hc]
        exact List.mem_cons_self _ _
    · exact List.mem_cons_of_mem _ (List.mem_cons_of_mem _ h)

theorem pyMaxBy_ge (f : α → ℚ) (x : α) (l : List α) :
    ∀ y ∈ x :: l, f y ≤ f (pyMaxBy f x l) := by
  induction l generalizing x with
  | nil =>
    intro y hy
    rcases List.mem_cons.mp hy with rfl | hy
    · simp [pyMaxBy]
    · simp at hy
  | cons a t ih =>
    intro y hy
    rw [show pyMaxBy f x (a :: t) = pyMaxBy f (if f a > f x then a else x) t from rfl]
    have hbase : f x ≤ f (if f a > f x then a else x) := by
      by_cases hc : f a > f x
      · rw [if_pos hc]; exact hc.le
      · rw [if_neg hc]
    have hbase' : f a ≤ f (if f a > f x then a else x) := by
      by_cases hc : f a > f x
      · rw [if_pos hc]
      · rw [if_neg hc]; exact not_lt.mp hc
    rcases List.mem_cons.mp hy with rfl | hy'
    · exact le_trans hbase (ih _ _ (List.mem_cons_self _ _))
    · rcases List.mem_cons.mp hy' with rfl | hy''
      · exact le_trans hbase' (ih _ _ (List.mem_cons_self _ _))
      · exact ih _ _ (List.mem_cons_of_mem _ hy'')

theorem bestOfGroup_mem (f : α → ℚ) (g : List α) (b : α)
    (h : bestOfGroup f g = some b) : b ∈ g := by
  cases g with
  | nil => simp [bestOfGroup] at h
  | cons x xs =>
    simp only [bestOfGroup, Option.some.injEq] at h
    rw [← h]
    exact pyMaxBy_mem f x xs

theorem bestOfGroup_ge (f : α → ℚ) (g : List α) (b : α)
    (h : bestOfGroup f g = some b) : ∀ y ∈ g, f y ≤ f b := by
  cases g with
  | nil => simp [bestOfGroup] at h
  | cons x xs =>
    simp only [bestOfGroup, Option.some.injEq] at h
    rw [← h]
    exact pyMaxBy_ge f x xs

theorem dedupByKey_subset [DecidableEq κ] (key : α → κ) (f : α → ℚ)
    (l : List α) : ∀ p ∈ dedupByKey key f l, p ∈ l := by
  intro p hp
  rcases List.mem_filterMap.mp hp with ⟨kg, hkg, hbest⟩
  have hmem := bestOfGroup_mem f kg.2 p hbest
  exact (groupByKey_complete key l p).mp ⟨kg, hkg, hmem⟩

theorem dedupByKey_keyOf [DecidableEq κ] (key : α → κ) (f : α → ℚ)
    (l : List α) : ∀ p ∈ dedupByKey key f l,
      ∃ kg ∈ groupByKey key l, bestOfGroup f kg.2 = some p ∧ key p = kg.1 := by
  intro p hp
  rcases List.mem_filterMap.mp hp with ⟨kg, hkg, hbest⟩
  exact ⟨kg, hkg, hbest, groupByKey_keyed key l kg hkg p (bestOfGroup_mem f kg.2 p hbest)⟩

theorem dedupAux_pairwise [DecidableEq κ] (key : α → κ) (f : α → ℚ) :
    ∀ (gs : List (κ × List α)), gs.Pairwise (fun p q => p.1 ≠ q.1) →
      (∀ p ∈ gs, ∀ x ∈ p.2, key x = p.1) →
      (gs.filterMap (fun kg => bestOfGroup f kg.2)).Pairwise
        (fun a b => key a ≠ key b) := by
  intro gs
  induction gs with
  | nil => intro _ _; simp
  | cons kg rest ih =>
    intro h1 h2
    have h1' := List.pairwise_cons.mp h1
    have h2' : ∀ p ∈ rest, ∀ x ∈ p.2, key x = p.1 :=
      fun p hp => h2 p (List.mem_cons_of_mem _ hp)
    rw [List.filterMap_cons]
    cases hb : bestOfGroup f kg.2 with
    | none => exact ih h1'.2 h2'
    | some b =>
      refine List.pairwise_cons.mpr ⟨?_, ih h1'.2 h2'⟩
      intro c hc
      rcases List.mem_filterMap.mp hc with ⟨kg', hkg', hbest'⟩
      have hkb : key b = kg.1 :=
        h2 kg (List.mem_cons_self _ _) b (bestOfGroup_mem f kg.2 b hb)
      have hkc : key c = kg'.1 := h2' kg' hkg' c (bestOfGroup_mem f kg'.2 c hbest')
      rw [hkb, hkc]
      exact h1'.1 kg' hkg'

theorem dedupByKey_pairwise [DecidableEq κ] (key : α → κ) (f : α → ℚ)
    (l : List α) :
    (dedupByKey key f l).Pairwise (fun a b => key a ≠ key b) :=
  dedupAux_pairwise key f (groupByKey key l) (groupByKey_pairwise key l)
    (groupByKey_keyed key l)


theorem dedupByKey_max [DecidableEq κ] (key : α → κ) (f : α → ℚ) (l : List α) :
    ∀ p ∈ dedupByKey key f l, ∀ q ∈ l, key q = key p → f q ≤ f p := by
  intro p hp q hq hkq
  rcases dedupByKey_keyOf key f l p hp with ⟨kg, hkg, hbest, hkey⟩
  rcases (groupByKey_complete key l q).mpr hq with ⟨kg', hkg', hqmem⟩
  have hkq' : key q = kg'.1 := groupByKey_keyed key l kg' hkg' q hqmem
  have hkk : kg'.1 = kg.1 := by rw [← hkq', hkq, hkey]
  have hsame : kg' = kg := by
    by_contra hne
    exact (List.Pairwise.forall (fun p q h => (h ∘ Eq.symm : q.1 ≠ p.1))
      (groupByKey_pairwise key l) hkg' hkg hne) hkk
  exact bestOfGroup_ge f kg.2 p hbest q (hsame ▸ hqmem)

/-! ## Claim theorems -/

/-- C10: when libpostal is available (`postal_available = true`),
`AddressExtractor.extract_addresses` returns the empty list for every input
text, every context and every behaviour of the library's parser: each
per-line candidate construction in `_extract_with_postal` evaluates the
undefined name `context`, the resulting `NameError` is swallowed by the
per-line handler, so the library path never yields any candidate. -/
theorem C10_postal_path_always_empty
    (postal_parse : String → List (String × String)) (text : String)
    (context : Option String) :
    extract_addresses true postal_parse text context = [] := by
  have h1 : extract_with_postal postal_parse text = [] := by
    unfold extract_with_postal
    rw [List.filterMap_eq_nil_iff]
    intro line _
    simp only [postal_line_result]
    split_ifs <;> simp
  unfold extract_addresses
  rw [if_pos rfl, h1]
  cases context with
  | none => rfl
  | some c =>
    by_cases hc : c ≠ ""
    · simp [hc, adjust_confidence_with_context, sortByConfDesc]
    · simp [hc, sortByConfDesc]

/-- C1: `DeterministicProcessor.process_text` is total (the embedding returns
a `DeterministicResults` for every input, context and configuration — no
exception escapes), and when an exception `e` occurs outside the four
per-extractor calls (`fault = some e`, the outermost handler), the result has
all four candidate sequences empty, confidence `0.0`, and `metadata`
consisting of the `error` key describing the failure. -/
theorem C1_process_text_error_result (libs : Libs) (e : String)
    (addrFault dateFault priceFault pattFault : Bool) (text : String)
    (context : Option String) (cfg : Option ExtractionConfig) :
    process_text libs (some e) addrFault dateFault priceFault pattFault
        text context cfg
      = { addresses := [], dates := [], prices := [], patterns := [],
          metadata := [("error", MetaVal.s e)], confidence := 0 }
    ∧ alGet (process_text libs (some e) addrFault dateFault priceFault pattFault
        text context cfg).metadata "error" = some (MetaVal.s e) := by
  constructor
  · rfl
  · simp [process_text, alGet]

/-- C4: for every input text and context (and any behaviour of the optional
third-party parsing libraries), the sequence returned by each of the four
extractors is sorted in non-increasing order of confidence: every earlier
candidate's confidence is at least every later one's (which implies it for
adjacent pairs). -/
theorem C4_sort_invariant :
    (∀ (postal_available : Bool) (postal_parse : String → List (String × String))
       (text : String) (context : Option String),
       (extract_addresses postal_available postal_parse text context).Pairwise
         (fun a b => b.confidence ≤ a.confidence))
    ∧ (∀ (dateparser_available : Bool) (dparse : String → Option PyDateTime)
         (now : PyDateTime) (text : String) (context : Option String),
         (extract_dates dateparser_available dparse now text context).Pairwise
           (fun a b => b.confidence ≤ a.confidence))
    ∧ (∀ (price_parser_available : Bool) (fromstring : String → Option PParsed)
         (currency_symbols : List (String × String)) (currency_codes : List String)
         (text : String) (context : Option String),
         (extract_prices price_parser_available fromstring currency_symbols
           currency_codes text context).Pairwise
           (fun a b => b.confidence ≤ a.confidence))
    ∧ (∀ (text : String) (pattern_types : Option (List String))
         (context : Option String),
         (extract_patterns text pattern_types context).Pairwise
           (fun a b => b.confidence ≤ a.confidence)) := by
  refine ⟨?_, ?_, ?_, ?_⟩
  · intro pa pp text ctx
    unfold extract_addresses
    exact sortByConfDesc_pairwise _ _
  · intro da dp now text ctx
    unfold extract_dates
    exact sortByConfDesc_pairwise _ _
  · intro ppa fs syms codes text ctx
    unfold extract_prices
    exact sortByConfDesc_pairwise _ _
  · intro text pts ctx
    unfold extract_patterns
    exact sortByConfDesc_pairwise _ _

/-- C7 counterexample: for the text consisting of the line
`"123 Main Street, Anytown, CA 90210"` twice verbatim, regex-path address
extraction returns two candidates, not the single deduplicated candidate the
claim asserts — there is no cross-line deduplication. -/
theorem C7_counterexample :
    (extract_addresses false (fun _ => [])
      "123 Main Street, Anytown, CA 90210\n123 Main Street, Anytown, CA 90210"
      none).length = 2
    ∧ ¬ (extract_addresses false (fun _ => [])
      "123 Main Street, Anytown, CA 90210\n123 Main Street, Anytown, CA 90210"
      none).length = 1 := by
  constructor
  · decide
  · decide

/-- C7 amended: with the line `"123 Main Street, Anytown, CA 90210"` appearing
twice verbatim, regex-path address extraction yields exactly one candidate per
physical line — two candidates in total, with identical components and equal
confidences `0.85` each; duplicate lines are not collapsed. -/
theorem C7_amended_one_candidate_per_line :
    extract_addresses false (fun _ => [])
      "123 Main Street, Anytown, CA 90210\n123 Main Street, Anytown, CA 90210"
      none
    = [{ raw_text := "123 Main Street, Anytown, CA 90210",
         confidence := mkRat 85 100,
         components := [("street_number", "123"), ("street_name", "Main Street"),
           ("city", "Anytown"), ("state", "CA"), ("postal_code", "90210"),
           ("country", "CA")],
         normalized := "123, Main Street, Anytown, CA, 90210, CA",
         context := none },
       { raw_text := "123 Main Street, Anytown, CA 90210",
         confidence := mkRat 85 100,
         components := [("street_number", "123"), ("street_name", "Main Street"),
           ("city", "Anytown"), ("state", "CA"), ("postal_code", "90210"),
           ("country", "CA")],
         normalized := "123, Main Street, Anytown, CA, 90210, CA",
         context := none }] := by
  decide

/-- C8 counterexample: for the two-price list `[$10 USD, €5 EUR]`,
`calculate_totals` counts only one of the two prices in both modes — the
EUR price contributes to no total and no per-currency EUR group exists,
refuting the claim that every price contributes to the total of its own
currency group. -/
theorem C8_counterexample :
    calculate_totals
        [{ raw_text := "$10", amount := ⟨10, 0⟩, currency := "USD",
           confidence := mkRat 9 10, context := none, price_type := none },
         { raw_text := "€5", amount := ⟨5, 0⟩, currency := "EUR",
           confidence := mkRat 8 10, context := none, price_type := none }] false
      = .simple ⟨10, 0⟩ "USD" 1
          [{ raw_text := "$10", amount := ⟨10, 0⟩, currency := "USD",
             confidence := mkRat 9 10, context := none, price_type := none },
           { raw_text := "€5", amount := ⟨5, 0⟩, currency := "EUR",
             confidence := mkRat 8 10, context := none, price_type := none }]
    ∧ countedPrices (calculate_totals
        [{ raw_text := "$10", amount := ⟨10, 0⟩, currency := "USD",
           confidence := mkRat 9 10, context := none, price_type := none },
         { raw_text := "€5", amount := ⟨5, 0⟩, currency := "EUR",
           confidence := mkRat 8 10, context := none, price_type := none }] true) = 1
    ∧ ¬ countedPrices (calculate_totals
        [{ raw_text := "$10", amount := ⟨10, 0⟩, currency := "USD",
           confidence := mkRat 9 10, context := none, price_type := none },
         { raw_text := "€5", amount := ⟨5, 0⟩, currency := "EUR",
           confidence := mkRat 8 10, context := none, price_type := none }] false)
      = 2 := by
  refine ⟨?_, ?_, ?_⟩ <;> decide

/-- The deduplication key of C3, as the claim states it: for patterns,
`(pattern_type, normalised value)` with phones normalised to digits only,
emails to lower case, and the identifier types to upper case (all stripped as
the source strips). -/
theorem C3_dedup_invariant :
    (∀ (text : String) (pattern_types : Option (List String)) (context : Option String),
       let patKey : ExtractedPattern → String × String := fun p =>
         (p.pattern_type,
           if p.pattern_type = "phone" then digitsOnly p.value
           else if p.pattern_type = "email" then pyStrip (pyLower p.value)
           else if p.pattern_type = "order_id" ∨ p.pattern_type = "sku"
               ∨ p.pattern_type = "tracking" ∨ p.pattern_type = "invoice"
               ∨ p.pattern_type = "customer_id" then pyStrip (pyUpper p.value)
           else pyStrip p.value)
       (extract_patterns text pattern_types context).Pairwise
         (fun a b => patKey a ≠ patKey b)
       ∧ ∀ p ∈ extract_patterns text pattern_types context,
           ∀ q ∈ patterns_pre_dedup text pattern_types context,
             patKey q = patKey p → q.confidence ≤ p.confidence)
    ∧ (∀ (price_parser_available : Bool) (fromstring : String → Option PParsed)
         (currency_symbols : List (String × String)) (currency_codes : List String)
         (text : String) (context : Option String),
       let priceKey : ExtractedPrice → ℚ × String := fun p => (p.amount.toRat, p.currency)
       (extract_prices price_parser_available fromstring currency_symbols
         currency_codes text context).Pairwise (fun a b => priceKey a ≠ priceKey b)
       ∧ ∀ p ∈ extract_prices price_parser_available fromstring currency_symbols
             currency_codes text context,
           ∀ q ∈ prices_pre_dedup price_parser_available fromstring currency_symbols
               currency_codes text context,
             priceKey q = priceKey p → q.confidence ≤ p.confidence)
    ∧ (∀ (dateparser_available : Bool) (dparse : String → Option PyDateTime)
         (now : PyDateTime) (text : String) (context : Option String),
       let dayKey : ExtractedDate → Int × Nat × Nat := fun d =>
         (d.parsed_date.year, d.parsed_date.month, d.parsed_date.day)
       (extract_dates dateparser_available dparse now text context).Pairwise
         (fun a b => dayKey a ≠ dayKey b)
       ∧ ∀ p ∈ extract_dates dateparser_available dparse now text context,
           ∀ q ∈ dates_pre_dedup dateparser_available dparse now text context,
             dayKey q = dayKey p → q.confidence ≤ p.confidence) := by
  refine ⟨?_, ?_, ?_⟩
  · intro text pts ctx
    have hkfun : (fun p : ExtractedPattern =>
        (p.pattern_type, normalize_value p.value p.pattern_type))
        = fun p : ExtractedPattern =>
         (p.pattern_type,
           if p.pattern_type = "phone" then digitsOnly p.value
           else if p.pattern_type = "email" then pyStrip (pyLower p.value)
           else if p.pattern_type = "order_id" ∨ p.pattern_type = "sku"
               ∨ p.pattern_type = "tracking" ∨ p.pattern_type = "invoice"
               ∨ p.pattern_type = "customer_id" then pyStrip (pyUpper p.value)
           else pyStrip p.value) := by
      funext p
      rfl
    constructor
    · have hpw := dedupByKey_pairwise
        (fun p : ExtractedPattern => (p.pattern_type, normalize_value p.value p.pattern_type))
        (·.confidence) (patterns_pre_dedup text pts ctx)
      rw [hkfun] at hpw
      unfold extract_patterns
      refine (List.Perm.pairwise_iff ?_
        (sortByConfDesc_perm (fun p : ExtractedPattern => p.confidence) _)).mpr ?_
      · intro a b hab
        exact hab ∘ Eq.symm
      · exact hpw
    · intro p hp q hq hkeq
      unfold extract_patterns at hp
      rw [mem_sortByConfDesc] at hp
      have hmax := dedupByKey_max
        (fun p : ExtractedPattern => (p.pattern_type, normalize_value p.value p.pattern_type))
        (·.confidence) (patterns_pre_dedup text pts ctx) p hp q hq
      rw [hkfun] at hmax
      exact hmax hkeq
  · intro ppa fs syms codes text ctx
    constructor
    · unfold extract_prices
      refine (List.Perm.pairwise_iff ?_
        (sortByConfDesc_perm (fun p : ExtractedPrice => p.confidence) _)).mpr ?_
      · intro a b hab
        exact hab ∘ Eq.symm
      · exact dedupByKey_pairwise (fun p : ExtractedPrice => (p.amount.toRat, p.currency))
          (fun p => p.confidence) _
    · intro p hp q hq hkeq
      unfold extract_prices at hp
      rw [mem_sortByConfDesc] at hp
      exact dedupByKey_max (fun p : ExtractedPrice => (p.amount.toRat, p.currency))
        (·.confidence) _ p hp q hq hkeq
  · intro da dp now text ctx
    constructor
    · unfold extract_dates
      refine (List.Perm.pairwise_iff ?_
        (sortByConfDesc_perm (fun d : ExtractedDate => d.confidence) _)).mpr ?_
      · intro a b hab
        exact hab ∘ Eq.symm
      · exact dedupByKey_pairwise (fun d : ExtractedDate => d.parsed_date.dateKey)
          (fun d => d.confidence) _
    · intro p hp q hq hkeq
      unfold extract_dates at hp
      rw [mem_sortByConfDesc] at hp
      exact dedupByKey_max (fun d : ExtractedDate => d.parsed_date.dateKey)
        (·.confidence) _ p hp q hq hkeq

/-- C3 witness: concrete instantiations of all three deduplicated-maximum
parts, on fallback-mode extractions of small inputs. -/
theorem C3_dedup_invariant_witness :
    ({ raw_text := "ORD-123456789", pattern_type := "order_id",
       confidence := mkRat 7 10, value := "ORD-123456789", context := none,
       metadata := [] } : ExtractedPattern).confidence ≤ mkRat 7 10
    ∧ ({ raw_text := "99.99", amount := ⟨9999, 2⟩, currency := "USD",
         confidence := mkRat 3 4, context := none,
         price_type := some "total" } : ExtractedPrice).confidence ≤ mkRat 3 4
    ∧ ({ raw_text := "1-15-2024", parsed_date := ⟨2024, 1, 15, 0, 0, 0⟩,
         confidence := mkRat 9 20, format_detected := "us_date_dash",
         context := none, date_type := none } : ExtractedDate).confidence
        ≤ mkRat 13 20 := by
  refine ⟨?_, ?_, ?_⟩
  · exact C3_dedup_invariant.1 "ORD-123456789" none none |>.2
      { raw_text := "ORD-123456789", pattern_type := "order_id",
        confidence := mkRat 7 10, value := "ORD-123456789", context := none,
        metadata := [] } (by decide)
      { raw_text := "ORD-123456789", pattern_type := "order_id",
        confidence := mkRat 7 10, value := "ORD-123456789", context := none,
        metadata := [] } (by decide) (by decide)
  · exact C3_dedup_invariant.2.1 false (fun _ => none) fallback_currency_symbols
      fallback_currency_codes "Total: $99.99" none |>.2
      { raw_text := "$99.99", amount := ⟨9999, 2⟩, currency := "USD",
        confidence := mkRat 3 4, context := none, price_type := some "total" }
      (by decide)
      { raw_text := "99.99", amount := ⟨9999, 2⟩, currency := "USD",
        confidence := mkRat 3 4, context := none, price_type := some "total" }
      (by decide) (by decide)
  · exact C3_dedup_invariant.2.2 false (fun _ => none) ⟨2026, 10, 12, 0, 0, 0⟩
      "Date: 2024-01-15\nAlso 1-15-2024" none |>.2
      { raw_text := "2024-01-15", parsed_date := ⟨2024, 1, 15, 0, 0, 0⟩,
        confidence := mkRat 13 20, format_detected := "iso_date",
        context := none, date_type := none } (by decide)
      { raw_text := "1-15-2024", parsed_date := ⟨2024, 1, 15, 0, 0, 0⟩,
        confidence := mkRat 9 20, format_detected := "us_date_dash",
        context := none, date_type := none } (by decide) (by decide)

/-! ## Confidence-bound lemmas for C2 -/

theorem clamp01_bounds (c : ℚ) : 0 ≤ qMin (qMax c 0) 1 ∧ qMin (qMax c 0) 1 ≤ 1 := by
  rw [qMin_eq, qMax_eq]
  exact ⟨le_min (le_max_right c 0) zero_le_one, min_le_right _ 1⟩

theorem assocGetD_cases [DecidableEq κ] (l : List (κ × β)) (k : κ) (d : β) :
    (assocGet l k).getD d = d ∨ (assocGet l k).getD d ∈ l.map Prod.snd := by
  unfold assocGet
  induction l with
  | nil => simp
  | cons p rest ih =>
    by_cases hp : p.1 = k
    · right
      rw [List.find?_cons_of_pos _ (by simpa using hp)]
      simp
    · rw [List.find?_cons_of_neg _ (by simpa using hp)]
      rcases ih with h | h
      · exact Or.inl h
      · right
        rw [List.map_cons]
        exact List.mem_cons_of_mem _ h

theorem calculate_pattern_confidence_bounds (value pattern_type : String)
    (cfg : PatternConfig) (position : Nat) (text : String)
    (context : Option String) :
    0 ≤ calculate_pattern_confidence value pattern_type cfg position text context
    ∧ calculate_pattern_confidence value pattern_type cfg position text context ≤ 1 := by
  unfold calculate_pattern_confidence
  exact clamp01_bounds _

set_option maxHeartbeats 1600000 in
theorem price_calculate_regex_confidence_bounds (price_text : String)
    (amount : PyDecimal) (currency : String) (pattern_name : String)
    (context : Option String) :
    0 ≤ price_calculate_regex_confidence price_text amount currency pattern_name context
    ∧ price_calculate_regex_confidence price_text amount currency pattern_name context ≤ 1 := by
  have hbb : mkRat 5 100 ≤
      (assocGet
        [("dollar_amount", mkRat 3 10), ("euro_amount", mkRat 3 10),
         ("pound_amount", mkRat 3 10), ("decimal_with_currency", mkRat 25 100),
         ("amount_dollar", mkRat 2 10), ("generic_decimal", mkRat 1 10)]
        pattern_name).getD (mkRat 5 100)
      ∧ (assocGet
        [("dollar_amount", mkRat 3 10), ("euro_amount", mkRat 3 10),
         ("pound_amount", mkRat 3 10), ("decimal_with_currency", mkRat 25 100),
         ("amount_dollar", mkRat 2 10), ("generic_decimal", mkRat 1 10)]
        pattern_name).getD (mkRat 5 100) ≤ mkRat 3 10 := by
    rcases assocGetD_cases
      [("dollar_amount", mkRat 3 10), ("euro_amount", mkRat 3 10),
       ("pound_amount", mkRat 3 10), ("decimal_with_currency", mkRat 25 100),
       ("amount_dollar", mkRat 2 10), ("generic_decimal", mkRat 1 10)]
      pattern_name (mkRat 5 100) with h | h
    · rw [h]
      norm_num [mkRat_div]
    · simp only [List.map_cons, List.map_nil, List.mem_cons, List.not_mem_nil,
        or_false] at h
      rcases h with h | h | h | h | h | h
      all_goals rw [h]
      all_goals norm_num [mkRat_div]
  unfold price_calculate_regex_confidence
  simp only [qAdd_eq, qSub_eq, qMin_eq, mkRat_div] at hbb ⊢
  constructor
  · refine le_min ?_ (by norm_num)
    split_ifs <;> linarith [hbb.1, hbb.2]
  · exact le_trans (min_le_right _ _) (by norm_num)

theorem calculate_dateparser_confidence_bounds (now : PyDateTime)
    (date_text : String) (parsed_date : PyDateTime) (pattern_name : String)
    (context : Option String) :
    0 ≤ calculate_dateparser_confidence now date_text parsed_date pattern_name context
    ∧ calculate_dateparser_confidence now date_text parsed_date pattern_name context ≤ 1 := by
  have hbb : mkRat 1 10 ≤
      (assocGet
        [("iso_date", mkRat 3 10), ("timestamp", mkRat 3 10), ("us_date", mkRat 2 10),
         ("written_date", mkRat 25 100), ("short_written", mkRat 2 10),
         ("european", mkRat 15 100), ("full_line", mkRat 1 10)]
        pattern_name).getD (mkRat 1 10)
      ∧ (assocGet
        [("iso_date", mkRat 3 10), ("timestamp", mkRat 3 10), ("us_date", mkRat 2 10),
         ("written_date", mkRat 25 100), ("short_written", mkRat 2 10),
         ("european", mkRat 15 100), ("full_line", mkRat 1 10)]
        pattern_name).getD (mkRat 1 10) ≤ mkRat 3 10 := by
    rcases assocGetD_cases
      [("iso_date", mkRat 3 10), ("timestamp", mkRat 3 10), ("us_date", mkRat 2 10),
       ("written_date", mkRat 25 100), ("short_written", mkRat 2 10),
       ("european", mkRat 15 100), ("full_line", mkRat 1 10)]
      pattern_name (mkRat 1 10) with h | h
    · rw [h]
      norm_num [mkRat_div]
    · simp only [List.map_cons, List.map_nil, List.mem_cons, List.not_mem_nil,
        or_false] at h
      rcases h with h | h | h | h | h | h | h
      all_goals rw [h]
      all_goals norm_num [mkRat_div]
  unfold calculate_dateparser_confidence
  rcases context with _ | c
  all_goals simp only [qAdd_eq, qSub_eq, qMin_eq, mkRat_div] at hbb ⊢
  all_goals constructor
  · refine le_min ?_ (by norm_num)
    split_ifs <;> linarith [hbb.1, hbb.2]
  · exact min_le_right _ 1
  · refine le_min ?_ (by norm_num)
    split_ifs <;> linarith [hbb.1, hbb.2]
  · exact min_le_right _ 1

theorem date_calculate_regex_confidence_bounds (now : PyDateTime)
    (date_text : String) (parsed_date : PyDateTime) (pattern_name : String)
    (context : Option String) :
    0 ≤ date_calculate_regex_confidence now date_text parsed_date pattern_name context
    ∧ date_calculate_regex_confidence now date_text parsed_date pattern_name context ≤ 1 := by
  have hbb : mkRat 5 100 ≤
      (assocGet
        [("iso_date", mkRat 25 100), ("timestamp", mkRat 25 100), ("us_date", mkRat 15 100),
         ("written_date", mkRat 2 10), ("short_written", mkRat 15 100),
         ("european", mkRat 1 10)]
        pattern_name).getD (mkRat 5 100)
      ∧ (assocGet
        [("iso_date", mkRat 25 100), ("timestamp", mkRat 25 100), ("us_date", mkRat 15 100),
         ("written_date", mkRat 2 10), ("short_written", mkRat 15 100),
         ("european", mkRat 1 10)]
        pattern_name).getD (mkRat 5 100) ≤ mkRat 25 100 := by
    rcases assocGetD_cases
      [("iso_date", mkRat 25 100), ("timestamp", mkRat 25 100), ("us_date", mkRat 15 100),
       ("written_date", mkRat 2 10), ("short_written", mkRat 15 100),
       ("european", mkRat 1 10)]
      pattern_name (mkRat 5 100) with h | h
    · rw [h]
      norm_num [mkRat_div]
    · simp only [List.map_cons, List.map_nil, List.mem_cons, List.not_mem_nil,
        or_false] at h
      rcases h with h | h | h | h | h | h
      all_goals rw [h]
      all_goals norm_num [mkRat_div]
  unfold date_calculate_regex_confidence
  rcases context with _ | c
  all_goals simp only [qAdd_eq, qSub_eq, qMin_eq, mkRat_div] at hbb ⊢
  all_goals constructor
  · refine le_min ?_ (by norm_num)
    split_ifs <;> linarith [hbb.1, hbb.2]
  · exact le_trans (min_le_right _ _) (by norm_num)
  · refine le_min ?_ (by norm_num)
    split_ifs <;> linarith [hbb.1, hbb.2]
  · exact le_trans (min_le_right _ _) (by norm_num)

theorem calculate_line_confidence_bounds (now : PyDateTime) (line : String)
    (parsed_date : PyDateTime) (context : Option String) :
    0 ≤ calculate_line_confidence now line parsed_date context
    ∧ calculate_line_confidence now line parsed_date context ≤ 1 := by
  unfold calculate_line_confidence
  simp only [qAdd_eq, qSub_eq, qMax_eq, mkRat_div]
  constructor
  · exact le_max_right _ 0
  · refine max_le ?_ (by norm_num)
    split_ifs <;> norm_num

theorem calculate_parser_confidence_bounds (price_text : String)
    (parsed : PParsed) (context : Option String) :
    0 ≤ calculate_parser_confidence price_text parsed context
    ∧ calculate_parser_confidence price_text parsed context ≤ 1 := by
  unfold calculate_parser_confidence
  rcases parsed.currency with _ | cur
  all_goals rcases context with _ | c
  all_goals simp only [qAdd_eq, qSub_eq, qMin_eq, mkRat_div]
  all_goals constructor
  all_goals first
    | (refine le_min ?_ (by norm_num)
       split_ifs <;> norm_num)
    | exact min_le_right _ 1

/-! ## Membership-to-bounds lemmas for C2 -/

theorem mem_extract_single_pattern_type_bounds {text pt : String}
    {cfg : PatternConfig} {context : Option String} {p : ExtractedPattern}
    (hp : p ∈ extract_single_pattern_type text pt cfg context) :
    0 ≤ p.confidence ∧ p.confidence ≤ 1 := by
  unfold extract_single_pattern_type at hp
  rcases List.mem_flatMap.mp hp with ⟨re, _, hre⟩
  rcases List.mem_filterMap.mp hre with ⟨m, _, heq⟩
  dsimp only at heq
  repeat' split at heq
  all_goals try exact Option.noConfusion heq
  all_goals cases heq
  all_goals dsimp only
  all_goals exact calculate_pattern_confidence_bounds _ _ _ _ _ _

theorem mem_patterns_pre_dedup_bounds {text : String}
    {pts : Option (List String)} {context : Option String}
    {p : ExtractedPattern} (hp : p ∈ patterns_pre_dedup text pts context) :
    0 ≤ p.confidence ∧ p.confidence ≤ 1 := by
  unfold patterns_pre_dedup at hp
  rcases List.mem_flatMap.mp hp with ⟨pt, _, hpt⟩
  rcases h : assocGet pattern_registry pt with _ | cfg
  · rw [h] at hpt
    simp at hpt
  · rw [h] at hpt
    exact mem_extract_single_pattern_type_bounds hpt

theorem mem_price_extract_with_regex_bounds
    {currency_symbols : List (String × String)} {currency_codes : List String}
    {text : String} {context : Option String} {p : ExtractedPrice}
    (hp : p ∈ price_extract_with_regex currency_symbols currency_codes text context) :
    0 ≤ p.confidence ∧ p.confidence ≤ 1 := by
  unfold price_extract_with_regex at hp
  rcases List.mem_flatMap.mp hp with ⟨np, _, hnp⟩
  rcases List.mem_filterMap.mp hnp with ⟨m, _, heq⟩
  dsimp only at heq
  repeat' split at heq
  all_goals try exact Option.noConfusion heq
  all_goals cases heq
  all_goals dsimp only
  all_goals exact price_calculate_regex_confidence_bounds _ _ _ _ _

theorem mem_extract_with_priceparser_bounds
    {fromstring : String → Option PParsed}
    {currency_symbols : List (String × String)} {text : String}
    {context : Option String} {p : ExtractedPrice}
    (hp : p ∈ extract_with_priceparser fromstring currency_symbols text context) :
    0 ≤ p.confidence ∧ p.confidence ≤ 1 := by
  unfold extract_with_priceparser at hp
  rcases List.mem_flatMap.mp hp with ⟨chunk, _, hch⟩
  rcases List.mem_filterMap.mp hch with ⟨pp, _, heq⟩
  dsimp only at heq
  repeat' split at heq
  all_goals try exact Option.noConfusion heq
  all_goals cases heq
  all_goals dsimp only
  all_goals exact calculate_parser_confidence_bounds _ _ _

theorem mem_prices_pre_dedup_bounds {avail : Bool}
    {fromstring : String → Option PParsed}
    {currency_symbols : List (String × String)} {currency_codes : List String}
    {text : String} {context : Option String} {p : ExtractedPrice}
    (hp : p ∈ prices_pre_dedup avail fromstring currency_symbols currency_codes
      text context) :
    0 ≤ p.confidence ∧ p.confidence ≤ 1 := by
  unfold prices_pre_dedup at hp
  split at hp
  · exact mem_extract_with_priceparser_bounds hp
  · exact mem_price_extract_with_regex_bounds hp

theorem mem_date_extract_with_regex_bounds {now : PyDateTime} {text : String}
    {context : Option String} {d : ExtractedDate}
    (hd : d ∈ date_extract_with_regex now text context) :
    0 ≤ d.confidence ∧ d.confidence ≤ 1 := by
  unfold date_extract_with_regex at hd
  rcases List.mem_flatMap.mp hd with ⟨np, _, hnp⟩
  rcases List.mem_filterMap.mp hnp with ⟨m, _, heq⟩
  dsimp only at heq
  repeat' split at heq
  all_goals try exact Option.noConfusion heq
  all_goals cases heq
  all_goals dsimp only
  all_goals exact date_calculate_regex_confidence_bounds _ _ _ _ _

theorem mem_dateparser_pattern_phase_bounds
    {dparse : String → Option PyDateTime} {now : PyDateTime} {text : String}
    {context : Option String} {d : ExtractedDate}
    (hd : d ∈ dateparser_pattern_phase dparse now text context) :
    0 ≤ d.confidence ∧ d.confidence ≤ 1 := by
  unfold dateparser_pattern_phase at hd
  rcases List.mem_flatMap.mp hd with ⟨np, _, hnp⟩
  rcases List.mem_filterMap.mp hnp with ⟨m, _, heq⟩
  dsimp only at heq
  repeat' split at heq
  all_goals try exact Option.noConfusion heq
  all_goals cases heq
  all_goals dsimp only
  all_goals exact calculate_dateparser_confidence_bounds _ _ _ _ _

theorem mem_dateparser_line_phase_cases
    {dparse : String → Option PyDateTime} {now : PyDateTime} {text : String}
    {context : Option String} {dates0 : List ExtractedDate} {d : ExtractedDate}
    (hd : d ∈ dateparser_line_phase dparse now text context dates0) :
    d ∈ dates0 ∨ (0 ≤ d.confidence ∧ d.confidence ≤ 1) := by
  unfold dateparser_line_phase at hd
  revert hd
  induction pySplitLines text generalizing dates0 with
  | nil => exact fun hd => Or.inl hd
  | cons line rest ih =>
    intro hd
    rw [List.foldl_cons] at hd
    rcases ih hd with hmem | hb
    · dsimp only at hmem
      repeat' split at hmem
      all_goals try exact Or.inl hmem
      all_goals rcases List.mem_append.mp hmem with h0 | h1
      all_goals try exact Or.inl h0
      all_goals right
      all_goals rw [List.mem_singleton.mp h1]
      all_goals dsimp only
      all_goals exact calculate_line_confidence_bounds _ _ _ _
    · exact Or.inr hb

theorem mem_dates_pre_dedup_bounds {avail : Bool}
    {dparse : String → Option PyDateTime} {now : PyDateTime} {text : String}
    {context : Option String} {d : ExtractedDate}
    (hd : d ∈ dates_pre_dedup avail dparse now text context) :
    0 ≤ d.confidence ∧ d.confidence ≤ 1 := by
  unfold dates_pre_dedup at hd
  split at hd
  · unfold extract_with_dateparser at hd
    rcases mem_dateparser_line_phase_cases hd with h0 | hb
    · exact mem_dateparser_pattern_phase_bounds h0
    · exact hb
  · exact mem_date_extract_with_regex_bounds hd

theorem extract_with_postal_nil (postal_parse : String → List (String × String))
    (text : String) : extract_with_postal postal_parse text = [] := by
  unfold extract_with_postal
  rw [List.filterMap_eq_nil_iff]
  intro line _
  simp only [postal_line_result]
  split_ifs <;> simp

theorem mem_extract_regex_line_bounds {context : Option String} {line : String}
    {a : ExtractedAddress} (ha : extract_regex_line context line = some a) :
    0 ≤ a.confidence ∧ a.confidence ≤ 1 := by
  unfold extract_regex_line at ha
  dsimp only at ha
  repeat' split at ha
  all_goals try exact Option.noConfusion ha
  all_goals cases ha
  all_goals rename_i hg
  all_goals dsimp only
  all_goals rw [qMin_eq]
  all_goals refine ⟨le_min (le_of_lt (lt_of_le_of_lt ?_ hg.2.2))
    (by norm_num [mkRat_div]),
    le_trans (min_le_right _ _) (by norm_num [mkRat_div])⟩
  all_goals norm_num [mkRat_div]

theorem mem_extract_with_regex_bounds {text : String} {context : Option String}
    {a : ExtractedAddress} (ha : a ∈ extract_with_regex text context) :
    0 ≤ a.confidence ∧ a.confidence ≤ 1 := by
  unfold extract_with_regex at ha
  rcases List.mem_filterMap.mp ha with ⟨line, _, heq⟩
  exact mem_extract_regex_line_bounds heq

theorem mem_adjust_confidence_bounds {addresses : List ExtractedAddress}
    {c : String} {a : ExtractedAddress}
    (ha : a ∈ adjust_confidence_with_context addresses c)
    (hall : ∀ b ∈ addresses, 0 ≤ b.confidence ∧ b.confidence ≤ 1) :
    0 ≤ a.confidence ∧ a.confidence ≤ 1 := by
  unfold adjust_confidence_with_context at ha
  rcases List.mem_map.mp ha with ⟨b, hb, heq⟩
  have hbb := hall b hb
  cases heq
  dsimp only
  rw [qMin_eq, qAdd_eq]
  constructor
  · refine le_min ?_ (by norm_num)
    have : (0 : ℚ) ≤ (if (["shipping", "billing", "delivery", "send to",
        "ship to", "address"] : List String).any
          (fun ind => strIn ind (pyLower c)) = true then mkRat 1 10 else 0) := by
      split_ifs <;> norm_num [mkRat_div]
    linarith [hbb.1]
  · exact min_le_right _ 1


/-- C2: for every input text and context (and any library environment), every
candidate returned by any of the four extractors — address, date, price,
pattern — has a confidence score `c` with `0 ≤ c ≤ 1`. -/
theorem C2_confidence_bounds :
    (∀ (postal_available : Bool) (postal_parse : String → List (String × String))
       (text : String) (context : Option String) (a : ExtractedAddress),
       a ∈ extract_addresses postal_available postal_parse text context →
       0 ≤ a.confidence ∧ a.confidence ≤ 1)
  ∧ (∀ (avail : Bool) (dparse : String → Option PyDateTime) (now : PyDateTime)
       (text : String) (context : Option String) (d : ExtractedDate),
       d ∈ extract_dates avail dparse now text context →
       0 ≤ d.confidence ∧ d.confidence ≤ 1)
  ∧ (∀ (avail : Bool) (fromstring : String → Option PParsed)
       (currency_symbols : List (String × String)) (currency_codes : List String)
       (text : String) (context : Option String) (p : ExtractedPrice),
       p ∈ extract_prices avail fromstring currency_symbols currency_codes
         text context →
       0 ≤ p.confidence ∧ p.confidence ≤ 1)
  ∧ (∀ (text : String) (pts : Option (List String)) (context : Option String)
       (p : ExtractedPattern), p ∈ extract_patterns text pts context →
       0 ≤ p.confidence ∧ p.confidence ≤ 1) := by
  refine ⟨?_, ?_, ?_, ?_⟩
  · intro pa pp text context a ha
    unfold extract_addresses at ha
    dsimp only at ha
    rw [mem_sortByConfDesc] at ha
    have hbase : ∀ b ∈ (if pa then extract_with_postal pp text
        else extract_with_regex text context),
        0 ≤ b.confidence ∧ b.confidence ≤ 1 := by
      intro b hb
      split at hb
      · rw [extract_with_postal_nil] at hb
        simp at hb
      · exact mem_extract_with_regex_bounds hb
    rcases context with _ | c
    · exact hbase a ha
    · dsimp only at ha
      by_cases hc : c ≠ ""
      · rw [if_pos hc] at ha
        exact mem_adjust_confidence_bounds ha hbase
      · rw [if_neg hc] at ha
        exact hbase a ha
  · intro avail dparse now text context d hd
    unfold extract_dates at hd
    dsimp only at hd
    rw [mem_sortByConfDesc] at hd
    unfold deduplicate_dates at hd
    exact mem_dates_pre_dedup_bounds (dedupByKey_subset _ _ _ d hd)
  · intro avail fromstring csym ccod text context p hp
    unfold extract_prices at hp
    dsimp only at hp
    rw [mem_sortByConfDesc] at hp
    unfold deduplicate_prices at hp
    exact mem_prices_pre_dedup_bounds (dedupByKey_subset _ _ _ p hp)
  · intro text pts context p hp
    unfold extract_patterns at hp
    dsimp only at hp
    rw [mem_sortByConfDesc] at hp
    unfold deduplicate_patterns at hp
    exact mem_patterns_pre_dedup_bounds (dedupByKey_subset _ _ _ p hp)

theorem C2_confidence_bounds_witness :
    ((0 : ℚ) ≤ mkRat 17 20 ∧ (mkRat 17 20 : ℚ) ≤ 1)
  ∧ ((0 : ℚ) ≤ mkRat 13 20 ∧ (mkRat 13 20 : ℚ) ≤ 1)
  ∧ ((0 : ℚ) ≤ mkRat 3 4 ∧ (mkRat 3 4 : ℚ) ≤ 1)
  ∧ ((0 : ℚ) ≤ mkRat 4 5 ∧ (mkRat 4 5 : ℚ) ≤ 1) :=
  ⟨C2_confidence_bounds.1 false (fun _ => [])
     "123 Main Street, Anytown, CA 90210" none
     { raw_text := "123 Main Street, Anytown, CA 90210",
       confidence := mkRat 17 20,
       components := [("street_number", "123"), ("street_name", "Main Street"),
         ("city", "Anytown"), ("state", "CA"), ("postal_code", "90210"),
         ("country", "CA")],
       normalized := "123, Main Street, Anytown, CA, 90210, CA",
       context := none } (by decide),
   C2_confidence_bounds.2.1 false (fun _ => none) ⟨2025, 6, 15, 12, 0, 0⟩
     "2024-01-15" none
     { raw_text := "2024-01-15", parsed_date := ⟨2024, 1, 15, 0, 0, 0⟩,
       confidence := mkRat 13 20, format_detected := "iso_date",
       context := none, date_type := none } (by decide),
   C2_confidence_bounds.2.2.1 false (fun _ => none) fallback_currency_symbols
     fallback_currency_codes "Total: $99.99" none
     { raw_text := "$99.99", amount := ⟨9999, 2⟩, currency := "USD",
       confidence := mkRat 3 4, context := none, price_type := some "total" }
     (by decide),
   C2_confidence_bounds.2.2.2 "5 pcs" none none
     { raw_text := "5 pcs", pattern_type := "quantity",
       confidence := mkRat 4 5, value := "5", context := none,
       metadata := [("numeric_value", some "5")] } (by decide)⟩


/-- C5: on candidate lists whose confidences are non-negative (which the
extractors guarantee), the merged result's overall confidence equals the
spec's formula — `0` with no candidates at all, otherwise the arithmetic mean
of all candidates' confidences plus a diversity bonus of `0.05` per non-empty
type capped at `0.15`, clamped into `[0, 1]` — and it equals `0` exactly when
there are zero candidates across all four types. -/
theorem C5_overall_confidence
    (addresses : List ExtractedAddress) (dates : List ExtractedDate)
    (prices : List ExtractedPrice) (patterns : List ExtractedPattern)
    (hA : ∀ a ∈ addresses, 0 ≤ a.confidence)
    (hD : ∀ d ∈ dates, 0 ≤ d.confidence)
    (hP : ∀ p ∈ prices, 0 ≤ p.confidence)
    (hT : ∀ p ∈ patterns, 0 ≤ p.confidence) :
    calculate_overall_confidence addresses dates prices patterns
      = specOverallConfidence addresses dates prices patterns
    ∧ (calculate_overall_confidence addresses dates prices patterns = 0
       ↔ addresses = [] ∧ dates = [] ∧ prices = [] ∧ patterns = []) := by
  unfold calculate_overall_confidence specOverallConfidence
  dsimp only
  set L : List ℚ := addresses.map (fun a => a.confidence)
    ++ dates.map (fun d => d.confidence) ++ prices.map (fun p => p.confidence)
    ++ patterns.map (fun p => p.confidence) with hLdef
  by_cases hL : L.isEmpty = true
  · rw [if_pos hL, if_pos hL]
    have hnil : addresses = [] ∧ dates = [] ∧ prices = [] ∧ patterns = [] := by
      rw [hLdef, List.isEmpty_iff] at hL
      simp only [List.append_eq_nil, List.map_eq_nil_iff] at hL
      exact ⟨hL.1.1.1, hL.1.1.2, hL.1.2, hL.2⟩
    exact ⟨rfl, ⟨fun _ => hnil, fun _ => rfl⟩⟩
  · rw [if_neg hL, if_neg hL]
    have hmem : ∀ x ∈ L, (0 : ℚ) ≤ x := by
      intro x hx
      rw [hLdef] at hx
      simp only [List.mem_append, List.mem_map] at hx
      rcases hx with ((⟨a, ha, hax⟩ | ⟨d, hd, hdx⟩) | ⟨p, hp, hpx⟩) | ⟨p, hp, hpx⟩
      · exact hax ▸ hA a ha
      · exact hdx ▸ hD d hd
      · exact hpx ▸ hP p hp
      · exact hpx ▸ hT p hp
    have hsum : (0 : ℚ) ≤ L.sum := List.sum_nonneg hmem
    have hlen : (0 : ℚ) < (L.length : ℚ) := by
      have h1 : L ≠ [] := by
        intro h
        rw [h] at hL
        exact hL rfl
      exact_mod_cast List.length_pos.mpr h1
    have hmean : (0 : ℚ) ≤ L.sum / (L.length : ℚ) := div_nonneg hsum hlen.le
    have hne4 : ¬(addresses = [] ∧ dates = [] ∧ prices = [] ∧ patterns = []) := by
      rintro ⟨h1, h2, h3, h4⟩
      apply hL
      rw [hLdef, h1, h2, h3, h4]
      rfl
    have n1 : (0 : ℚ) ≤ (if ¬addresses.isEmpty then (1 : ℚ) else 0) := by
      split_ifs <;> norm_num
    have n2 : (0 : ℚ) ≤ (if ¬dates.isEmpty then (1 : ℚ) else 0) := by
      split_ifs <;> norm_num
    have n3 : (0 : ℚ) ≤ (if ¬prices.isEmpty then (1 : ℚ) else 0) := by
      split_ifs <;> norm_num
    have n4 : (0 : ℚ) ≤ (if ¬patterns.isEmpty then (1 : ℚ) else 0) := by
      split_ifs <;> norm_num
    have htypes : (1 : ℚ) ≤ (if ¬addresses.isEmpty then (1 : ℚ) else 0)
        + (if ¬dates.isEmpty then (1 : ℚ) else 0)
        + (if ¬prices.isEmpty then (1 : ℚ) else 0)
        + (if ¬patterns.isEmpty then (1 : ℚ) else 0) := by
      have hor : addresses ≠ [] ∨ dates ≠ [] ∨ prices ≠ [] ∨ patterns ≠ [] := by
        by_contra h
        push_neg at h
        exact hne4 ⟨h.1, h.2.1, h.2.2.1, h.2.2.2⟩
      rcases hor with h | h | h | h
      · have e : (if ¬addresses.isEmpty then (1 : ℚ) else 0) = 1 :=
          if_pos (by simp [List.isEmpty_iff, h])
        linarith
      · have e : (if ¬dates.isEmpty then (1 : ℚ) else 0) = 1 :=
          if_pos (by simp [List.isEmpty_iff, h])
        linarith
      · have e : (if ¬prices.isEmpty then (1 : ℚ) else 0) = 1 :=
          if_pos (by simp [List.isEmpty_iff, h])
        linarith
      · have e : (if ¬patterns.isEmpty then (1 : ℚ) else 0) = 1 :=
          if_pos (by simp [List.isEmpty_iff, h])
        linarith
    have hTpos : (0 : ℚ) < (if ¬addresses.isEmpty then (1 : ℚ) else 0)
        + (if ¬dates.isEmpty then (1 : ℚ) else 0)
        + (if ¬prices.isEmpty then (1 : ℚ) else 0)
        + (if ¬patterns.isEmpty then (1 : ℚ) else 0) :=
      lt_of_lt_of_le one_pos htypes
    have hbonus : (0 : ℚ) < min (((if ¬addresses.isEmpty then (1 : ℚ) else 0)
        + (if ¬dates.isEmpty then (1 : ℚ) else 0)
        + (if ¬prices.isEmpty then (1 : ℚ) else 0)
        + (if ¬patterns.isEmpty then (1 : ℚ) else 0)) * (5 / 100))
        (15 / 100 : ℚ) :=
      lt_min (by linarith) (by norm_num)
    simp only [qMin_eq, qAdd_eq, qDiv_eq, pySum_eq, qOfNat_eq, qMul_eq, mkRat_div]
    push_cast
    constructor
    · rw [max_eq_left (by linarith [hmean, hbonus.le])]
    · refine ⟨fun h0 => absurd h0 (ne_of_gt (lt_min (by linarith [hmean, hbonus])
        one_pos)), fun hc => absurd hc hne4⟩

theorem C5_overall_confidence_witness :
    (∀ p ∈ ([{ raw_text := "$99.99", amount := ⟨9999, 2⟩, currency := "USD",
               confidence := mkRat 3 4, context := none,
               price_type := some "total" }] : List ExtractedPrice),
      0 ≤ p.confidence)
    ∧ (calculate_overall_confidence [] []
          [{ raw_text := "$99.99", amount := ⟨9999, 2⟩, currency := "USD",
             confidence := mkRat 3 4, context := none,
             price_type := some "total" }] []
        = specOverallConfidence [] []
          [{ raw_text := "$99.99", amount := ⟨9999, 2⟩, currency := "USD",
             confidence := mkRat 3 4, context := none,
             price_type := some "total" }] []
      ∧ (calculate_overall_confidence [] []
            [{ raw_text := "$99.99", amount := ⟨9999, 2⟩, currency := "USD",
               confidence := mkRat 3 4, context := none,
               price_type := some "total" }] [] = 0
         ↔ ([] : List ExtractedAddress) = [] ∧ ([] : List ExtractedDate) = []
           ∧ ([{ raw_text := "$99.99", amount := ⟨9999, 2⟩, currency := "USD",
                 confidence := mkRat 3 4, context := none,
                 price_type := some "total" }] : List ExtractedPrice) = []
           ∧ ([] : List ExtractedPattern) = [])) :=
  ⟨by decide,
   C5_overall_confidence [] []
     [{ raw_text := "$99.99", amount := ⟨9999, 2⟩, currency := "USD",
        confidence := mkRat 3 4, context := none, price_type := some "total" }]
     [] (by decide) (by decide) (by decide) (by decide)⟩

theorem scoresAdd_zero (scores : List (String × ℚ)) (k : String) :
    scoresAdd scores k 0 = scores := by
  unfold scoresAdd
  conv_rhs => rw [← List.map_id scores]
  refine List.map_congr_left ?_
  intro p _
  split_ifs with h
  · rw [qAdd_eq, add_zero]
    rfl
  · rfl

theorem ite_scoresAdd (c : Prop) [Decidable c] (scores : List (String × ℚ))
    (k : String) (δ : ℚ) :
    (if c then scoresAdd scores k δ else scores)
      = scoresAdd scores k (if c then δ else 0) := by
  split_ifs with h
  · rfl
  · exact (scoresAdd_zero scores k).symm

theorem scores_chain_eval (d1 d2 d3 e1 e2 e3 s1 s2 s3 r1 r2 : ℚ) :
    scoresAdd (scoresAdd (scoresAdd (scoresAdd (scoresAdd (scoresAdd
      (scoresAdd (scoresAdd (scoresAdd (scoresAdd (scoresAdd
        [("order", 0), ("invoice", 0), ("shipping", 0),
         ("receipt", 0), ("booking", 0), ("unknown", 0)]
        "order" d1) "order" d2) "order" d3)
        "invoice" e1) "invoice" e2) "invoice" e3)
        "shipping" s1) "shipping" s2) "shipping" s3)
        "receipt" r1) "receipt" r2
      = [("order", d1 + d2 + d3), ("invoice", e1 + e2 + e3),
         ("shipping", s1 + s2 + s3), ("receipt", r1 + r2),
         ("booking", 0), ("unknown", 0)] := by
  simp [scoresAdd, qAdd_eq]

theorem pyMaxBy_apply (f : α → ℚ) (x : α) (l : List α) :
    f (pyMaxBy f x l) = pyMaxQ ((x :: l).map f) := by
  induction l generalizing x with
  | nil => rfl
  | cons a t ih =>
    rw [show pyMaxBy f x (a :: t) = pyMaxBy f (if f a > f x then a else x) t
      from rfl]
    rw [ih]
    have hgl : f (if f a > f x then a else x) = qMax (f x) (f a) := by
      rw [qMax_eq]
      by_cases h : f a > f x
      · rw [if_pos h, max_eq_right h.le]
      · rw [if_neg h, max_eq_left (le_of_not_lt h)]
    simp only [List.map_cons]
    rw [show pyMaxQ (f (if f a > f x then a else x) :: List.map f t)
      = (List.map f t).foldl qMax (f (if f a > f x then a else x)) from rfl]
    rw [show pyMaxQ (f x :: f a :: List.map f t)
      = (f a :: List.map f t).foldl qMax (f x) from rfl]
    rw [List.foldl_cons, hgl]

theorem docTypeResult_props (O I Sh Re : ℚ) :
    (∀ s ∈ (docTypeResult O I Sh Re).scores, s.1 = "booking" → s.2 = 0)
    ∧ (docTypeResult O I Sh Re).most_likely ≠ "booking"
    ∧ ((∃ s ∈ (docTypeResult O I Sh Re).scores, mkRat 3 10 ≤ s.2) →
        ((docTypeResult O I Sh Re).most_likely,
          (docTypeResult O I Sh Re).confidence) ∈ (docTypeResult O I Sh Re).scores
        ∧ ∀ s ∈ (docTypeResult O I Sh Re).scores,
            s.2 ≤ (docTypeResult O I Sh Re).confidence)
    ∧ ((∀ s ∈ (docTypeResult O I Sh Re).scores, s.2 < mkRat 3 10) →
        (docTypeResult O I Sh Re).most_likely = "unknown"
        ∧ (docTypeResult O I Sh Re).confidence = 0) := by
  have happ := pyMaxBy_apply Prod.snd ("order", O)
    [("invoice", I), ("shipping", Sh), ("receipt", Re),
     ("booking", (0 : ℚ)), ("unknown", (0 : ℚ))]
  simp only [List.map_cons, List.map_nil] at happ
  have hbook : ∀ s ∈ [("order", O), ("invoice", I), ("shipping", Sh),
      ("receipt", Re), ("booking", (0 : ℚ)), ("unknown", (0 : ℚ))],
      s.1 = "booking" → s.2 = 0 := by
    intro s hs hb
    simp only [List.mem_cons, List.not_mem_nil, or_false] at hs
    rcases hs with h | h | h | h | h | h
    all_goals rw [h]
    all_goals rw [h] at hb
    all_goals first
      | rfl
      | simp at hb
  unfold docTypeResult
  dsimp only
  simp only [List.map_cons, List.map_nil]
  by_cases ht : pyMaxQ [O, I, Sh, Re, 0, 0] < mkRat 3 10
  · rw [if_pos ht]
    refine ⟨hbook, by simp, ?_, fun _ => ⟨rfl, rfl⟩⟩
    rintro ⟨s, hs, hge⟩
    exfalso
    have hle : s.2 ≤ pyMaxQ [O, I, Sh, Re, 0, 0] := by
      rw [← happ]
      exact pyMaxBy_ge Prod.snd _ _ s hs
    have := lt_of_le_of_lt (le_trans hge hle) ht
    exact lt_irrefl _ this
  · rw [if_neg ht]
    dsimp only [pyMaxKey]
    refine ⟨hbook, ?_, ?_, ?_⟩
    · intro hkey
      have hmem := pyMaxBy_mem Prod.snd ("order", O)
        [("invoice", I), ("shipping", Sh), ("receipt", Re),
         ("booking", (0 : ℚ)), ("unknown", (0 : ℚ))]
      have hzero : (pyMaxBy Prod.snd ("order", O)
          [("invoice", I), ("shipping", Sh), ("receipt", Re),
           ("booking", (0 : ℚ)), ("unknown", (0 : ℚ))]).2 = 0 :=
        hbook _ hmem hkey
      rw [happ] at hzero
      apply ht
      rw [hzero]
      norm_num [mkRat_div]
    · intro _
      constructor
      · rw [← happ, Prod.mk.eta]
        exact pyMaxBy_mem Prod.snd _ _
      · intro s hs
        rw [← happ]
        exact pyMaxBy_ge Prod.snd _ _ s hs
    · intro hall
      exfalso
      apply ht
      rw [← happ]
      exact hall _ (pyMaxBy_mem Prod.snd _ _)

/-- C6: document-type inference accumulates exactly the stated additive
weights per category (`specDocTypeScores`); `booking` accumulates no weight
and is never the returned `most_likely`; when some accumulated score reaches
`0.3` the result is a maximal-score category with that score as confidence,
and when every score is below `0.3` the result is `unknown` with
confidence `0`. -/
theorem C6_document_type_inference
    (addresses : List ExtractedAddress) (dates : List ExtractedDate)
    (prices : List ExtractedPrice) (patterns : List ExtractedPattern) :
    (infer_document_type addresses dates prices patterns).scores
      = specDocTypeScores addresses dates prices patterns
    ∧ (∀ s ∈ (infer_document_type addresses dates prices patterns).scores,
        s.1 = "booking" → s.2 = 0)
    ∧ (infer_document_type addresses dates prices patterns).most_likely ≠ "booking"
    ∧ ((∃ s ∈ (infer_document_type addresses dates prices patterns).scores,
          mkRat 3 10 ≤ s.2) →
        ((infer_document_type addresses dates prices patterns).most_likely,
         (infer_document_type addresses dates prices patterns).confidence)
          ∈ (infer_document_type addresses dates prices patterns).scores
        ∧ ∀ s ∈ (infer_document_type addresses dates prices patterns).scores,
            s.2 ≤ (infer_document_type addresses dates prices patterns).confidence)
    ∧ ((∀ s ∈ (infer_document_type addresses dates prices patterns).scores,
          s.2 < mkRat 3 10) →
        (infer_document_type addresses dates prices patterns).most_likely = "unknown"
        ∧ (infer_document_type addresses dates prices patterns).confidence = 0) := by
  have hform : infer_document_type addresses dates prices patterns
      = docTypeResult
        ((if ¬(patterns.filter (fun p => p.pattern_type = "order_id")).isEmpty
            then mkRat 4 10 else 0)
         + (if ¬(dates.filter (fun d => d.date_type = some "order")).isEmpty
            then mkRat 3 10 else 0)
         + (if ¬prices.isEmpty then mkRat 2 10 else 0))
        ((if ¬(patterns.filter (fun p => p.pattern_type = "invoice")).isEmpty
            then mkRat 4 10 else 0)
         + (if ¬(dates.filter (fun d => d.date_type = some "invoice")).isEmpty
            then mkRat 3 10 else 0)
         + (if ¬prices.isEmpty ∧ prices.any (fun p => p.price_type = some "total")
            then mkRat 3 10 else 0))
        ((if ¬(patterns.filter (fun p => p.pattern_type = "tracking")).isEmpty
            then mkRat 4 10 else 0)
         + (if ¬(dates.filter (fun d => d.date_type = some "ship")).isEmpty
            then mkRat 3 10 else 0)
         + (if ¬(addresses.filter
              (fun a => strIn "ship" (pyLower (a.context.getD "")))).isEmpty
            then mkRat 3 10 else 0))
        ((if ¬prices.isEmpty ∧ prices.length > 2 then mkRat 3 10 else 0)
         + (if prices.any (fun p => p.price_type = some "tax")
            then mkRat 2 10 else 0)) := by
    unfold infer_document_type docTypeResult
    dsimp only
    simp only [ite_scoresAdd]
    rw [scores_chain_eval]
  rw [hform]
  have hscores : ∀ O I Sh Re : ℚ, (docTypeResult O I Sh Re).scores
      = [("order", O), ("invoice", I), ("shipping", Sh), ("receipt", Re),
         ("booking", 0), ("unknown", 0)] := by
    intro O I Sh Re
    unfold docTypeResult
    dsimp only
    split <;> rfl
  refine ⟨?_, docTypeResult_props _ _ _ _⟩
  rw [hscores]
  rfl

theorem C6_document_type_inference_witness :
    (∃ s ∈ (infer_document_type [] []
        [{ raw_text := "$99.99", amount := ⟨9999, 2⟩, currency := "USD",
           confidence := mkRat 3 4, context := none, price_type := some "total" },
         { raw_text := "$5.00", amount := ⟨500, 2⟩, currency := "USD",
           confidence := mkRat 3 4, context := none, price_type := some "total" },
         { raw_text := "$1.00", amount := ⟨100, 2⟩, currency := "USD",
           confidence := mkRat 3 4, context := none, price_type := some "total" }]
        []).scores, mkRat 3 10 ≤ s.2)
    ∧ (((infer_document_type [] []
          [{ raw_text := "$99.99", amount := ⟨9999, 2⟩, currency := "USD",
             confidence := mkRat 3 4, context := none, price_type := some "total" },
           { raw_text := "$5.00", amount := ⟨500, 2⟩, currency := "USD",
             confidence := mkRat 3 4, context := none, price_type := some "total" },
           { raw_text := "$1.00", amount := ⟨100, 2⟩, currency := "USD",
             confidence := mkRat 3 4, context := none, price_type := some "total" }]
          []).most_likely,
        (infer_document_type [] []
          [{ raw_text := "$99.99", amount := ⟨9999, 2⟩, currency := "USD",
             confidence := mkRat 3 4, context := none, price_type := some "total" },
           { raw_text := "$5.00", amount := ⟨500, 2⟩, currency := "USD",
             confidence := mkRat 3 4, context := none, price_type := some "total" },
           { raw_text := "$1.00", amount := ⟨100, 2⟩, currency := "USD",
             confidence := mkRat 3 4, context := none, price_type := some "total" }]
          []).confidence)
        ∈ (infer_document_type [] []
          [{ raw_text := "$99.99", amount := ⟨9999, 2⟩, currency := "USD",
             confidence := mkRat 3 4, context := none, price_type := some "total" },
           { raw_text := "$5.00", amount := ⟨500, 2⟩, currency := "USD",
             confidence := mkRat 3 4, context := none, price_type := some "total" },
           { raw_text := "$1.00", amount := ⟨100, 2⟩, currency := "USD",
             confidence := mkRat 3 4, context := none, price_type := some "total" }]
          []).scores
      ∧ ∀ s ∈ (infer_document_type [] []
          [{ raw_text := "$99.99", amount := ⟨9999, 2⟩, currency := "USD",
             confidence := mkRat 3 4, context := none, price_type := some "total" },
           { raw_text := "$5.00", amount := ⟨500, 2⟩, currency := "USD",
             confidence := mkRat 3 4, context := none, price_type := some "total" },
           { raw_text := "$1.00", amount := ⟨100, 2⟩, currency := "USD",
             confidence := mkRat 3 4, context := none, price_type := some "total" }]
          []).scores,
          s.2 ≤ (infer_document_type [] []
          [{ raw_text := "$99.99", amount := ⟨9999, 2⟩, currency := "USD",
             confidence := mkRat 3 4, context := none, price_type := some "total" },
           { raw_text := "$5.00", amount := ⟨500, 2⟩, currency := "USD",
             confidence := mkRat 3 4, context := none, price_type := some "total" },
           { raw_text := "$1.00", amount := ⟨100, 2⟩, currency := "USD",
             confidence := mkRat 3 4, context := none, price_type := some "total" }]
          []).confidence) :=
  ⟨by decide,
   (C6_document_type_inference [] []
     [{ raw_text := "$99.99", amount := ⟨9999, 2⟩, currency := "USD",
        confidence := mkRat 3 4, context := none, price_type := some "total" },
      { raw_text := "$5.00", amount := ⟨500, 2⟩, currency := "USD",
        confidence := mkRat 3 4, context := none, price_type := some "total" },
      { raw_text := "$1.00", amount := ⟨100, 2⟩, currency := "USD",
        confidence := mkRat 3 4, context := none, price_type := some "total" }]
     []).2.2.2.1 (by decide)⟩

/-! ## Lemmas for the `calculate_totals` characterisation (C8) -/

theorem assocGet_isSome_append [DecidableEq κ] (l l' : List (κ × β)) (k : κ)
    (h : (assocGet l k).isSome) : (assocGet (l ++ l') k).isSome := by
  unfold assocGet at *
  rw [List.find?_append]
  rcases hfl : l.find? (fun p => decide (p.1 = k)) with _ | v
  · rw [hfl] at h
    simp at h
  · rw [Option.or_of_isSome (by rw [hfl]; rfl)]
    rw [hfl]
    rfl

theorem assocGet_none_append [DecidableEq κ] (l l' : List (κ × β)) (k : κ)
    (h : assocGet l k = none) : assocGet (l ++ l') k = assocGet l' k := by
  unfold assocGet at *
  rw [List.find?_append]
  have hfl : l.find? (fun p => decide (p.1 = k)) = none := by
    rcases hfl : l.find? (fun p => decide (p.1 = k)) with _ | v
    · exact hfl
    · rw [hfl] at h
      simp at h
  rw [hfl]
  rfl

theorem assocGet_isSome_map [DecidableEq κ] (f : κ × β → κ × β)
    (hf : ∀ x, (f x).1 = x.1) (l : List (κ × β)) (k : κ) :
    (assocGet (l.map f) k).isSome ↔ (assocGet l k).isSome := by
  unfold assocGet
  rw [List.find?_map]
  have hcomp : ((fun p : κ × β => decide (p.1 = k)) ∘ f)
      = (fun p : κ × β => decide (p.1 = k)) := by
    funext x
    rw [Function.comp_apply, hf]
  rw [hcomp]
  simp

theorem assocGet_singleton_isSome [DecidableEq κ] (x : κ × β) (k : κ) :
    (assocGet [x] k).isSome ↔ k = x.1 := by
  unfold assocGet
  by_cases hx : x.1 = k
  · simp [List.find?, hx]
  · simp [List.find?, hx]
    exact fun hk => hx hk.symm

theorem byTypeStep_isSome (acc : List (String × TypeTotals))
    (p : ExtractedPrice) (k : String) :
    (assocGet (byTypeStep acc p) k).isSome ↔
      ((assocGet acc k).isSome ∨ k = p.price_type.getD "unknown") := by
  unfold byTypeStep
  dsimp only
  rw [assocGet_isSome_map _ (fun x => by split_ifs <;> rfl)]
  by_cases hs : (assocGet acc (p.price_type.getD "unknown")).isSome
  · rw [if_pos hs]
    constructor
    · exact Or.inl
    · rintro (h | h)
      · exact h
      · rw [h]
        exact hs
  · rw [if_neg hs]
    by_cases hk : (assocGet acc k).isSome
    · constructor
      · intro _
        exact Or.inl hk
      · intro _
        exact assocGet_isSome_append _ _ _ hk
    · have hnone : assocGet acc k = none := Option.not_isSome_iff_eq_none.mp hk
      rw [assocGet_none_append _ _ _ hnone, assocGet_singleton_isSome]
      constructor
      · exact Or.inr
      · rintro (h | h)
        · exact absurd h hk
        · exact h

theorem decimal_foldl_add_toRat (l : List ExtractedPrice) (init : PyDecimal) :
    (l.foldl (fun acc p => acc.add p.amount) init).toRat
      = init.toRat + (l.map (fun p => p.amount.toRat)).sum := by
  induction l generalizing init with
  | nil => simp
  | cons a t ih =>
    rw [List.foldl_cons, ih, PyDecimal.add_toRat, List.map_cons, List.sum_cons]
    ring


theorem byType_foldl_inv (rest : List ExtractedPrice) :
    ∀ (done : List ExtractedPrice) (acc : List (String × TypeTotals)),
    (∀ q ∈ done, (assocGet acc (q.price_type.getD "unknown")).isSome) →
    (∀ tg ∈ acc,
      tg.2.prices = done.filter
          (fun q => q.price_type.getD "unknown" = tg.1 ∧ q.currency = tg.2.currency)
      ∧ tg.2.count = tg.2.prices.length
      ∧ tg.2.total_amount.toRat = (tg.2.prices.map (fun q => q.amount.toRat)).sum) →
    ∀ tg ∈ rest.foldl byTypeStep acc,
      tg.2.prices = (done ++ rest).filter
          (fun q => q.price_type.getD "unknown" = tg.1 ∧ q.currency = tg.2.currency)
      ∧ tg.2.count = tg.2.prices.length
      ∧ tg.2.total_amount.toRat = (tg.2.prices.map (fun q => q.amount.toRat)).sum := by
  induction rest with
  | nil =>
    intro done acc hdom hinv tg htg
    rw [List.foldl_nil] at htg
    rw [List.append_nil]
    exact hinv tg htg
  | cons p rest ih =>
    intro done acc hdom hinv tg htg
    rw [List.foldl_cons] at htg
    have hstep_dom : ∀ q ∈ done ++ [p],
        (assocGet (byTypeStep acc p) (q.price_type.getD "unknown")).isSome := by
      intro q hq
      rw [byTypeStep_isSome]
      rcases List.mem_append.mp hq with h | h
      · exact Or.inl (hdom q h)
      · rw [List.mem_singleton.mp h]
        exact Or.inr rfl
    have hstep_inv : ∀ tg ∈ byTypeStep acc p,
        tg.2.prices = (done ++ [p]).filter
            (fun q => q.price_type.getD "unknown" = tg.1 ∧ q.currency = tg.2.currency)
        ∧ tg.2.count = tg.2.prices.length
        ∧ tg.2.total_amount.toRat
            = (tg.2.prices.map (fun q => q.amount.toRat)).sum := by
      intro tg htg2
      unfold byTypeStep at htg2
      dsimp only at htg2
      rcases List.mem_map.mp htg2 with ⟨kg, hkg, hfeq⟩
      have hkg2 : kg ∈ acc
          ∨ (assocGet acc (p.price_type.getD "unknown") = none
             ∧ kg = (p.price_type.getD "unknown",
                 { total_amount := ⟨0, 0⟩, currency := p.currency,
                   count := 0, prices := [] })) := by
        by_cases hs : (assocGet acc (p.price_type.getD "unknown")).isSome
        · rw [if_pos hs] at hkg
          exact Or.inl hkg
        · rw [if_neg hs] at hkg
          rcases List.mem_append.mp hkg with h | h
          · exact Or.inl h
          · exact Or.inr ⟨Option.not_isSome_iff_eq_none.mp hs,
              List.mem_singleton.mp h⟩
      by_cases hm : kg.1 = p.price_type.getD "unknown" ∧ kg.2.currency = p.currency
      · rw [if_pos hm] at hfeq
        subst hfeq
        dsimp only
        have hp_pass : List.filter
            (fun q => q.price_type.getD "unknown" = kg.1
              ∧ q.currency = kg.2.currency) [p] = [p] := by
          simp [List.filter, hm.1, hm.2]
        rcases hkg2 with hin | ⟨hnone, hkgeq⟩
        · obtain ⟨h1, h2, h3⟩ := hinv kg hin
          refine ⟨?_, ?_, ?_⟩
          · rw [List.filter_append, hp_pass, ← h1]
          · simp [h2]
          · rw [PyDecimal.add_toRat, h3]
            simp
        · have hk1 : kg.1 = p.price_type.getD "unknown" := by rw [hkgeq]
          have hk2 : kg.2 = { total_amount := (⟨0, 0⟩ : PyDecimal),
                              currency := p.currency, count := 0,
                              prices := ([] : List ExtractedPrice) } := by
            rw [hkgeq]
          have hdone_nil : List.filter
              (fun q => q.price_type.getD "unknown" = kg.1
                ∧ q.currency = kg.2.currency) done = [] := by
            rw [List.filter_eq_nil_iff]
            intro q hq hP
            rw [decide_eq_true_eq] at hP
            have hsome := hdom q hq
            rw [hP.1, hk1, hnone] at hsome
            simp at hsome
          refine ⟨?_, ?_, ?_⟩
          · rw [List.filter_append, hp_pass, hdone_nil]
            simp [hk2]
          · simp [hk2]
          · rw [hk2]
            dsimp only
            rw [PyDecimal.add_toRat]
            norm_num [PyDecimal.toRat, mkRat_div]
      · rw [if_neg hm] at hfeq
        subst hfeq
        have hkg_in : kg ∈ acc := by
          rcases hkg2 with h | ⟨_, hkgeq⟩
          · exact h
          · exact absurd (show kg.1 = p.price_type.getD "unknown"
                ∧ kg.2.currency = p.currency by rw [hkgeq]; exact ⟨rfl, rfl⟩) hm
        obtain ⟨h1, h2, h3⟩ := hinv kg hkg_in
        refine ⟨?_, h2, h3⟩
        have hp_fail : List.filter
            (fun q => q.price_type.getD "unknown" = kg.1
              ∧ q.currency = kg.2.currency) [p] = [] := by
          have hnp : ¬(p.price_type.getD "unknown" = kg.1
              ∧ p.currency = kg.2.currency) :=
            fun hc => hm ⟨hc.1.symm, hc.2.symm⟩
          simp [List.filter, hnp]
        rw [List.filter_append, hp_fail, ← h1, List.append_nil]
    have hres := ih (done ++ [p]) (byTypeStep acc p) hstep_dom hstep_inv tg htg
    rw [List.append_assoc, List.singleton_append] at hres
    exact hres


/-- C8 (amended): `calculate_totals` never adds amounts of different
currencies into one sum, but it does not total every currency group either —
with no prices the result is the zero-USD empty dict; in simple mode it sums
exactly the prices sharing the first price's currency (with their number as
`count`), silently omitting every other price; in by-type mode each bucket
keeps a single currency and sums exactly the same-type prices of that
currency, silently omitting same-type prices of other currencies. -/
theorem C8_amended_totals :
    (∀ by_type : Bool, calculate_totals [] by_type = .empty ⟨0, 0⟩ "USD" 0)
  ∧ (∀ (p0 : ExtractedPrice) (rest : List ExtractedPrice),
      ∃ total : PyDecimal,
        calculate_totals (p0 :: rest) false
          = .simple total p0.currency
              ((p0 :: rest).filter (fun q => q.currency = p0.currency)).length
              (p0 :: rest)
        ∧ total.toRat
            = (((p0 :: rest).filter (fun q => q.currency = p0.currency)).map
                (fun q => q.amount.toRat)).sum)
  ∧ (∀ (prices : List ExtractedPrice) (groups : List (String × TypeTotals))
        (tg : String × TypeTotals),
      calculate_totals prices true = .byType groups → tg ∈ groups →
        tg.2.prices = prices.filter
          (fun q => q.price_type.getD "unknown" = tg.1 ∧ q.currency = tg.2.currency)
        ∧ tg.2.count = tg.2.prices.length
        ∧ tg.2.total_amount.toRat
            = (tg.2.prices.map (fun q => q.amount.toRat)).sum) := by
  refine ⟨?_, ?_, ?_⟩
  · intro b
    rfl
  · intro p0 rest
    refine ⟨((p0 :: rest).filter (fun q => q.currency = p0.currency)).foldl
      (fun acc q => acc.add q.amount) ⟨0, 0⟩, ?_, ?_⟩
    · rfl
    · rw [decimal_foldl_add_toRat]
      norm_num [PyDecimal.toRat, mkRat_div]
  · intro prices groups tg heq htg
    cases prices with
    | nil => exact absurd heq (by simp [calculate_totals])
    | cons p0 rest =>
      have hgroups : groups = (p0 :: rest).foldl byTypeStep [] := by
        have hcalc : calculate_totals (p0 :: rest) true
            = .byType ((p0 :: rest).foldl byTypeStep []) := rfl
        rw [hcalc] at heq
        injection heq with h
        exact h.symm
      subst hgroups
      simpa using byType_foldl_inv (p0 :: rest) [] [] (by simp) (by simp) tg htg

theorem C8_amended_totals_witness :
    calculate_totals
        [{ raw_text := "$10", amount := ⟨10, 0⟩, currency := "USD",
           confidence := mkRat 9 10, context := none, price_type := none },
         { raw_text := "€5", amount := ⟨5, 0⟩, currency := "EUR",
           confidence := mkRat 8 10, context := none, price_type := none }] true
      = .byType [("unknown",
          { total_amount := ⟨10, 0⟩, currency := "USD", count := 1,
            prices := [{ raw_text := "$10", amount := ⟨10, 0⟩, currency := "USD",
                         confidence := mkRat 9 10, context := none,
                         price_type := none }] })]
    ∧ (("unknown",
          ({ total_amount := ⟨10, 0⟩, currency := "USD", count := 1,
             prices := [{ raw_text := "$10", amount := ⟨10, 0⟩, currency := "USD",
                          confidence := mkRat 9 10, context := none,
                          price_type := none }] } : TypeTotals)).2.prices
        = ([{ raw_text := "$10", amount := ⟨10, 0⟩, currency := "USD",
              confidence := mkRat 9 10, context := none, price_type := none },
            { raw_text := "€5", amount := ⟨5, 0⟩, currency := "EUR",
              confidence := mkRat 8 10, context := none, price_type := none }]
           : List ExtractedPrice).filter
            (fun q => q.price_type.getD "unknown"
                = ("unknown",
                   ({ total_amount := ⟨10, 0⟩, currency := "USD", count := 1,
                      prices := [{ raw_text := "$10", amount := ⟨10, 0⟩,
                                   currency := "USD", confidence := mkRat 9 10,
                                   context := none, price_type := none }] }
                    : TypeTotals)).1
              ∧ q.currency
                = ("unknown",
                   ({ total_amount := ⟨10, 0⟩, currency := "USD", count := 1,
                      prices := [{ raw_text := "$10", amount := ⟨10, 0⟩,
                                   currency := "USD", confidence := mkRat 9 10,
                                   context := none, price_type := none }] }
                    : TypeTotals)).2.currency)) :=
  ⟨by decide,
   ((C8_amended_totals.2.2
     [{ raw_text := "$10", amount := ⟨10, 0⟩, currency := "USD",
        confidence := mkRat 9 10, context := none, price_type := none },
      { raw_text := "€5", amount := ⟨5, 0⟩, currency := "EUR",
        confidence := mkRat 8 10, context := none, price_type := none }]
     [("unknown",
        { total_amount := ⟨10, 0⟩, currency := "USD", count := 1,
          prices := [{ raw_text := "$10", amount := ⟨10, 0⟩, currency := "USD",
                       confidence := mkRat 9 10, context := none,
                       price_type := none }] })]
     ("unknown",
        { total_amount := ⟨10, 0⟩, currency := "USD", count := 1,
          prices := [{ raw_text := "$10", amount := ⟨10, 0⟩, currency := "USD",
                       confidence := mkRat 9 10, context := none,
                       price_type := none }] })
     (by decide) (by decide)).1)⟩


set_option maxHeartbeats 1600000 in
/-- C9: `validate_results` runs each type's validator over every candidate of
that type; exactly the non-empty types contribute one averaged component each
(in the fixed addresses/dates/prices/patterns order); with no contributing
type the summary keeps `overall_valid = true` and score `0`; otherwise the
overall score is the arithmetic mean of the contributing per-type averages
and `overall_valid` holds exactly when that mean is at least `0.6`; and each
component's fields are the per-type average, valid count and total count. -/
theorem C9_validate_results (currency_symbols : List (String × String))
    (currency_codes : List String) (now : PyDateTime)
    (results : DeterministicResults) :
    (validate_results currency_symbols currency_codes now results).component_validations
      = (if ¬results.addresses.isEmpty
          then [("addresses", componentOf (results.addresses.map validate_address))]
          else [])
        ++ (if ¬results.dates.isEmpty
          then [("dates", componentOf (results.dates.map (validate_date now)))]
          else [])
        ++ (if ¬results.prices.isEmpty
          then [("prices", componentOf
            (results.prices.map (validate_price currency_symbols currency_codes)))]
          else [])
        ++ (if ¬results.patterns.isEmpty
          then [("patterns", componentOf (results.patterns.map validate_pattern))]
          else [])
    ∧ ((validate_results currency_symbols currency_codes now
          results).component_validations = [] →
        (validate_results currency_symbols currency_codes now results).overall_valid
          = true
        ∧ (validate_results currency_symbols currency_codes now
            results).overall_score = 0)
    ∧ ((validate_results currency_symbols currency_codes now
          results).component_validations ≠ [] →
        (validate_results currency_symbols currency_codes now results).overall_score
          = (((validate_results currency_symbols currency_codes now
                results).component_validations.map
              (fun c => c.2.average_score)).sum)
            / (((validate_results currency_symbols currency_codes now
                results).component_validations.length : ℚ))
        ∧ ((validate_results currency_symbols currency_codes now
              results).overall_valid = true
            ↔ mkRat 6 10 ≤ (validate_results currency_symbols currency_codes now
                results).overall_score))
    ∧ (∀ vs : List ValidationResult, vs ≠ [] →
        (componentOf vs).average_score
          = (vs.map (fun v => v.score)).sum / (vs.length : ℚ)
        ∧ (componentOf vs).valid_count = (vs.filter (fun v => v.valid)).length
        ∧ (componentOf vs).total_count = vs.length) := by
  have hcomp : ∀ vs : List ValidationResult, vs ≠ [] →
      (componentOf vs).average_score
        = (vs.map (fun v => v.score)).sum / (vs.length : ℚ)
      ∧ (componentOf vs).valid_count = (vs.filter (fun v => v.valid)).length
      ∧ (componentOf vs).total_count = vs.length := by
    intro vs _
    unfold componentOf
    refine ⟨?_, rfl, rfl⟩
    rw [qDiv_eq, pySum_eq, qOfNat_eq]
  refine ⟨?_, ?_, ?_, hcomp⟩
  all_goals unfold validate_results
  all_goals by_cases hA : results.addresses.isEmpty = true <;>
    by_cases hD : results.dates.isEmpty = true <;>
      by_cases hP : results.prices.isEmpty = true <;>
        by_cases hT : results.patterns.isEmpty = true <;>
          simp [hA, hD, hP, hT, qAdd_eq, qDiv_eq, qOfNat_eq, mkRat_div,
            ge_iff_le] <;>
          ring_nf


theorem C9_validate_results_witness :
    ((validate_results fallback_currency_symbols fallback_currency_codes
        ⟨2025, 6, 15, 12, 0, 0⟩
        { addresses := [], dates := [],
          prices := [{ raw_text := "$99.99", amount := ⟨9999, 2⟩,
                       currency := "USD", confidence := mkRat 3 4,
                       context := none, price_type := some "total" }],
          patterns := [], metadata := [], confidence := 0 }).overall_score
      = (((validate_results fallback_currency_symbols fallback_currency_codes
        ⟨2025, 6, 15, 12, 0, 0⟩
        { addresses := [], dates := [],
          prices := [{ raw_text := "$99.99", amount := ⟨9999, 2⟩,
                       currency := "USD", confidence := mkRat 3 4,
                       context := none, price_type := some "total" }],
          patterns := [], metadata := [], confidence := 0 }).component_validations.map
          (fun c => c.2.average_score)).sum)
        / (((validate_results fallback_currency_symbols fallback_currency_codes
        ⟨2025, 6, 15, 12, 0, 0⟩
        { addresses := [], dates := [],
          prices := [{ raw_text := "$99.99", amount := ⟨9999, 2⟩,
                       currency := "USD", confidence := mkRat 3 4,
                       context := none, price_type := some "total" }],
          patterns := [], metadata := [], confidence := 0 }).component_validations.length : ℚ))
     ∧ ((validate_results fallback_currency_symbols fallback_currency_codes
        ⟨2025, 6, 15, 12, 0, 0⟩
        { addresses := [], dates := [],
          prices := [{ raw_text := "$99.99", amount := ⟨9999, 2⟩,
                       currency := "USD", confidence := mkRat 3 4,
                       context := none, price_type := some "total" }],
          patterns := [], metadata := [], confidence := 0 }).overall_valid = true
        ↔ mkRat 6 10 ≤ (validate_results fallback_currency_symbols fallback_currency_codes
        ⟨2025, 6, 15, 12, 0, 0⟩
        { addresses := [], dates := [],
          prices := [{ raw_text := "$99.99", amount := ⟨9999, 2⟩,
                       currency := "USD", confidence := mkRat 3 4,
                       context := none, price_type := some "total" }],
          patterns := [], metadata := [], confidence := 0 }).overall_score))
    ∧ ((componentOf [validate_price fallback_currency_symbols fallback_currency_codes
        { raw_text := "$99.99", amount := ⟨9999, 2⟩, currency := "USD",
          confidence := mkRat 3 4, context := none,
          price_type := some "total" }]).average_score
        = (([validate_price fallback_currency_symbols fallback_currency_codes
        { raw_text := "$99.99", amount := ⟨9999, 2⟩, currency := "USD",
          confidence := mkRat 3 4, context := none,
          price_type := some "total" }] : List ValidationResult).map (fun v => v.score)).sum
          / ((([validate_price fallback_currency_symbols fallback_currency_codes
        { raw_text := "$99.99", amount := ⟨9999, 2⟩, currency := "USD",
          confidence := mkRat 3 4, context := none,
          price_type := some "total" }] : List ValidationResult).length : ℚ))
      ∧ (componentOf [validate_price fallback_currency_symbols fallback_currency_codes
        { raw_text := "$99.99", amount := ⟨9999, 2⟩, currency := "USD",
          confidence := mkRat 3 4, context := none,
          price_type := some "total" }]).valid_count
        = (([validate_price fallback_currency_symbols fallback_currency_codes
        { raw_text := "$99.99", amount := ⟨9999, 2⟩, currency := "USD",
          confidence := mkRat 3 4, context := none,
          price_type := some "total" }] : List ValidationResult).filter (fun v => v.valid)).length
      ∧ (componentOf [validate_price fallback_currency_symbols fallback_currency_codes
        { raw_text := "$99.99", amount := ⟨9999, 2⟩, currency := "USD",
          confidence := mkRat 3 4, context := none,
          price_type := some "total" }]).total_count
        = ([validate_price fallback_currency_symbols fallback_currency_codes
        { raw_text := "$99.99", amount := ⟨9999, 2⟩, currency := "USD",
          confidence := mkRat 3 4, context := none,
          price_type := some "total" }] : List ValidationResult).length) :=
  ⟨(C9_validate_results fallback_currency_symbols fallback_currency_codes
      ⟨2025, 6, 15, 12, 0, 0⟩
      { addresses := [], dates := [],
        prices := [{ raw_text := "$99.99", amount := ⟨9999, 2⟩,
                     currency := "USD", confidence := mkRat 3 4,
                     context := none, price_type := some "total" }],
        patterns := [], metadata := [], confidence := 0 }).2.2.1 (by decide),
   (C9_validate_results fallback_currency_symbols fallback_currency_codes
      ⟨2025, 6, 15, 12, 0, 0⟩
      { addresses := [], dates := [],
        prices := [{ raw_text := "$99.99", amount := ⟨9999, 2⟩,
                     currency := "USD", confidence := mkRat 3 4,
                     context := none, price_type := some "total" }],
        patterns := [], metadata := [], confidence := 0 }).2.2.2
     [validate_price fallback_currency_symbols fallback_currency_codes
        { raw_text := "$99.99", amount := ⟨9999, 2⟩, currency := "USD",
          confidence := mkRat 3 4, context := none,
          price_type := some "total" }] (by simp)⟩


end Extraction
